import Mathlib

/-!
The program star-catalog: galaxies, stars and the concurrent pipeline.

A shallow embedding of the Go packages `galaxy`, `star` and `main`.

* The database (`database/sql` over MySQL) is the environment.  It is modelled
  as two tables of rows with nullable columns, together with the failures
  the library can report: an error returned by `db.Query` / `db.QueryRow`, and
  an error that interrupts the iteration of a result set (`rows.Err()`).
* `GalaxyChannel` and `GalaxyStarChannel` never read anything back from their
  channels, so each is embedded as the pure function computing the sequence
  of channel operations it performs, in program order.
* `ProcessGalaxy` and `Pipeline` are embedded as transition systems.  One
  transition is one visible action of one goroutine (a log line, a channel
  operation, a `go` statement, a return); a schedule is a list of choices of
  which goroutine moves.
-/

namespace StarCatalog

/-! ## Go error values -/

/-- The error values that flow through the program.
`errNoRows` is the sentinel `sql.ErrNoRows`; `driver` is an error reported by
the driver for a query or while iterating a cursor; `scan` is the error of
`Rows.Scan` when the column with the given index cannot be stored in its
destination; `errorString` is a value built by `fmt.Errorf` with a format that
has no `%w` verb, that is `errors.New` of the formatted text. -/
inductive GoError where
  | errNoRows
  | driver (msg : String)
  | scan (column : Nat)
  | errorString (msg : String)
  deriving DecidableEq, Repr

/-- The method `Error()`.  For `scan` the text is the leading part of the
message of `database/sql` (the column name and the cause are left out). -/
def GoError.Error : GoError → String
  | .errNoRows => "sql: no rows in result set"
  | .driver msg => msg
  | .scan column => "sql: Scan error on column index " ++ toString column
  | .errorString msg => msg

/-- The dynamic types of the error values. -/
inductive GoErrorType where
  | errorsErrorString
  | fmtWrapError
  | driverError
  deriving DecidableEq, Repr

/-- Dynamic type of an error value: `sql.ErrNoRows` and every result of
`fmt.Errorf` without `%w` are `*errors.errorString`; `Rows.Scan` builds its
error with `%w`, a `*fmt.wrapError`. -/
def GoError.dynType : GoError → GoErrorType
  | .errNoRows => .errorsErrorString
  | .driver _ => .driverError
  | .scan _ => .fmtWrapError
  | .errorString _ => .errorsErrorString

/-- The test `errors.Is(err, sql.ErrNoRows)`: true for the sentinel itself.
A value made by `fmt.Errorf` without `%w` is a fresh allocation with no
`Unwrap` method, so it is never the sentinel; the errors of the driver and of
`Scan` do not wrap it either. -/
def GoError.isErrNoRows : GoError → Bool
  | .errNoRows => true
  | _ => false

/-- The call `fmt.Errorf("FindGalaxy %v", err)`. -/
def errorfFindGalaxy (err : GoError) : GoError :=
  .errorString ("FindGalaxy " ++ err.Error)

/-! ## Data model -/

/-- The struct `galaxy.Galaxy`.  `CreatedAt` is an abstract time stamp. -/
structure Galaxy where
  Id : Int
  Name : String
  UgcNumber : String
  CreatedAt : Nat
  deriving DecidableEq, Repr

/-- The zero value of `Galaxy` (`var galaxy Galaxy`). -/
instance : Inhabited Galaxy := ⟨⟨0, "", "", 0⟩⟩

/-- The struct `star.Star`. -/
structure Star where
  Id : Int
  GalaxyId : Int
  Name : String
  GaiaCatalogueId : String
  CreatedAt : Nat
  deriving DecidableEq, Repr

/-- The zero value of `Star` (`var star Star`). -/
instance : Inhabited Star := ⟨⟨0, 0, "", "", 0⟩⟩

/-- The function `ValidateGalaxy`. -/
def ValidateGalaxy (got want : Galaxy) : Bool :=
  got.UgcNumber == want.UgcNumber

/-- The function `ValidateStar`. -/
def ValidateStar (got want : Star) : Bool :=
  got.GalaxyId == want.GalaxyId && got.Name == want.Name &&
    got.GaiaCatalogueId == want.GaiaCatalogueId

/-! ## The store -/

/-- A row of table `galaxies`, columns in the order in which `Scan` reads
them; `none` is SQL `NULL`. -/
structure GalaxyRow where
  id : Option Int
  name : Option String
  ugc_number : Option String
  created_at : Option Nat
  deriving DecidableEq, Repr

/-- A row of table `stars`. -/
structure StarRow where
  id : Option Int
  galaxy_id : Option Int
  name : Option String
  gaia_catalogue_id : Option String
  created_at : Option Nat
  deriving DecidableEq, Repr

/-- The three statements the program sends to the database. -/
inductive Statement where
  | selectGalaxies
  | selectGalaxyByUgc (ugc_number : String)
  | selectStars (galaxy_id : Int)
  deriving DecidableEq, Repr

/-- The database as the program sees it: the content of the two tables in
query order, the error (if any) with which the database answers a statement,
and the error (if any) that interrupts the iteration of the result of a
statement after a number of rows (`rows.Next()` returns false and
`rows.Err()` is that error). -/
structure Store where
  galaxies : List GalaxyRow
  stars : List StarRow
  queryErr : Statement → Option GoError
  cursorErr : Statement → Option (Nat × GoError)

/-- A result set `*sql.Rows`: the rows `Next` will deliver, and the value of
`Err()` once `Next` has returned false. -/
structure Rows (ρ : Type) where
  pending : List ρ
  err : Option GoError

/-- Running a statement whose matching rows are `selected`. -/
def Store.execute {ρ : Type} (db : Store) (stmt : Statement) (selected : List ρ) :
    Except GoError (Rows ρ) :=
  match db.queryErr stmt with
  | some err => .error err
  | none =>
    match db.cursorErr stmt with
    | none => .ok ⟨selected, none⟩
    | some (k, err) => .ok ⟨selected.take k, some err⟩

/-- The query `db.Query("SELECT * FROM galaxies")`. -/
def Store.QueryGalaxies (db : Store) : Except GoError (Rows GalaxyRow) :=
  db.execute .selectGalaxies db.galaxies

/-- The query `SELECT * FROM galaxies WHERE ugc_number = ?`. -/
def Store.QueryGalaxyByUgc (db : Store) (ugc_number : String) :
    Except GoError (Rows GalaxyRow) :=
  db.execute (.selectGalaxyByUgc ugc_number)
    (db.galaxies.filter (fun r => r.ugc_number = some ugc_number))

/-- The query `db.Query("SELECT * FROM stars WHERE galaxy_id = ?", id)`. -/
def Store.QueryStars (db : Store) (galaxy_id : Int) : Except GoError (Rows StarRow) :=
  db.execute (.selectStars galaxy_id)
    (db.stars.filter (fun r => r.galaxy_id = some galaxy_id))

/-- The call `Scan(&galaxy.Id, &galaxy.Name, &galaxy.UgcNumber, &galaxy.CreatedAt)`
on one row: the columns are stored left to right into the destination, and
the first `NULL` column stops the scan with an error (the fields to its left
have already been written). -/
def GalaxyRow.Scan (r : GalaxyRow) (galaxy : Galaxy) : Galaxy × Option GoError :=
  match r.id with
  | none => (galaxy, some (.scan 0))
  | some id =>
    let galaxy := { galaxy with Id := id }
    match r.name with
    | none => (galaxy, some (.scan 1))
    | some name =>
      let galaxy := { galaxy with Name := name }
      match r.ugc_number with
      | none => (galaxy, some (.scan 2))
      | some ugc =>
        let galaxy := { galaxy with UgcNumber := ugc }
        match r.created_at with
        | none => (galaxy, some (.scan 3))
        | some t => ({ galaxy with CreatedAt := t }, none)

/-- The call `Scan(&star.Id, &star.GalaxyId, &star.Name, &star.GaiaCatalogueId,
&star.CreatedAt)` on one row. -/
def StarRow.Scan (r : StarRow) (star : Star) : Star × Option GoError :=
  match r.id with
  | none => (star, some (.scan 0))
  | some id =>
    let star := { star with Id := id }
    match r.galaxy_id with
    | none => (star, some (.scan 1))
    | some gid =>
      let star := { star with GalaxyId := gid }
      match r.name with
      | none => (star, some (.scan 2))
      | some name =>
        let star := { star with Name := name }
        match r.gaia_catalogue_id with
        | none => (star, some (.scan 3))
        | some gaia =>
          let star := { star with GaiaCatalogueId := gaia }
          match r.created_at with
          | none => (star, some (.scan 4))
          | some t => ({ star with CreatedAt := t }, none)

/-- The method `(*sql.Row).Scan` behind `db.QueryRow(...).Scan(...)`: the
error of the query if it failed; with no row, the cursor error if there is
one and `sql.ErrNoRows` otherwise; else the scan of the first row. -/
def Rows.ScanRow (rows : Except GoError (Rows GalaxyRow)) (galaxy : Galaxy) :
    Galaxy × Option GoError :=
  match rows with
  | .error err => (galaxy, some err)
  | .ok rs =>
    match rs.pending with
    | [] => (galaxy, some (rs.err.getD .errNoRows))
    | r :: _ => r.Scan galaxy

/-! ## Package galaxy -/

/-- The function `FindGalaxy`: the galaxy variable after the scan, and the
returned error (`none` is `nil`). -/
def FindGalaxy (db : Store) (ugc_number : String) : Galaxy × Option GoError :=
  match Rows.ScanRow (db.QueryGalaxyByUgc ugc_number) default with
  | (galaxy, some err) => (galaxy, some (errorfFindGalaxy err))
  | (galaxy, none) => (galaxy, none)

/-- The operations `GalaxyChannel` performs on its two channels. -/
inductive GalaxyOp where
  | sendGalaxy (galaxy : Galaxy)
  | sendError (err : GoError)
  | closeError
  | closeGalaxy
  deriving DecidableEq, Repr

/-- The loop `for rows.Next() { ... }` of `GalaxyChannel` followed by the
check of `rows.Err()`: the operations performed on the rows still to come. -/
def GalaxyChannel.loop : List GalaxyRow → Option GoError → List GalaxyOp
  | [], none => []
  | [], some err => [.sendError err]
  | r :: rest, cursor =>
    match r.Scan default with
    | (_, some err) => [.sendError err]
    | (galaxy, none) => .sendGalaxy galaxy :: GalaxyChannel.loop rest cursor

/-- The function `GalaxyChannel`: the operations of its body, then the two
deferred closes, last registered first (`error_channel`, then
`galaxy_channel`). -/
def GalaxyChannel (db : Store) : List GalaxyOp :=
  (match db.QueryGalaxies with
    | .error err => [.sendError err]
    | .ok rows => GalaxyChannel.loop rows.pending rows.err) ++ [.closeError, .closeGalaxy]

/-! ## Package star -/

/-- The operations `GalaxyStarChannel` performs on `star_channel`. -/
inductive StarOp where
  | sendStar (star : Star)
  | closeStar
  deriving DecidableEq, Repr

/-- The loop of `GalaxyStarChannel` and the check of `rows.Err()`: the sends
performed, and the value returned. -/
def GalaxyStarChannel.loop : List StarRow → Option GoError → List StarOp × Option GoError
  | [], cursor => ([], cursor)
  | r :: rest, cursor =>
    match r.Scan default with
    | (_, some err) => ([], some err)
    | (star, none) =>
      ((StarOp.sendStar star) :: (GalaxyStarChannel.loop rest cursor).1,
        (GalaxyStarChannel.loop rest cursor).2)

/-- The function `GalaxyStarChannel`: the operations on `star_channel` (the
deferred close is the last one) and the returned error. -/
def GalaxyStarChannel (db : Store) (galaxy : Galaxy) : List StarOp × Option GoError :=
  match db.QueryStars galaxy.Id with
  | .error err => ([.closeStar], some err)
  | .ok rows =>
    ((GalaxyStarChannel.loop rows.pending rows.err).1 ++ [.closeStar],
      (GalaxyStarChannel.loop rows.pending rows.err).2)

/-! ## Package main: the worker `ProcessGalaxy` -/

/-- The function `ProcessStar`: the line it writes to the log (the date and
time the logger puts in front are not modelled). -/
def ProcessStar (galaxy : Galaxy) (star : Star) : String :=
  "Star: " ++ star.Name ++ ", Galaxy: " ++ galaxy.Name

/-- What a worker does that is visible from outside: a `log.Printf` of its
own, or a call of `ProcessStar`. -/
inductive Event where
  | printf (line : String)
  | processStar (galaxy : Galaxy) (star : Star)
  deriving DecidableEq, Repr

/-- The log line an event writes. -/
def Event.line : Event → String
  | .printf line => line
  | .processStar galaxy star => ProcessStar galaxy star

/-- The operations of the anonymous goroutine started by `ProcessGalaxy`:
those of `GalaxyStarChannel`, then a send on the worker's `error_channel`
when the returned error is not nil. -/
inductive RoutineOp where
  | star (op : StarOp)
  | sendErr (err : GoError)
  deriving DecidableEq, Repr

/-- The body of the goroutine `go func() { if err := GalaxyStarChannel(...);
err != nil { error_channel <- err } }()`. -/
def starRoutine (db : Store) (galaxy : Galaxy) : List RoutineOp :=
  (GalaxyStarChannel db galaxy).1.map RoutineOp.star ++
    (match (GalaxyStarChannel db galaxy).2 with
      | some err => [RoutineOp.sendErr err]
      | none => [])

/-- Control points of `ProcessGalaxy`. -/
inductive WorkerPc where
  | entry
  | goStmt
  | selectStmt
  | logErr (err : GoError)
  | logZero (err : GoError)
  | rangeStars
  | callProcessStar (star : Star)
  | logSummary
  | ret (r : Option GoError)
  | returned (r : Option GoError)
  deriving DecidableEq, Repr

/-- One activation of `ProcessGalaxy` with its goroutine: the argument, the
control point, the variable `num_stars` (a Go `int`; a count of rows never
reaches `2^63`, so it is a natural number here), the operations the
goroutine still has to perform (`none` before the `go` statement), whether
`star_channel` is closed, and the history `out` of the events of this
worker. -/
structure WorkerState where
  galaxy : Galaxy
  pc : WorkerPc
  num_stars : Nat
  routine : Option (List RoutineOp)
  star_closed : Bool
  out : List Event
  deriving DecidableEq, Repr

/-- Who moves in a worker: the function `ProcessGalaxy` itself, its
goroutine alone, or both in a rendezvous on an unbuffered channel. -/
inductive Move where
  | thread
  | routine
  | sync
  deriving DecidableEq, Repr

/-- The state of a worker when `ProcessGalaxy(db, galaxy)` is entered. -/
def ProcessGalaxy.init (galaxy : Galaxy) : WorkerState :=
  { galaxy := galaxy, pc := .entry, num_stars := 0, routine := none,
    star_closed := false, out := [] }

/-- An event of the worker: it is recorded in the history of the worker
and its line is appended to the log, and control moves to `pc`. -/
def WorkerState.emit (w : WorkerState) (log : List String) (ev : Event) (pc : WorkerPc) :
    WorkerState × List String :=
  ({ w with pc := pc, out := w.out ++ [ev] }, log ++ [ev.line])

/-- The line `log.Printf("%d stars processed for galaxy %s\n", num_stars,
galaxy.Name)`. -/
def summaryLine (num_stars : Nat) (galaxy : Galaxy) : String :=
  toString num_stars ++ " stars processed for galaxy " ++ galaxy.Name

/-- The line `log.Printf("Processing %s galaxy\n", galaxy.UgcNumber)`. -/
def processingLine (galaxy : Galaxy) : String :=
  "Processing " ++ galaxy.UgcNumber ++ " galaxy"

/-- The line `log.Printf(\x60ProcessGalaxy %v\n\x60, err)`; the format is a raw
string literal, so the two characters backslash and n are written out. -/
def errorLine (err : GoError) : String :=
  "ProcessGalaxy " ++ err.Error ++ "\\n"

/-- One transition of a worker, `none` when the move is not enabled.

* `select`: the receive from `error_channel` is possible only in a
  rendezvous with the goroutine standing at its send (`sync`); the `default`
  branch (`thread`) is taken when the goroutine has not arrived there.  The
  channel is never closed, so `ok` is true whenever the receive happens.
* `range star_channel`: a receive is a rendezvous with a send of the
  goroutine; the loop ends once the channel is closed.
* Returning is a transition of its own (`ret` to `returned`). -/
def ProcessGalaxy.step (db : Store) (m : Move) (w : WorkerState) (log : List String) :
    Option (WorkerState × List String) :=
  match m, w.pc, w.routine with
  | .thread, .entry, _ =>
    some (w.emit log (.printf (processingLine w.galaxy)) .goStmt)
  | .thread, .goStmt, _ =>
    some ({ w with pc := .selectStmt, routine := some (starRoutine db w.galaxy) }, log)
  | .sync, .selectStmt, some (.sendErr err :: rest) =>
    some ({ w with pc := .logErr err, routine := some rest }, log)
  | .thread, .selectStmt, _ =>
    some ({ w with pc := .rangeStars }, log)
  | .thread, .logErr err, _ =>
    some (w.emit log (.printf (errorLine err)) (.logZero err))
  | .thread, .logZero err, _ =>
    some (w.emit log (.printf (summaryLine w.num_stars w.galaxy)) (.ret (some err)))
  | .sync, .rangeStars, some (.star (.sendStar star) :: rest) =>
    some ({ w with pc := .callProcessStar star, num_stars := w.num_stars + 1,
                   routine := some rest }, log)
  | .thread, .rangeStars, _ =>
    if w.star_closed then some ({ w with pc := .logSummary }, log) else none
  | .thread, .callProcessStar star, _ =>
    some (w.emit log (.processStar w.galaxy star) .rangeStars)
  | .thread, .logSummary, _ =>
    some (w.emit log (.printf (summaryLine w.num_stars w.galaxy)) (.ret none))
  | .thread, .ret r, _ =>
    some ({ w with pc := .returned r }, log)
  | .routine, _, some (.star .closeStar :: rest) =>
    some ({ w with star_closed := true, routine := some rest }, log)
  | _, _, _ => none

/-- Running a schedule of moves of one worker, started with a given log. -/
def ProcessGalaxy.run (db : Store) :
    List Move → WorkerState × List String → Option (WorkerState × List String)
  | [], s => some s
  | m :: ms, s => (ProcessGalaxy.step db m s.1 s.2).bind (ProcessGalaxy.run db ms)

/-- The calls of `ProcessStar` among the events of a worker. -/
def processStarCalls : List Event → List (Galaxy × Star)
  | [] => []
  | .processStar galaxy star :: evs => (galaxy, star) :: processStarCalls evs
  | .printf _ :: evs => processStarCalls evs

/-! ## Package main: `Pipeline` and `processAllGalaxies` -/

/-- Control points of `Pipeline`, with `processAllGalaxies` inlined. -/
inductive MainPc where
  | entry
  | rangeGalaxies
  | wait
  | checkErr (err : Option GoError)
  | rangeErrors
  | logError (err : GoError)
  | returned
  deriving DecidableEq, Repr

/-- The state of a run of `Pipeline`: its control point, the operations the
goroutine running `GalaxyChannel` still has to perform (`none` before the `go`
statement), the state of `galaxy_channel` (unbuffered) and `error_channel`
(capacity 1), the workers started by `g.Go` in the order of their start, the
error held by the `errgroup.Group`, and the log. -/
structure PipelineState where
  pc : MainPc
  producer : Option (List GalaxyOp)
  galaxy_closed : Bool
  error_buffer : List GoError
  error_closed : Bool
  workers : List WorkerState
  group_err : Option GoError
  log : List String
  deriving DecidableEq, Repr

/-- Who moves in the pipeline: `Pipeline` itself, the goroutine of
`GalaxyChannel` alone, both in a rendezvous on `galaxy_channel`, or the worker
with the given index. -/
inductive Choice where
  | main
  | producer
  | deliver
  | worker (i : Nat) (m : Move)
  deriving DecidableEq, Repr

/-- The state when `Pipeline(db)` is entered. -/
def Pipeline.init : PipelineState :=
  { pc := .entry, producer := none, galaxy_closed := false, error_buffer := [],
    error_closed := false, workers := [], group_err := none, log := [] }

/-- The line `log.Printf(\x60Pipeline %v\n\x60, err)`; the format is a raw
string literal. -/
def pipelineLine (err : GoError) : String :=
  "Pipeline " ++ err.Error ++ "\\n"

/-- Whether the function of a worker has returned. -/
def WorkerState.isReturned (w : WorkerState) : Bool :=
  match w.pc with
  | .returned _ => true
  | _ => false

/-- The error an `errgroup.Group` holds after a function started with `Go`
returns `r`: the first error that is not nil is kept. -/
def errgroupRecord (group_err r : Option GoError) : Option GoError :=
  match group_err with
  | some err => some err
  | none => r

/-- One transition of the pipeline, `none` when the choice is not enabled.

* `range galaxy_channel`: each galaxy received starts a worker with `g.Go`
  (the closure holds the galaxy of its own iteration, as in Go 1.22 and
  later); the loop ends once the channel is closed.
* `g.Wait()` returns when every worker has returned, with the error held by
  the group.
* A send on `error_channel` needs room in its buffer of capacity 1.
* When the function of a worker returns, the group records its error. -/
def Pipeline.step (db : Store) (c : Choice) (s : PipelineState) : Option PipelineState :=
  match c with
  | .main =>
    match s.pc with
    | .entry => some { s with pc := .rangeGalaxies, producer := some (GalaxyChannel db) }
    | .rangeGalaxies => if s.galaxy_closed then some { s with pc := .wait } else none
    | .wait =>
      if s.workers.all WorkerState.isReturned then some { s with pc := .checkErr s.group_err }
      else none
    | .checkErr (some err) => some { s with pc := .rangeErrors, log := s.log ++ [pipelineLine err] }
    | .checkErr none => some { s with pc := .rangeErrors }
    | .rangeErrors =>
      match s.error_buffer with
      | err :: rest => some { s with pc := .logError err, error_buffer := rest }
      | [] => if s.error_closed then some { s with pc := .returned } else none
    | .logError err => some { s with pc := .rangeErrors, log := s.log ++ [pipelineLine err] }
    | .returned => none
  | .producer =>
    match s.producer with
    | some (.sendError err :: rest) =>
      if s.error_buffer.length < 1 then
        some { s with producer := some rest, error_buffer := s.error_buffer ++ [err] }
      else none
    | some (.closeError :: rest) => some { s with producer := some rest, error_closed := true }
    | some (.closeGalaxy :: rest) => some { s with producer := some rest, galaxy_closed := true }
    | _ => none
  | .deliver =>
    match s.pc, s.producer with
    | .rangeGalaxies, some (.sendGalaxy galaxy :: rest) =>
      some { s with producer := some rest, workers := s.workers ++ [ProcessGalaxy.init galaxy] }
    | _, _ => none
  | .worker i m =>
    match s.workers[i]? with
    | none => none
    | some w =>
      match ProcessGalaxy.step db m w s.log with
      | none => none
      | some (w', log') =>
        some { s with
          workers := s.workers.set i w'
          log := log'
          group_err :=
            match m, w.pc with
            | .thread, .ret r => errgroupRecord s.group_err r
            | _, _ => s.group_err }

/-- Running a schedule of choices. -/
def Pipeline.run (db : Store) : List Choice → PipelineState → Option PipelineState
  | [], s => some s
  | c :: cs, s => (Pipeline.step db c s).bind (Pipeline.run db cs)

/-! ## What a consumer of a channel sees -/

/-- The galaxies sent on `galaxy_channel` by a sequence of operations. -/
def galaxiesSent : List GalaxyOp → List Galaxy
  | [] => []
  | .sendGalaxy galaxy :: ops => galaxy :: galaxiesSent ops
  | _ :: ops => galaxiesSent ops

/-- The errors sent on `error_channel` by a sequence of operations. -/
def errorsSent : List GalaxyOp → List GoError
  | [] => []
  | .sendError err :: ops => err :: errorsSent ops
  | _ :: ops => errorsSent ops

/-- The receive number `i` (counted from 0) on a channel on which the values
`sent` were sent before it was closed: the value and the flag `ok`.  Once the
values are used up a receive yields the zero value of the element type. -/
def recvClosed {α : Type} [Inhabited α] (sent : List α) (i : Nat) : α × Bool :=
  match sent[i]? with
  | some v => (v, true)
  | none => (default, false)

/-- The number of iterations of `for v := range ch` on a channel on which the
values `sent` were sent before it was closed. -/
def rangeIterations {α : Type} (sent : List α) : Nat :=
  sent.length

/-! ## The seeded store -/

/-- The store after `InitDB`: the rows `seedData` inserts into empty tables,
with the identifiers an auto-increment column gives them; the time stamps are
left abstract.  No failure is injected. -/
def seedData : Store :=
  { galaxies :=
      [⟨some 1, some "Milky Way", some "ugc_number1", some 0⟩,
       ⟨some 2, some "Andromeda", some "ugc_number2", some 0⟩]
    stars :=
      [⟨some 1, some 1, some "Sun", some "gaia_catalogue_id1", some 0⟩,
       ⟨some 2, some 1, some "Alpha Centauri", some "gaia_catalogue_id2", some 0⟩,
       ⟨some 3, some 2, some "Star3", some "gaia_catalogue_id3", some 0⟩,
       ⟨some 4, some 2, some "Star4", some "gaia_catalogue_id4", some 0⟩,
       ⟨some 5, some 2, some "Star5", some "gaia_catalogue_id5", some 0⟩]
    queryErr := fun _ => none
    cursorErr := fun _ => none }

/-! ## Stores used as examples -/

/-- A store whose second galaxy row has a `NULL` name. -/
def storeNullSecond : Store :=
  { seedData with
    galaxies :=
      [⟨some 1, some "Milky Way", some "ugc_number1", some 0⟩,
       ⟨some 2, none, some "ugc_number2", some 0⟩,
       ⟨some 3, some "Triangulum", some "ugc_number3", some 0⟩] }

/-- A store whose only galaxy row has a `NULL` name. -/
def storeNullName : Store :=
  { seedData with
    galaxies := [⟨some 1, none, some "ugc_number1", some 0⟩] }

/-- The seeded store behind a connection on which every statement fails. -/
def storeOffline : Store :=
  { seedData with
    queryErr := fun _ => some (.driver "invalid connection") }

/-! ## Auxiliary notions for the proofs -/

/-- The stars sent on `star_channel` by a sequence of operations. -/
def starsSent : List StarOp → List Star
  | [] => []
  | .sendStar star :: ops => star :: starsSent ops
  | .closeStar :: ops => starsSent ops

/-- The stars `GalaxyStarChannel(db, galaxy, _)` sends. -/
def starsOf (db : Store) (galaxy : Galaxy) : List Star :=
  starsSent (GalaxyStarChannel db galaxy).1

/-- The send on the worker's `error_channel` that ends the goroutine of a
worker when `GalaxyStarChannel` returned an error. -/
def errTail : Option GoError → List RoutineOp
  | some err => [.sendErr err]
  | none => []

/-- The operations of the goroutine of a worker once `n` stars are received. -/
def routineFrom (stars : List Star) (r : Option GoError) (n : Nat) : List RoutineOp :=
  (stars.drop n).map (fun s => RoutineOp.star (.sendStar s)) ++
    RoutineOp.star .closeStar :: errTail r

/-- The events of a worker for `galaxy` once `n` of `stars` are processed. -/
def outAfter (galaxy : Galaxy) (stars : List Star) (n : Nat) : List Event :=
  Event.printf (processingLine galaxy) :: (stars.take n).map (Event.processStar galaxy)

/-- The events of a worker for `galaxy` that found no error and returned. -/
def outComplete (galaxy : Galaxy) (stars : List Star) : List Event :=
  Event.printf (processingLine galaxy) :: stars.map (Event.processStar galaxy) ++
    [Event.printf (summaryLine stars.length galaxy)]

/-- The events of a worker for `galaxy` that found the error `err` pending. -/
def outFailed (galaxy : Galaxy) (err : GoError) : List Event :=
  [.printf (processingLine galaxy), .printf (errorLine err), .printf (summaryLine 0 galaxy)]

/-- The goroutine of a worker of which `n` stars are received: either
`star_channel` is open and the goroutine has the rest of its operations to
perform, or the channel is closed, all stars are received and only the send of
the error (if any) is left. -/
def RoutineAt (stars : List Star) (r : Option GoError) (closed : Bool)
    (routine : Option (List RoutineOp)) (n : Nat) : Prop :=
  n ≤ stars.length ∧
    ((closed = false ∧ routine = some (routineFrom stars r n)) ∨
      (closed = true ∧ n = stars.length ∧ routine = some (errTail r)))

/-- The invariant of a worker: at each control point, what its variables,
its goroutine and its history are, in terms of the stars `GalaxyStarChannel`
sends for its galaxy and of the error it returns. -/
def WorkerInv (db : Store) (w : WorkerState) : Prop :=
  match w.pc with
  | .entry => w.routine = none ∧ w.star_closed = false ∧ w.num_stars = 0 ∧ w.out = []
  | .goStmt =>
    w.routine = none ∧ w.star_closed = false ∧ w.num_stars = 0 ∧
      w.out = [.printf (processingLine w.galaxy)]
  | .selectStmt =>
    w.num_stars = 0 ∧ w.out = [.printf (processingLine w.galaxy)] ∧
      RoutineAt (starsOf db w.galaxy) (GalaxyStarChannel db w.galaxy).2 w.star_closed w.routine 0
  | .rangeStars =>
    w.out = outAfter w.galaxy (starsOf db w.galaxy) w.num_stars ∧
      RoutineAt (starsOf db w.galaxy) (GalaxyStarChannel db w.galaxy).2 w.star_closed w.routine
        w.num_stars
  | .callProcessStar star =>
    ∃ k, w.num_stars = k + 1 ∧ (starsOf db w.galaxy)[k]? = some star ∧
      w.out = outAfter w.galaxy (starsOf db w.galaxy) k ∧
      RoutineAt (starsOf db w.galaxy) (GalaxyStarChannel db w.galaxy).2 w.star_closed w.routine
        (k + 1)
  | .logSummary =>
    w.num_stars = (starsOf db w.galaxy).length ∧
      w.out = outAfter w.galaxy (starsOf db w.galaxy) w.num_stars
  | .ret none => w.out = outComplete w.galaxy (starsOf db w.galaxy)
  | .returned none => w.out = outComplete w.galaxy (starsOf db w.galaxy)
  | .logErr err =>
    starsOf db w.galaxy = [] ∧ (GalaxyStarChannel db w.galaxy).2 = some err ∧
      w.num_stars = 0 ∧ w.out = [.printf (processingLine w.galaxy)]
  | .logZero err =>
    starsOf db w.galaxy = [] ∧ (GalaxyStarChannel db w.galaxy).2 = some err ∧
      w.num_stars = 0 ∧
      w.out = [.printf (processingLine w.galaxy), .printf (errorLine err)]
  | .ret (some err) =>
    starsOf db w.galaxy = [] ∧ (GalaxyStarChannel db w.galaxy).2 = some err ∧
      w.out = outFailed w.galaxy err
  | .returned (some err) =>
    starsOf db w.galaxy = [] ∧ (GalaxyStarChannel db w.galaxy).2 = some err ∧
      w.out = outFailed w.galaxy err

/-- A bound on the number of transitions a worker can still make from a
control point, not counting those that consume an operation of its goroutine. -/
def workerRank : WorkerPc → Nat
  | .entry => 8
  | .goStmt => 7
  | .selectStmt => 6
  | .callProcessStar _ => 5
  | .rangeStars => 4
  | .logErr _ => 3
  | .logSummary => 3
  | .logZero _ => 2
  | .ret _ => 1
  | .returned _ => 0

/-- A bound on the number of transitions a worker can still make. -/
def workerFuel (db : Store) (w : WorkerState) : Nat :=
  workerRank w.pc +
    3 * (match w.routine with
          | some ops => ops.length
          | none => (starRoutine db w.galaxy).length)

/-- The first seeded galaxy as `FindGalaxy` returns it. -/
def milkyWay : Galaxy := ⟨1, "Milky Way", "ugc_number1", 0⟩

/-- The result set of the stars query for `milkyWay` on the seeded store. -/
def milkyWayRows : Rows StarRow :=
  ⟨[⟨some 1, some 1, some "Sun", some "gaia_catalogue_id1", some 0⟩,
    ⟨some 2, some 1, some "Alpha Centauri", some "gaia_catalogue_id2", some 0⟩], none⟩

/-- A schedule of `ProcessGalaxy(seedData, milkyWay)` in which the goroutine
closes `star_channel` as soon as it can. -/
def milkyWaySchedule : List Move :=
  [.thread, .thread, .thread, .sync, .thread, .sync, .routine, .thread, .thread, .thread,
    .thread]

/-- The worker and the log at the end of `milkyWaySchedule`. -/
def milkyWayDone : WorkerState × List String :=
  ({ galaxy := milkyWay, pc := .returned none, num_stars := 2, routine := some [],
     star_closed := true,
     out := [.printf "Processing ugc_number1 galaxy",
             .processStar milkyWay ⟨1, 1, "Sun", "gaia_catalogue_id1", 0⟩,
             .processStar milkyWay ⟨2, 1, "Alpha Centauri", "gaia_catalogue_id2", 0⟩,
             .printf "2 stars processed for galaxy Milky Way"] },
   ["Processing ugc_number1 galaxy", "Star: Sun, Galaxy: Milky Way",
    "Star: Alpha Centauri, Galaxy: Milky Way", "2 stars processed for galaxy Milky Way"])

/-! ## Auxiliary notions for the proofs about `Pipeline` -/

/-- How far `Pipeline` has come: before the `go` statement, in the loop over
`galaxy_channel`, in `g.Wait()`, after `processAllGalaxies`, in the loop over
`error_channel`, returned. -/
def MainPc.stage : MainPc → Nat
  | .entry => 0
  | .rangeGalaxies => 1
  | .wait => 2
  | .checkErr _ => 3
  | .rangeErrors => 4
  | .logError _ => 4
  | .returned => 5

/-- A bound on the number of transitions `Pipeline` itself can still make
from a control point, not counting the receives from `error_channel`. -/
def mainRank : MainPc → Nat
  | .entry => 6
  | .rangeGalaxies => 5
  | .wait => 4
  | .checkErr _ => 3
  | .logError _ => 2
  | .rangeErrors => 1
  | .returned => 0

/-- The transitions an operation of `GalaxyChannel` gives rise to: a galaxy
sent starts a worker, an error sent is received and logged. -/
def opCost (db : Store) : GalaxyOp → Nat
  | .sendGalaxy galaxy => 1 + workerFuel db (ProcessGalaxy.init galaxy)
  | .sendError _ => 3
  | .closeError => 1
  | .closeGalaxy => 1

/-- A bound on the number of transitions a run of the pipeline can still make. -/
def pipelineFuel (db : Store) (s : PipelineState) : Nat :=
  mainRank s.pc + ((s.producer.getD (GalaxyChannel db)).map (opCost db)).sum +
    (s.workers.map (workerFuel db)).sum + 2 * s.error_buffer.length

/-- The lines the workers have written, as a multiset. -/
def workerLines (workers : List WorkerState) : Multiset String :=
  (workers.map (fun w => (↑(w.out.map Event.line) : Multiset String))).sum

/-- The invariant of the pipeline.  `done` are the operations `GalaxyChannel`
has performed, `rem` those still to come, `mainLog` the lines written by
`Pipeline` itself. -/
structure PipelineInvAt (db : Store) (s : PipelineState) (done rem : List GalaxyOp)
    (mainLog : List String) : Prop where
  ops : GalaxyChannel db = done ++ rem
  producer : s.producer = if s.pc = .entry then none else some rem
  entry_done : s.pc = .entry → done = []
  workers : ∀ w ∈ s.workers, WorkerInv db w
  galaxies : s.workers.map (fun w => w.galaxy) = galaxiesSent done
  galaxy_closed : s.galaxy_closed = true ↔ GalaxyOp.closeGalaxy ∈ done
  error_closed : s.error_closed = true ↔ GalaxyOp.closeError ∈ done
  buffer_len : s.error_buffer.length ≤ (errorsSent done).length
  buffer_mem : ∀ e ∈ s.error_buffer, e ∈ errorsSent done
  logging : ∀ e, s.pc = .logError e → e ∈ errorsSent done
  errors : ∀ e ∈ errorsSent done,
    e ∈ s.error_buffer ∨ s.pc = .logError e ∨ pipelineLine e ∈ mainLog
  ranging : 2 ≤ s.pc.stage → s.galaxy_closed = true
  waited : 3 ≤ s.pc.stage → ∀ w ∈ s.workers, w.isReturned = true
  check : ∀ r, s.pc = .checkErr r → r = s.group_err
  group_none : s.group_err = none → ∀ w ∈ s.workers, ∀ e, w.pc ≠ .returned (some e)
  group_some : ∀ e, s.group_err = some e → ∃ w ∈ s.workers, w.pc = .returned (some e)
  log : (↑s.log : Multiset String) = workerLines s.workers + ↑mainLog
  mainLog_early : s.pc.stage ≤ 3 → mainLog = []
  mainLog_lines : ∀ l ∈ mainLog,
    ∃ e, l = pipelineLine e ∧ (s.group_err = some e ∨ e ∈ errorsSent done)
  group_logged : 4 ≤ s.pc.stage → ∀ e, s.group_err = some e → pipelineLine e ∈ mainLog
  returned_buffer : s.pc = .returned → s.error_buffer = []

/-- The invariant of the pipeline. -/
def PipelineInv (db : Store) (s : PipelineState) : Prop :=
  ∃ done rem mainLog, PipelineInvAt db s done rem mainLog

/-! ## The expected output of a run without failure -/

/-- No query and no decode fails: the database answers every statement, no
cursor is interrupted, and no row holds a `NULL`. -/
def Store.NoFailure (db : Store) : Prop :=
  (∀ stmt, db.queryErr stmt = none) ∧ (∀ stmt, db.cursorErr stmt = none) ∧
    (∀ r ∈ db.galaxies, (r.Scan default).2 = none) ∧
    (∀ r ∈ db.stars, (r.Scan default).2 = none)

/-- The galaxies a store without failure holds, in query order. -/
def Store.galaxyList (db : Store) : List Galaxy :=
  db.galaxies.map (fun r => (r.Scan default).1)

/-- The stars of a galaxy in a store without failure, in query order. -/
def Store.starList (db : Store) (galaxy : Galaxy) : List Star :=
  (db.stars.filter (fun r => r.galaxy_id = some galaxy.Id)).map (fun r => (r.Scan default).1)

/-- The lines the log must hold for one galaxy with the given stars: the
line `Processing <UgcNumber> galaxy`, one line `Star: <Name>, Galaxy: <Name>`
per star, and the line `<n> stars processed for galaxy <Name>`. -/
def expectedGalaxyLines (galaxy : Galaxy) (stars : List Star) : List String :=
  ("Processing " ++ galaxy.UgcNumber ++ " galaxy") ::
    stars.map (fun s => "Star: " ++ s.Name ++ ", Galaxy: " ++ galaxy.Name) ++
    [toString stars.length ++ " stars processed for galaxy " ++ galaxy.Name]

/-- The lines the log must hold after a run on a store without failure, up
to their order. -/
def expectedLog (db : Store) : List String :=
  db.galaxyList.flatMap (fun galaxy => expectedGalaxyLines galaxy (db.starList galaxy))

/-- The nine lines the test `TestPipelineOutput` expects. -/
def testPipelineLines : List String :=
  ["Processing ugc_number1 galaxy",
   "Star: Sun, Galaxy: Milky Way",
   "Star: Alpha Centauri, Galaxy: Milky Way",
   "2 stars processed for galaxy Milky Way",
   "Processing ugc_number2 galaxy",
   "Star: Star3, Galaxy: Andromeda",
   "Star: Star4, Galaxy: Andromeda",
   "Star: Star5, Galaxy: Andromeda",
   "3 stars processed for galaxy Andromeda"]

/-- A schedule of `Pipeline(seedData)` in which the two workers take turns. -/
def seedSchedule : List Choice :=
  [.main, .deliver, .worker 0 .thread, .deliver, .worker 1 .thread, .worker 0 .thread,
   .worker 1 .thread, .producer, .worker 1 .thread, .worker 0 .thread, .worker 1 .sync,
   .worker 0 .sync, .producer, .worker 1 .thread, .worker 0 .thread, .main,
   .worker 1 .sync, .worker 0 .sync, .worker 1 .thread, .worker 0 .thread,
   .worker 1 .sync, .worker 0 .routine, .worker 1 .thread, .worker 0 .thread,
   .worker 1 .routine, .worker 0 .thread, .worker 1 .thread, .worker 1 .thread,
   .worker 0 .thread, .worker 1 .thread, .main, .main, .main]

/-- The log at the end of `seedSchedule`. -/
def seedScheduleLog : List String :=
  ["Processing ugc_number1 galaxy",
   "Processing ugc_number2 galaxy",
   "Star: Star3, Galaxy: Andromeda",
   "Star: Sun, Galaxy: Milky Way",
   "Star: Star4, Galaxy: Andromeda",
   "Star: Alpha Centauri, Galaxy: Milky Way",
   "Star: Star5, Galaxy: Andromeda",
   "2 stars processed for galaxy Milky Way",
   "3 stars processed for galaxy Andromeda"]

/-! ## Stores and schedules with failing star queries -/

/-- The seeded store on which the stars query for the first galaxy fails. -/
def storeFirstFails : Store :=
  { seedData with
    queryErr := fun stmt =>
      if stmt = .selectStars 1 then some (.driver "stars query failed") else none }

/-- The second seeded galaxy as `GalaxyChannel` delivers it. -/
def andromeda : Galaxy := ⟨2, "Andromeda", "ugc_number2", 0⟩

/-- The result set of the stars query for `andromeda` on the seeded store. -/
def andromedaRows : Rows StarRow :=
  ⟨[⟨some 3, some 2, some "Star3", some "gaia_catalogue_id3", some 0⟩,
    ⟨some 4, some 2, some "Star4", some "gaia_catalogue_id4", some 0⟩,
    ⟨some 5, some 2, some "Star5", some "gaia_catalogue_id5", some 0⟩], none⟩

/-- A run on `storeFirstFails`: the first worker finds the error of its
goroutine pending at its `select`, the second processes its three stars. -/
def firstFailsSchedule : List Choice :=
  [.main, .deliver, .worker 0 .thread, .worker 0 .thread, .worker 0 .routine,
   .worker 0 .sync, .worker 0 .thread, .worker 0 .thread, .worker 0 .thread,
   .deliver, .worker 1 .thread, .worker 1 .thread, .worker 1 .thread,
   .worker 1 .sync, .worker 1 .thread, .worker 1 .sync, .worker 1 .thread,
   .worker 1 .sync, .worker 1 .thread, .worker 1 .routine, .worker 1 .thread,
   .worker 1 .thread, .worker 1 .thread, .producer, .producer, .main, .main, .main, .main]

/-- The log at the end of `firstFailsSchedule`. -/
def firstFailsLog : List String :=
  ["Processing ugc_number1 galaxy",
   "ProcessGalaxy stars query failed\\n",
   "0 stars processed for galaxy Milky Way",
   "Processing ugc_number2 galaxy",
   "Star: Star3, Galaxy: Andromeda",
   "Star: Star4, Galaxy: Andromeda",
   "Star: Star5, Galaxy: Andromeda",
   "3 stars processed for galaxy Andromeda",
   "Pipeline stars query failed\\n"]

/-- The seeded store on which the stars queries for both galaxies fail, with
different errors. -/
def storeBothFail : Store :=
  { seedData with
    queryErr := fun stmt =>
      if stmt = .selectStars 1 then some (.driver "stars of 1 failed")
      else if stmt = .selectStars 2 then some (.driver "stars of 2 failed")
      else none }

/-- A run on `storeBothFail` up to the return of `processAllGalaxies`: both
workers find the error of their goroutine pending, and the second worker
returns before the first. -/
def bothFailSchedule : List Choice :=
  [.main, .deliver, .deliver, .producer, .producer, .main,
   .worker 0 .thread, .worker 0 .thread, .worker 0 .routine, .worker 0 .sync,
   .worker 1 .thread, .worker 1 .thread, .worker 1 .routine, .worker 1 .sync,
   .worker 0 .thread, .worker 0 .thread, .worker 1 .thread, .worker 1 .thread,
   .worker 1 .thread, .worker 0 .thread, .main]

/-- The log at the end of `bothFailSchedule ++ [.main, .main]`. -/
def bothFailLog : List String :=
  ["Processing ugc_number1 galaxy",
   "Processing ugc_number2 galaxy",
   "ProcessGalaxy stars of 1 failed\\n",
   "0 stars processed for galaxy Milky Way",
   "ProcessGalaxy stars of 2 failed\\n",
   "0 stars processed for galaxy Andromeda",
   "Pipeline stars of 2 failed\\n"]

/-! ## Auxiliary notions for the error branch of a worker -/

/-- The error a worker has received at its `select`, if its control point is
in the branch `if ok` or after the `return err` of that branch. -/
def errorPath : WorkerPc → Option GoError
  | .logErr err => some err
  | .logZero err => some err
  | .ret r => r
  | .returned r => r
  | _ => none

/-- A schedule of `ProcessGalaxy(storeFirstFails, milkyWay)` up to the
`select`: the goroutine has failed and stands at its send when the worker
performs the check. -/
def pendingErrorSchedule : List Move :=
  [.thread, .thread, .routine, .sync]

/-! ## Auxiliary notions for the loop over `error_channel` -/

/-- Whether a transition starts an iteration of `for err = range error_channel`
in `Pipeline`: the loop receives a value from the buffer of the channel. -/
def startsErrorIteration (c : Choice) (s : PipelineState) : Nat :=
  match c, s.pc, s.error_buffer with
  | .main, .rangeErrors, _ :: _ => 1
  | _, _, _ => 0

/-- The number of iterations of `for err = range error_channel` in a run. -/
def Pipeline.errorIterations (db : Store) : List Choice → PipelineState → Nat
  | [], _ => 0
  | c :: cs, s =>
    match Pipeline.step db c s with
    | none => 0
    | some s' => startsErrorIteration c s + Pipeline.errorIterations db cs s'

/-- The errors still to be received from `error_channel`: those in its
buffer and those `GalaxyChannel` has yet to send. -/
def pendingErrors (db : Store) (s : PipelineState) : Nat :=
  s.error_buffer.length + (errorsSent (s.producer.getD (GalaxyChannel db))).length

/-- A run on `storeNullSecond`: `GalaxyChannel` delivers the first galaxy,
fails to decode the second row and sends the error; `Pipeline` receives it
in its final loop. -/
def nullSecondSchedule : List Choice :=
  [.main, .deliver, .producer, .producer, .producer, .main,
   .worker 0 .thread, .worker 0 .thread, .worker 0 .thread, .worker 0 .sync,
   .worker 0 .thread, .worker 0 .sync, .worker 0 .thread, .worker 0 .routine,
   .worker 0 .thread, .worker 0 .thread, .worker 0 .thread,
   .main, .main, .main, .main, .main]

/-- The log at the end of `nullSecondSchedule`. -/
def nullSecondLog : List String :=
  ["Processing ugc_number1 galaxy",
   "Star: Sun, Galaxy: Milky Way",
   "Star: Alpha Centauri, Galaxy: Milky Way",
   "2 stars processed for galaxy Milky Way",
   "Pipeline sql: Scan error on column index 1\\n"]

/-! ## Auxiliary notions for the errors a run of the pipeline reports -/

/-- The error a transition hands to the `errgroup.Group`: the value the
function of a worker returns, at the transition in which it returns. -/
def returnedError (c : Choice) (s : PipelineState) : Option GoError :=
  match c with
  | .worker i .thread =>
    match s.workers[i]? with
    | some w =>
      match w.pc with
      | .ret r => r
      | _ => none
    | none => none
  | _ => none

/-- The first error that is not nil among the values the workers return in
a run, in the order of their returns. -/
def Pipeline.firstReturnedError (db : Store) : List Choice → PipelineState → Option GoError
  | [], _ => none
  | c :: cs, s =>
    match Pipeline.step db c s with
    | none => none
    | some s' =>
      match returnedError c s with
      | some err => some err
      | none => Pipeline.firstReturnedError db cs s'

/-- The error `Pipeline` has received from `error_channel` and not yet
written to the log. -/
def inFlight : MainPc → List GoError
  | .logError err => [err]
  | _ => []

/-- The error of `processAllGalaxies` that `Pipeline` has written to the
log: the error held by the group, once the test `if err != nil` is passed. -/
def groupLogged (s : PipelineState) : List GoError :=
  if 4 ≤ s.pc.stage then s.group_err.toList else []

/-- The lines `Pipeline` itself has written: with `drained` the errors
received from `error_channel` and written to the log, the errors
`GalaxyChannel` sends are those drained, the one in hand, those in the buffer
and those still to be sent; and the log holds the lines of the workers, the
line for the error of `processAllGalaxies`, and one line per drained error. -/
def OwnLinesInv (db : Store) (s : PipelineState) : Prop :=
  ∃ drained : List GoError,
    drained ++ inFlight s.pc ++ s.error_buffer ++
        errorsSent (s.producer.getD (GalaxyChannel db)) = errorsSent (GalaxyChannel db) ∧
      (↑s.log : Multiset String) =
        workerLines s.workers + ↑((groupLogged s ++ drained).map pipelineLine)

/-! # Properties -/

/-! ## Lemmas on the scans and the producer loops -/

theorem galaxyRow_scan_ok_iff (r : GalaxyRow) (g0 : Galaxy) :
    (r.Scan g0).2 = none ↔
      ∃ id name ugc t, r = ⟨some id, some name, some ugc, some t⟩ := by
  rcases r with ⟨_ | id, _ | name, _ | ugc, _ | t⟩ <;> simp [GalaxyRow.Scan]

theorem galaxyRow_scan_value (id : Int) (name ugc : String) (t : Nat) (g0 : Galaxy) :
    (GalaxyRow.mk (some id) (some name) (some ugc) (some t)).Scan g0 = (⟨id, name, ugc, t⟩, none) := by
  simp [GalaxyRow.Scan]

theorem galaxyLoop_all_decoded (rows : List GalaxyRow)
    (h : ∀ r ∈ rows, (r.Scan default).2 = none) :
    GalaxyChannel.loop rows none =
      rows.map (fun r => GalaxyOp.sendGalaxy (r.Scan default).1) := by
  induction rows with
  | nil => simp [GalaxyChannel.loop]
  | cons r rest ih =>
    have hr := h r (List.mem_cons_self _ _)
    have ih := ih (fun x hx => h x (List.mem_cons_of_mem _ hx))
    rcases hs : r.Scan default with ⟨g, _ | e⟩
    · simp [GalaxyChannel.loop, hs, ih]
    · simp [hs] at hr

theorem galaxyLoop_first_failure (front : List GalaxyRow) (r : GalaxyRow)
    (back : List GalaxyRow) (cursor : Option GoError) (err : GoError)
    (h : ∀ x ∈ front, (x.Scan default).2 = none) (hr : (r.Scan default).2 = some err) :
    GalaxyChannel.loop (front ++ r :: back) cursor =
      front.map (fun x => GalaxyOp.sendGalaxy (x.Scan default).1) ++ [.sendError err] := by
  induction front with
  | nil =>
    rcases hs : r.Scan default with ⟨g, _ | e⟩
    · simp [hs] at hr
    · simp [hs] at hr
      simp [GalaxyChannel.loop, hs, hr]
  | cons x rest ih =>
    have hx := h x (List.mem_cons_self _ _)
    have ih := ih (fun y hy => h y (List.mem_cons_of_mem _ hy))
    rcases hs : x.Scan default with ⟨g, _ | e⟩
    · simp [GalaxyChannel.loop, hs, ih]
    · simp [hs] at hx

theorem galaxyLoop_only_sends (rows : List GalaxyRow) (cursor : Option GoError) :
    ∀ op ∈ GalaxyChannel.loop rows cursor, op ≠ .closeError ∧ op ≠ .closeGalaxy := by
  induction rows with
  | nil => cases cursor <;> simp [GalaxyChannel.loop]
  | cons r rest ih =>
    rcases hs : r.Scan default with ⟨g, _ | e⟩
    · intro op hop
      simp [GalaxyChannel.loop, hs] at hop
      rcases hop with rfl | hop
      · simp
      · exact ih op hop
    · simp [GalaxyChannel.loop, hs]

theorem starLoop_only_sends (rows : List StarRow) (cursor : Option GoError) :
    ∀ op ∈ (GalaxyStarChannel.loop rows cursor).1, op ≠ .closeStar := by
  induction rows with
  | nil => simp [GalaxyStarChannel.loop]
  | cons r rest ih =>
    rcases hs : r.Scan default with ⟨g, _ | e⟩
    · intro op hop
      simp [GalaxyStarChannel.loop, hs] at hop
      rcases hop with rfl | hop
      · simp
      · exact ih op hop
    · simp [GalaxyStarChannel.loop, hs]

/-- Claim C6.  On every exit path `GalaxyChannel` performs a sequence of sends
followed by exactly `close(error_channel)` and then `close(galaxy_channel)`,
and `GalaxyStarChannel` performs a sequence of sends followed by exactly
`close(star_channel)`: each channel is closed exactly once and its close is
the last operation on it, so nothing is sent on it afterwards. -/
theorem C6_close_exactly_once_and_last (db : Store) (galaxy : Galaxy) :
    (∃ body, GalaxyChannel db = body ++ [.closeError, .closeGalaxy] ∧
        (∀ op ∈ body, op ≠ .closeError ∧ op ≠ .closeGalaxy)) ∧
      (GalaxyChannel db).count .closeGalaxy = 1 ∧
      (GalaxyChannel db).count .closeError = 1 ∧
      (∃ sends, (GalaxyStarChannel db galaxy).1 = sends ++ [.closeStar] ∧
        (∀ op ∈ sends, op ≠ .closeStar)) ∧
      (GalaxyStarChannel db galaxy).1.count .closeStar = 1 := by
  have hg : ∃ body, GalaxyChannel db = body ++ [.closeError, .closeGalaxy] ∧
        (∀ op ∈ body, op ≠ .closeError ∧ op ≠ .closeGalaxy) := by
    unfold GalaxyChannel
    cases db.QueryGalaxies with
    | error err => exact ⟨_, rfl, by simp⟩
    | ok rows => exact ⟨_, rfl, galaxyLoop_only_sends _ _⟩
  have hs : ∃ sends, (GalaxyStarChannel db galaxy).1 = sends ++ [.closeStar] ∧
        (∀ op ∈ sends, op ≠ .closeStar) := by
    unfold GalaxyStarChannel
    cases db.QueryStars galaxy.Id with
    | error err => exact ⟨[], rfl, by simp⟩
    | ok rows => exact ⟨_, rfl, starLoop_only_sends _ _⟩
  refine ⟨hg, ?_, ?_, hs, ?_⟩
  · obtain ⟨body, hb, hall⟩ := hg
    rw [hb, List.count_append, List.count_eq_zero_of_not_mem (fun h => (hall _ h).2 rfl)]
    decide
  · obtain ⟨body, hb, hall⟩ := hg
    rw [hb, List.count_append, List.count_eq_zero_of_not_mem (fun h => (hall _ h).1 rfl)]
    decide
  · obtain ⟨sends, hb, hall⟩ := hs
    rw [hb, List.count_append, List.count_eq_zero_of_not_mem (fun h => hall _ h rfl)]
    decide

/-- Claim C7.  When the galaxies query delivers the rows `front ++ r :: back`,
every row of `front` decodes and `r` does not (error `err`), then
`GalaxyChannel` sends the galaxies decoded from `front`, in order, then sends
`err` on `error_channel`, then closes both channels: nothing is sent for `r`
or for a later row. -/
theorem C7_first_decode_failure_stops_stream (db : Store) (rows : Rows GalaxyRow)
    (front : List GalaxyRow) (r : GalaxyRow) (back : List GalaxyRow) (err : GoError)
    (hq : db.QueryGalaxies = .ok rows) (hrows : rows.pending = front ++ r :: back)
    (hfront : ∀ x ∈ front, (x.Scan default).2 = none)
    (hr : (r.Scan default).2 = some err) :
    GalaxyChannel db =
        front.map (fun x => GalaxyOp.sendGalaxy (x.Scan default).1) ++
          [.sendError err, .closeError, .closeGalaxy] ∧
      galaxiesSent (GalaxyChannel db) = front.map (fun x => (x.Scan default).1) ∧
      errorsSent (GalaxyChannel db) = [err] := by
  have h : GalaxyChannel db =
        front.map (fun x => GalaxyOp.sendGalaxy (x.Scan default).1) ++
          [.sendError err, .closeError, .closeGalaxy] := by
    simp [GalaxyChannel, hq, hrows, galaxyLoop_first_failure front r back rows.err err hfront hr]
  refine ⟨h, ?_, ?_⟩
  · rw [h]; clear h hfront hrows
    induction front with
    | nil => simp [galaxiesSent]
    | cons x rest ih => simpa [galaxiesSent] using ih
  · rw [h]; clear h hfront hrows
    induction front with
    | nil => simp [errorsSent]
    | cons x rest ih => simpa [errorsSent] using ih

/-- Instance of C7: the second of three rows has a `NULL` name. -/
theorem C7_witness :
    GalaxyChannel storeNullSecond =
        [.sendGalaxy ⟨1, "Milky Way", "ugc_number1", 0⟩, .sendError (.scan 1),
          .closeError, .closeGalaxy] ∧
      galaxiesSent (GalaxyChannel storeNullSecond) = [⟨1, "Milky Way", "ugc_number1", 0⟩] ∧
      errorsSent (GalaxyChannel storeNullSecond) = [.scan 1] :=
  C7_first_decode_failure_stops_stream storeNullSecond ⟨storeNullSecond.galaxies, none⟩
    [⟨some 1, some "Milky Way", some "ugc_number1", some 0⟩]
    ⟨some 2, none, some "ugc_number2", some 0⟩
    [⟨some 3, some "Triangulum", some "ugc_number3", some 0⟩] (.scan 1)
    rfl rfl (by decide) rfl

/-- Claim C8.  When the galaxies query succeeds, every row decodes and the
cursor reports no error, `GalaxyChannel` sends the decoded rows in query
order on `galaxy_channel`, sends nothing on `error_channel`, and then closes
both channels.  A consumer that ranges over `error_channel` iterates zero
times; every receive on `galaxy_channel` after the last row yields the zero
`Galaxy`; and with no row at all a range over `galaxy_channel` iterates zero
times as well. -/
theorem C8_stream_delivers_rows_in_order (db : Store) (rows : Rows GalaxyRow)
    (hq : db.QueryGalaxies = .ok rows) (hcursor : rows.err = none)
    (hrows : ∀ r ∈ rows.pending, (r.Scan default).2 = none) :
    GalaxyChannel db =
        rows.pending.map (fun r => GalaxyOp.sendGalaxy (r.Scan default).1) ++
          [.closeError, .closeGalaxy] ∧
      galaxiesSent (GalaxyChannel db) = rows.pending.map (fun r => (r.Scan default).1) ∧
      errorsSent (GalaxyChannel db) = [] ∧
      rangeIterations (errorsSent (GalaxyChannel db)) = 0 ∧
      (rows.pending = [] → rangeIterations (galaxiesSent (GalaxyChannel db)) = 0) ∧
      (∀ i, rows.pending.length ≤ i →
        recvClosed (galaxiesSent (GalaxyChannel db)) i = (default, false)) := by
  have h : GalaxyChannel db =
        rows.pending.map (fun r => GalaxyOp.sendGalaxy (r.Scan default).1) ++
          [.closeError, .closeGalaxy] := by
    simp [GalaxyChannel, hq, hcursor, galaxyLoop_all_decoded rows.pending hrows]
  have hg : galaxiesSent (GalaxyChannel db) = rows.pending.map (fun r => (r.Scan default).1) := by
    rw [h]; clear h hrows
    induction rows.pending with
    | nil => simp [galaxiesSent]
    | cons x rest ih => simpa [galaxiesSent] using ih
  have he : errorsSent (GalaxyChannel db) = [] := by
    rw [h]; clear h hrows hg
    induction rows.pending with
    | nil => simp [errorsSent]
    | cons x rest ih => simpa [errorsSent] using ih
  refine ⟨h, hg, he, ?_, ?_, ?_⟩
  · rw [he]; rfl
  · intro hnil
    rw [hg, hnil]; rfl
  · intro i hi
    rw [hg]
    simp [recvClosed, List.getElem?_eq_none, hi]

/-- Instance of C8 on the seeded store. -/
theorem C8_witness :
    GalaxyChannel seedData =
        seedData.galaxies.map (fun r => GalaxyOp.sendGalaxy (r.Scan default).1) ++
          [.closeError, .closeGalaxy] ∧
      galaxiesSent (GalaxyChannel seedData) =
        seedData.galaxies.map (fun r => (r.Scan default).1) ∧
      errorsSent (GalaxyChannel seedData) = [] ∧
      rangeIterations (errorsSent (GalaxyChannel seedData)) = 0 ∧
      (seedData.galaxies = [] → rangeIterations (galaxiesSent (GalaxyChannel seedData)) = 0) ∧
      (∀ i, seedData.galaxies.length ≤ i →
        recvClosed (galaxiesSent (GalaxyChannel seedData)) i = (default, false)) :=
  C8_stream_delivers_rows_in_order seedData ⟨seedData.galaxies, none⟩ rfl rfl (by decide)


theorem filter_of_find? {α : Type} (p : α → Bool) (l : List α) (r : α)
    (h : l.find? p = some r) : ∃ rest, l.filter p = r :: rest := by
  induction l with
  | nil => simp at h
  | cons a l ih =>
    by_cases hp : p a = true
    · simp [List.find?, hp] at h
      subst h
      exact ⟨l.filter p, by simp [List.filter, hp]⟩
    · simp [List.find?, hp] at h
      obtain ⟨rest, hr⟩ := ih h
      exact ⟨rest, by simp [List.filter, hp, hr]⟩

theorem FindGalaxy_error_cause (db : Store) (u : String) (e : GoError)
    (h : (FindGalaxy db u).2 = some e) :
    ∃ cause, (Rows.ScanRow (db.QueryGalaxyByUgc u) default).2 = some cause ∧
      e = errorfFindGalaxy cause := by
  unfold FindGalaxy at h
  rcases hs : Rows.ScanRow (db.QueryGalaxyByUgc u) default with ⟨g, _ | cause⟩
  · simp [hs] at h
  · simp [hs] at h
    exact ⟨cause, rfl, h.symm⟩

/-- Claim C4 fails as stated.  In the first store the table holds a row with
the key, but its name is `NULL`, and `FindGalaxy` returns an error; in the
second no row has the key, the statement itself fails, and the message is
not the one of `sql.ErrNoRows`. -/
theorem C4_counterexample :
    ((∃ r ∈ storeNullName.galaxies, r.ugc_number = some "ugc_number1") ∧
        (FindGalaxy storeNullName "ugc_number1").2 =
          some (.errorString "FindGalaxy sql: Scan error on column index 1")) ∧
      ((∀ r ∈ storeOffline.galaxies, r.ugc_number ≠ some "not_an_ugc_number") ∧
        (FindGalaxy storeOffline "not_an_ugc_number").2 =
          some (.errorString "FindGalaxy invalid connection")) := by
  refine ⟨⟨⟨_, List.mem_cons_self _ _, rfl⟩, by rfl⟩, by decide, by rfl⟩

/-- Claim C4, amended.  When the lookup statement does not fail: if the first
row with `ugc_number = u` decodes, `FindGalaxy` returns the galaxy of that row
(its `UgcNumber` is `u`) with a nil error; if no row has `ugc_number = u`, it
returns an error whose message is `FindGalaxy sql: no rows in result set`. -/
theorem C4_find_galaxy_when_lookup_succeeds (db : Store) (u : String)
    (hquery : db.queryErr (.selectGalaxyByUgc u) = none)
    (hcursor : db.cursorErr (.selectGalaxyByUgc u) = none) :
    (∀ r, db.galaxies.find? (fun x => x.ugc_number = some u) = some r →
        (r.Scan default).2 = none →
        r ∈ db.galaxies ∧ r.ugc_number = some u ∧
          FindGalaxy db u = ((r.Scan default).1, none) ∧
          (FindGalaxy db u).1.UgcNumber = u) ∧
      ((∀ r ∈ db.galaxies, r.ugc_number ≠ some u) →
        ∃ err, (FindGalaxy db u).2 = some err ∧
          err.Error = "FindGalaxy sql: no rows in result set") := by
  have hq : db.QueryGalaxyByUgc u =
      .ok ⟨db.galaxies.filter (fun r => r.ugc_number = some u), none⟩ := by
    simp [Store.QueryGalaxyByUgc, Store.execute, hquery, hcursor]
  constructor
  · intro r hfind hscan
    have hmem : r ∈ db.galaxies := List.mem_of_find?_eq_some hfind
    have hkey : r.ugc_number = some u := by simpa using List.find?_some hfind
    obtain ⟨rest, hfilter⟩ := filter_of_find? _ db.galaxies r hfind
    have hfg : FindGalaxy db u = ((r.Scan default).1, none) := by
      rcases hs : r.Scan default with ⟨g, _ | e⟩
      · simp [FindGalaxy, hq, Rows.ScanRow, hfilter, hs]
      · simp [hs] at hscan
    refine ⟨hmem, hkey, hfg, ?_⟩
    rw [hfg]
    obtain ⟨id, name, ugc, t, rfl⟩ := (galaxyRow_scan_ok_iff r default).1 hscan
    simp at hkey
    simp [GalaxyRow.Scan, hkey]
  · intro hnone
    have hfilter : db.galaxies.filter (fun r => r.ugc_number = some u) = [] := by
      simp [List.filter_eq_nil_iff]
      exact hnone
    refine ⟨errorfFindGalaxy .errNoRows, ?_, rfl⟩
    simp [FindGalaxy, hq, Rows.ScanRow, hfilter]

/-- Instance of C4 on the seeded store, for a known and an unknown key. -/
theorem C4_witness :
    (seedData.galaxies.find? (fun x => x.ugc_number = some "ugc_number1") =
        some ⟨some 1, some "Milky Way", some "ugc_number1", some 0⟩ ∧
      FindGalaxy seedData "ugc_number1" = (⟨1, "Milky Way", "ugc_number1", 0⟩, none)) ∧
    ∃ err, (FindGalaxy seedData "not_an_ugc_number").2 = some err ∧
      err.Error = "FindGalaxy sql: no rows in result set" :=
  ⟨⟨by decide, ((C4_find_galaxy_when_lookup_succeeds seedData "ugc_number1" rfl rfl).1
      ⟨some 1, some "Milky Way", some "ugc_number1", some 0⟩ (by decide) rfl).2.2.1⟩,
    (C4_find_galaxy_when_lookup_succeeds seedData "not_an_ugc_number" rfl rfl).2 (by decide)⟩

theorem notFound_text_ne_scan_text (k : Nat) :
    (errorfFindGalaxy .errNoRows).Error ≠ (errorfFindGalaxy (.scan k)).Error := by
  intro h
  have h2 := congrArg (fun s : String => s.data[16]?) h
  simp [errorfFindGalaxy, GoError.Error, String.data_append] at h2

/-- Claim C5 fails as stated.  The error for a key without a row and the
error for a row that does not decode have the same dynamic type, and neither
is `sql.ErrNoRows`: type and identity do not tell them apart. -/
theorem C5_counterexample :
    ∃ notFound decode,
      (FindGalaxy seedData "not_an_ugc_number").2 = some notFound ∧
      (FindGalaxy storeNullName "ugc_number1").2 = some decode ∧
      ¬ (notFound.dynType ≠ decode.dynType ∨ notFound.isErrNoRows ≠ decode.isErrNoRows) :=
  ⟨.errorString "FindGalaxy sql: no rows in result set",
    .errorString "FindGalaxy sql: Scan error on column index 1", by rfl, by rfl, by decide⟩

/-- Claim C5, amended.  Every error `FindGalaxy` returns is an
`*errors.errorString` made by `fmt.Errorf` with `%v`: it is not `sql.ErrNoRows`
and does not wrap it, and all it carries is the text `FindGalaxy ` followed
by the text of its cause.  The error for a missing row and the error for a
failed decode differ in that text, and in nothing else. -/
theorem C5_find_galaxy_errors_differ_by_text_only (db : Store) (u : String) (err : GoError)
    (h : (FindGalaxy db u).2 = some err) :
    err.dynType = .errorsErrorString ∧ err.isErrNoRows = false ∧
      (∃ cause, (Rows.ScanRow (db.QueryGalaxyByUgc u) default).2 = some cause ∧
        err = .errorString ("FindGalaxy " ++ cause.Error)) ∧
      ∀ k, (errorfFindGalaxy .errNoRows).Error ≠ (errorfFindGalaxy (.scan k)).Error := by
  obtain ⟨cause, hc, rfl⟩ := FindGalaxy_error_cause db u err h
  exact ⟨rfl, rfl, ⟨cause, hc, rfl⟩, notFound_text_ne_scan_text⟩

/-- Instance of C5: the error for an unknown key in the seeded store. -/
theorem C5_witness :
    (FindGalaxy seedData "not_an_ugc_number").2 =
        some (.errorString "FindGalaxy sql: no rows in result set") ∧
      (GoError.errorString "FindGalaxy sql: no rows in result set").dynType =
        .errorsErrorString ∧
      (GoError.errorString "FindGalaxy sql: no rows in result set").isErrNoRows = false :=
  ⟨by rfl, (C5_find_galaxy_errors_differ_by_text_only seedData "not_an_ugc_number"
      (.errorString "FindGalaxy sql: no rows in result set") (by rfl)).1,
    (C5_find_galaxy_errors_differ_by_text_only seedData "not_an_ugc_number"
      (.errorString "FindGalaxy sql: no rows in result set") (by rfl)).2.1⟩

/-! ## The worker -/

theorem starLoop_sends_map (rows : List StarRow) (cursor : Option GoError) :
    (GalaxyStarChannel.loop rows cursor).1 =
      (starsSent (GalaxyStarChannel.loop rows cursor).1).map StarOp.sendStar := by
  induction rows with
  | nil => simp [GalaxyStarChannel.loop, starsSent]
  | cons r rest ih =>
    rcases hs : r.Scan default with ⟨g, _ | e⟩
    · simp only [GalaxyStarChannel.loop, hs, starsSent, List.map_cons]
      rw [← ih]
    · simp [GalaxyStarChannel.loop, hs, starsSent]

theorem starsSent_append_close (ops : List StarOp) :
    starsSent (ops ++ [.closeStar]) = starsSent ops := by
  induction ops with
  | nil => simp [starsSent]
  | cons op rest ih => cases op <;> simp [starsSent, ih]

theorem starsSent_map_send (stars : List Star) :
    starsSent (stars.map StarOp.sendStar) = stars := by
  induction stars with
  | nil => simp [starsSent]
  | cons s rest ih => simp [starsSent, ih]

theorem galaxyStarChannel_ops (db : Store) (galaxy : Galaxy) :
    (GalaxyStarChannel db galaxy).1 =
      (starsOf db galaxy).map StarOp.sendStar ++ [.closeStar] := by
  unfold starsOf GalaxyStarChannel
  cases db.QueryStars galaxy.Id with
  | error err => simp [starsSent]
  | ok rows =>
    simp only [starsSent_append_close]
    rw [← starLoop_sends_map]

theorem starRoutine_eq (db : Store) (galaxy : Galaxy) :
    starRoutine db galaxy =
      routineFrom (starsOf db galaxy) (GalaxyStarChannel db galaxy).2 0 := by
  unfold starRoutine routineFrom
  rw [galaxyStarChannel_ops]
  cases (GalaxyStarChannel db galaxy).2 <;> simp [errTail]

theorem routineFrom_cons (stars : List Star) (r : Option GoError) (n : Nat) (s : Star)
    (h : stars[n]? = some s) :
    routineFrom stars r n = RoutineOp.star (.sendStar s) :: routineFrom stars r (n + 1) := by
  unfold routineFrom
  have : stars.drop n = s :: stars.drop (n + 1) := by
    rw [List.getElem?_eq_some_iff] at h
    obtain ⟨hn, rfl⟩ := h
    exact List.drop_eq_getElem_cons hn
  rw [this]; simp

theorem routineFrom_end (stars : List Star) (r : Option GoError) (n : Nat)
    (h : stars.length ≤ n) :
    routineFrom stars r n = RoutineOp.star .closeStar :: errTail r := by
  unfold routineFrom
  rw [List.drop_eq_nil_of_le h]; simp

theorem routineFrom_cases (stars : List Star) (r : Option GoError) (n : Nat) :
    (∃ s, stars[n]? = some s ∧
        routineFrom stars r n = RoutineOp.star (.sendStar s) :: routineFrom stars r (n + 1)) ∨
      (stars.length ≤ n ∧ routineFrom stars r n = RoutineOp.star .closeStar :: errTail r) := by
  by_cases h : n < stars.length
  · left
    exact ⟨stars[n], List.getElem?_eq_getElem h, routineFrom_cons _ _ _ _ (List.getElem?_eq_getElem h)⟩
  · right
    exact ⟨by omega, routineFrom_end _ _ _ (by omega)⟩

theorem outAfter_succ (galaxy : Galaxy) (stars : List Star) (k : Nat) (s : Star)
    (h : stars[k]? = some s) :
    outAfter galaxy stars (k + 1) = outAfter galaxy stars k ++ [.processStar galaxy s] := by
  simp [outAfter, List.take_succ, h]

theorem outAfter_all (galaxy : Galaxy) (stars : List Star) :
    outAfter galaxy stars stars.length ++ [.printf (summaryLine stars.length galaxy)] =
      outComplete galaxy stars := by
  simp [outAfter, outComplete]

theorem worker_step_frame (db : Store) (m : Move) (w w' : WorkerState) (log log' : List String)
    (h : ProcessGalaxy.step db m w log = some (w', log')) :
    w'.galaxy = w.galaxy ∧ ∃ evs, w'.out = w.out ++ evs ∧ log' = log ++ evs.map Event.line := by
  unfold ProcessGalaxy.step at h
  split at h <;> (try simp only [Option.some.injEq, Prod.mk.injEq, WorkerState.emit] at h) <;>
    try (obtain ⟨rfl, rfl⟩ := h; refine ⟨rfl, ?_⟩;
         first
         | exact ⟨[], (List.append_nil _).symm, (List.append_nil _).symm⟩
         | exact ⟨[_], rfl, rfl⟩)
  · split at h
    · simp only [Option.some.injEq, Prod.mk.injEq] at h
      obtain ⟨rfl, rfl⟩ := h
      exact ⟨rfl, [], by simp, by simp⟩
    · simp at h
  · simp at h

theorem routineAt_send (stars : List Star) (r : Option GoError) (closed : Bool)
    (s : Star) (rest : List RoutineOp) (n : Nat)
    (h : RoutineAt stars r closed (some (RoutineOp.star (.sendStar s) :: rest)) n) :
    stars[n]? = some s ∧ RoutineAt stars r closed (some rest) (n + 1) := by
  obtain ⟨hn, ⟨hc, hr⟩ | ⟨hc, hlen, hr⟩⟩ := h
  · rcases routineFrom_cases stars r n with ⟨s', hs', heq⟩ | ⟨hle, heq⟩
    · rw [heq] at hr
      simp only [Option.some.injEq, List.cons.injEq, RoutineOp.star.injEq,
        StarOp.sendStar.injEq] at hr
      obtain ⟨rfl, rfl⟩ := hr
      have hlt : n < stars.length := by
        rw [List.getElem?_eq_some_iff] at hs'
        exact hs'.1
      exact ⟨hs', by omega, Or.inl ⟨hc, rfl⟩⟩
    · rw [heq] at hr
      simp at hr
  · cases r <;> simp [errTail] at hr

theorem routineAt_close (stars : List Star) (r : Option GoError) (closed : Bool)
    (rest : List RoutineOp) (n : Nat)
    (h : RoutineAt stars r closed (some (RoutineOp.star .closeStar :: rest)) n) :
    n = stars.length ∧ rest = errTail r ∧ RoutineAt stars r true (some rest) n := by
  obtain ⟨hn, ⟨hc, hr⟩ | ⟨hc, hlen, hr⟩⟩ := h
  · rcases routineFrom_cases stars r n with ⟨s', hs', heq⟩ | ⟨hle, heq⟩
    · rw [heq] at hr
      simp at hr
    · rw [heq] at hr
      simp only [Option.some.injEq, List.cons.injEq, true_and] at hr
      subst hr
      exact ⟨by omega, rfl, hn, Or.inr ⟨rfl, by omega, rfl⟩⟩
  · cases r <;> simp [errTail] at hr

theorem routineAt_sendErr (stars : List Star) (r : Option GoError) (closed : Bool)
    (err : GoError) (rest : List RoutineOp) (n : Nat)
    (h : RoutineAt stars r closed (some (RoutineOp.sendErr err :: rest)) n) :
    n = stars.length ∧ r = some err ∧ rest = [] ∧ closed = true := by
  obtain ⟨hn, ⟨hc, hr⟩ | ⟨hc, hlen, hr⟩⟩ := h
  · rcases routineFrom_cases stars r n with ⟨s', hs', heq⟩ | ⟨hle, heq⟩ <;>
      · rw [heq] at hr
        simp at hr
  · cases r with
    | none => simp [errTail] at hr
    | some e =>
      simp only [errTail, Option.some.injEq, List.cons.injEq, RoutineOp.sendErr.injEq] at hr
      obtain ⟨rfl, rfl⟩ := hr
      exact ⟨hlen, rfl, rfl, hc⟩

theorem routineAt_closed (stars : List Star) (r : Option GoError)
    (routine : Option (List RoutineOp)) (n : Nat)
    (h : RoutineAt stars r true routine n) : n = stars.length := by
  obtain ⟨_, ⟨hc, _⟩ | ⟨_, hlen, _⟩⟩ := h
  · simp at hc
  · exact hlen

theorem worker_step_inv (db : Store) (m : Move) (w w' : WorkerState) (log log' : List String)
    (hinv : WorkerInv db w)
    (h : ProcessGalaxy.step db m w log = some (w', log')) :
    WorkerInv db w' := by
  unfold ProcessGalaxy.step at h
  split at h
  · -- entry
    rename_i hpc
    simp only [Option.some.injEq, Prod.mk.injEq, WorkerState.emit] at h
    obtain ⟨rfl, rfl⟩ := h
    simp only [WorkerInv, hpc] at hinv ⊢
    obtain ⟨h1, h2, h3, h4⟩ := hinv
    exact ⟨h1, h2, h3, by simp [h4]⟩
  · -- go statement
    rename_i hpc
    simp only [Option.some.injEq, Prod.mk.injEq, WorkerState.emit] at h
    obtain ⟨rfl, rfl⟩ := h
    simp only [WorkerInv, hpc] at hinv ⊢
    obtain ⟨h1, h2, h3, h4⟩ := hinv
    exact ⟨h3, h4, Nat.zero_le _, Or.inl ⟨h2, by rw [starRoutine_eq]⟩⟩
  · -- select, receive of the error
    rename_i hpc hr
    simp only [Option.some.injEq, Prod.mk.injEq, WorkerState.emit] at h
    obtain ⟨rfl, rfl⟩ := h
    simp only [WorkerInv, hpc] at hinv ⊢
    obtain ⟨h1, h2, h3⟩ := hinv
    rw [hr] at h3
    obtain ⟨hlen, hret, _, _⟩ := routineAt_sendErr _ _ _ _ _ _ h3
    exact ⟨List.length_eq_zero.mp hlen.symm, hret, h1, h2⟩
  · -- select, default
    rename_i hpc
    simp only [Option.some.injEq, Prod.mk.injEq, WorkerState.emit] at h
    obtain ⟨rfl, rfl⟩ := h
    simp only [WorkerInv, hpc] at hinv ⊢
    obtain ⟨h1, h2, h3⟩ := hinv
    rw [h1]
    exact ⟨by simp [h2, outAfter], h3⟩
  · -- log of the error
    rename_i hpc
    simp only [Option.some.injEq, Prod.mk.injEq, WorkerState.emit] at h
    obtain ⟨rfl, rfl⟩ := h
    simp only [WorkerInv, hpc] at hinv ⊢
    obtain ⟨h1, h2, h3, h4⟩ := hinv
    exact ⟨h1, h2, h3, by simp [h4]⟩
  · -- summary after the error
    rename_i hpc
    simp only [Option.some.injEq, Prod.mk.injEq, WorkerState.emit] at h
    obtain ⟨rfl, rfl⟩ := h
    simp only [WorkerInv, hpc] at hinv ⊢
    obtain ⟨h1, h2, h3, h4⟩ := hinv
    exact ⟨h1, h2, by simp [h4, h3, outFailed]⟩
  · -- range, receive of a star
    rename_i hpc hr
    simp only [Option.some.injEq, Prod.mk.injEq, WorkerState.emit] at h
    obtain ⟨rfl, rfl⟩ := h
    simp only [WorkerInv, hpc] at hinv ⊢
    obtain ⟨h1, h2⟩ := hinv
    rw [hr] at h2
    obtain ⟨hs, h3⟩ := routineAt_send _ _ _ _ _ _ h2
    exact ⟨w.num_stars, rfl, hs, h1, h3⟩
  · -- range, channel closed
    rename_i hpc
    split at h
    · rename_i hclosed
      simp only [Option.some.injEq, Prod.mk.injEq, WorkerState.emit] at h
      obtain ⟨rfl, rfl⟩ := h
      simp only [WorkerInv, hpc] at hinv ⊢
      obtain ⟨h1, h2⟩ := hinv
      rw [hclosed] at h2
      exact ⟨routineAt_closed _ _ _ _ h2, h1⟩
    · simp at h
  · -- call of ProcessStar
    rename_i hpc
    simp only [Option.some.injEq, Prod.mk.injEq, WorkerState.emit] at h
    obtain ⟨rfl, rfl⟩ := h
    simp only [WorkerInv, hpc] at hinv ⊢
    obtain ⟨k, h1, h2, h3, h4⟩ := hinv
    rw [h1]
    exact ⟨by rw [h3, outAfter_succ _ _ _ _ h2], h4⟩
  · -- summary
    rename_i hpc
    simp only [Option.some.injEq, Prod.mk.injEq, WorkerState.emit] at h
    obtain ⟨rfl, rfl⟩ := h
    simp only [WorkerInv, hpc] at hinv ⊢
    obtain ⟨h1, h2⟩ := hinv
    rw [h2, h1, outAfter_all]
  · -- return
    rename_i r hpc
    simp only [Option.some.injEq, Prod.mk.injEq, WorkerState.emit] at h
    obtain ⟨rfl, rfl⟩ := h
    cases r <;> simpa only [WorkerInv, hpc] using hinv
  · -- close of star_channel by the goroutine
    rename_i hr
    simp only [Option.some.injEq, Prod.mk.injEq, WorkerState.emit] at h
    obtain ⟨rfl, rfl⟩ := h
    unfold WorkerInv at hinv ⊢
    simp only
    split at hinv <;> try (rw [hr] at hinv)
    · simp at hinv
    · simp at hinv
    · obtain ⟨h1, h2, h3⟩ := hinv
      exact ⟨h1, h2, (routineAt_close _ _ _ _ _ h3).2.2⟩
    · obtain ⟨h1, h3⟩ := hinv
      exact ⟨h1, (routineAt_close _ _ _ _ _ h3).2.2⟩
    · obtain ⟨k, h1, h2, h3, h4⟩ := hinv
      exact ⟨k, h1, h2, h3, (routineAt_close _ _ _ _ _ h4).2.2⟩
    all_goals exact hinv
  · simp at h

theorem worker_progress (db : Store) (w : WorkerState) (log : List String)
    (hinv : WorkerInv db w) (hrun : w.isReturned = false) :
    ∃ m, (ProcessGalaxy.step db m w log).isSome = true := by
  rcases w with ⟨g, pc, n, routine, closed, out⟩
  cases pc with
  | rangeStars =>
    simp only [WorkerInv] at hinv
    obtain ⟨_, hn, ⟨hc, hr⟩ | ⟨hc, hlen, hr⟩⟩ := hinv
    · rcases routineFrom_cases (starsOf db g) (GalaxyStarChannel db g).2 n with
        ⟨s, _, heq⟩ | ⟨_, heq⟩
      · exact ⟨.sync, by simp [ProcessGalaxy.step, hr, heq]⟩
      · exact ⟨.routine, by simp [ProcessGalaxy.step, hr, heq]⟩
    · exact ⟨.thread, by simp [ProcessGalaxy.step, hc]⟩
  | returned r => simp [WorkerState.isReturned] at hrun
  | _ => exact ⟨.thread, by simp [ProcessGalaxy.step, WorkerState.emit]⟩

theorem worker_fuel_decreases (db : Store) (m : Move) (w w' : WorkerState)
    (log log' : List String) (hinv : WorkerInv db w)
    (h : ProcessGalaxy.step db m w log = some (w', log')) :
    workerFuel db w' < workerFuel db w := by
  unfold ProcessGalaxy.step at h
  split at h <;> (try simp only [Option.some.injEq, Prod.mk.injEq, WorkerState.emit] at h)
  case h_8 =>
    split at h
    · simp only [Option.some.injEq, Prod.mk.injEq] at h
      obtain ⟨rfl, rfl⟩ := h
      simp_all [workerFuel, workerRank]
    · simp at h
  case h_13 => simp at h
  case h_2 =>
    rename_i hpc
    obtain ⟨rfl, rfl⟩ := h
    simp only [WorkerInv, hpc] at hinv
    simp only [workerFuel, workerRank, hpc, hinv.1]
    omega
  all_goals
    obtain ⟨rfl, rfl⟩ := h
    simp_all only [workerFuel, workerRank, List.length_cons]
    omega

theorem workerInv_init (db : Store) (galaxy : Galaxy) :
    WorkerInv db (ProcessGalaxy.init galaxy) := by
  simp [WorkerInv, ProcessGalaxy.init]

theorem worker_run_inv (db : Store) (sched : List Move) (s s' : WorkerState × List String)
    (hinv : WorkerInv db s.1) (h : ProcessGalaxy.run db sched s = some s') :
    WorkerInv db s'.1 ∧ s'.1.galaxy = s.1.galaxy ∧
      (∃ evs, s'.1.out = s.1.out ++ evs ∧ s'.2 = s.2 ++ evs.map Event.line) ∧
      sched.length + workerFuel db s'.1 ≤ workerFuel db s.1 := by
  induction sched generalizing s with
  | nil =>
    simp only [ProcessGalaxy.run, Option.some.injEq] at h
    subst h
    exact ⟨hinv, rfl, ⟨[], by simp, by simp⟩, by simp⟩
  | cons m ms ih =>
    simp only [ProcessGalaxy.run] at h
    cases hstep : ProcessGalaxy.step db m s.1 s.2 with
    | none => simp [hstep] at h
    | some t =>
      rw [hstep] at h
      simp only [Option.some_bind] at h
      have hinv' := worker_step_inv db m s.1 t.1 s.2 t.2 hinv hstep
      obtain ⟨hg, evs, hout, hlog⟩ := worker_step_frame db m s.1 t.1 s.2 t.2 hstep
      have hfuel := worker_fuel_decreases db m s.1 t.1 s.2 t.2 hinv hstep
      obtain ⟨h1, h2, ⟨evs', hout', hlog'⟩, h4⟩ := ih t hinv' h
      refine ⟨h1, h2.trans hg, ⟨evs ++ evs', ?_, ?_⟩, ?_⟩
      · rw [hout', hout, List.append_assoc]
      · rw [hlog', hlog, List.map_append, List.append_assoc]
      · simp only [List.length_cons]; omega

theorem queryStars_rows (db : Store) (id : Int) (rows : Rows StarRow)
    (h : db.QueryStars id = .ok rows) : ∀ r ∈ rows.pending, r.galaxy_id = some id := by
  unfold Store.QueryStars Store.execute at h
  intro r hr
  split at h
  · simp at h
  · split at h
    · simp only [Except.ok.injEq] at h
      subst h
      simpa using (List.mem_filter.1 hr).2
    · simp only [Except.ok.injEq] at h
      subst h
      simpa using (List.mem_filter.1 (List.mem_of_mem_take hr)).2

theorem starRow_scan_galaxyId (r : StarRow) (s0 : Star) (h : (r.Scan s0).2 = none) :
    r.galaxy_id = some (r.Scan s0).1.GalaxyId := by
  rcases r with ⟨_ | id, _ | gid, _ | name, _ | gaia, _ | t⟩ <;> simp [StarRow.Scan] at h ⊢

theorem starLoop_all_decoded (rows : List StarRow) (cursor : Option GoError)
    (h : ∀ r ∈ rows, (r.Scan default).2 = none) :
    GalaxyStarChannel.loop rows cursor =
      (rows.map (fun r => StarOp.sendStar (r.Scan default).1), cursor) := by
  induction rows with
  | nil => simp [GalaxyStarChannel.loop]
  | cons r rest ih =>
    have hr := h r (List.mem_cons_self _ _)
    have ih := ih (fun x hx => h x (List.mem_cons_of_mem _ hx))
    rcases hs : r.Scan default with ⟨g, _ | e⟩
    · simp [GalaxyStarChannel.loop, hs, ih]
    · simp [hs] at hr

theorem galaxyStarChannel_success (db : Store) (galaxy : Galaxy) (rows : Rows StarRow)
    (hq : db.QueryStars galaxy.Id = .ok rows) (hcursor : rows.err = none)
    (hrows : ∀ r ∈ rows.pending, (r.Scan default).2 = none) :
    starsOf db galaxy = rows.pending.map (fun r => (r.Scan default).1) ∧
      (GalaxyStarChannel db galaxy).2 = none := by
  have h : GalaxyStarChannel db galaxy =
      (rows.pending.map (fun r => StarOp.sendStar (r.Scan default).1) ++ [.closeStar], none) := by
    simp [GalaxyStarChannel, hq, hcursor, starLoop_all_decoded rows.pending none hrows]
  refine ⟨?_, by rw [h]⟩
  unfold starsOf
  rw [h]
  simp only [starsSent_append_close]
  have := starsSent_map_send (rows.pending.map (fun r => (r.Scan default).1))
  simpa using this

theorem workerFuel_init (db : Store) (galaxy : Galaxy) :
    workerFuel db (ProcessGalaxy.init galaxy) =
      8 + 3 * ((starsOf db galaxy).length + 1 +
        (errTail (GalaxyStarChannel db galaxy).2).length) := by
  simp [workerFuel, workerRank, ProcessGalaxy.init, starRoutine_eq, routineFrom]
  omega

theorem processStarCalls_outComplete (galaxy : Galaxy) (stars : List Star) :
    processStarCalls (outComplete galaxy stars) = stars.map (fun s => (galaxy, s)) := by
  have h : ∀ l : List Star, processStarCalls (l.map (Event.processStar galaxy) ++
      [Event.printf (summaryLine stars.length galaxy)]) = l.map (fun s => (galaxy, s)) := by
    intro l
    induction l with
    | nil => simp [processStarCalls]
    | cons s rest ih => simp [processStarCalls, ih]
  simp [outComplete, processStarCalls, h]

theorem worker_returned_ok (db : Store) (w : WorkerState) (r : Option GoError)
    (hinv : WorkerInv db w) (hpc : w.pc = .returned r)
    (hok : (GalaxyStarChannel db w.galaxy).2 = none) :
    r = none ∧ w.out = outComplete w.galaxy (starsOf db w.galaxy) := by
  cases r with
  | none =>
    simp only [WorkerInv, hpc] at hinv
    exact ⟨rfl, hinv⟩
  | some e =>
    simp only [WorkerInv, hpc] at hinv
    rw [hok] at hinv
    simp at hinv

theorem worker_run_facts (db : Store) (galaxy : Galaxy) (sched : List Move) (w : WorkerState)
    (log : List String)
    (hrun : ProcessGalaxy.run db sched (ProcessGalaxy.init galaxy, []) = some (w, log)) :
    WorkerInv db w ∧ w.galaxy = galaxy ∧ log = w.out.map Event.line ∧
      sched.length + workerFuel db w ≤ workerFuel db (ProcessGalaxy.init galaxy) := by
  obtain ⟨h1, h2, ⟨evs, hout, hlog⟩, h4⟩ :=
    worker_run_inv db sched (ProcessGalaxy.init galaxy, []) (w, log) (workerInv_init db galaxy) hrun
  refine ⟨h1, h2, ?_, h4⟩
  simp only [ProcessGalaxy.init, List.nil_append] at hout hlog
  rw [hlog, hout]

theorem processStarCalls_append (l₁ l₂ : List Event) :
    processStarCalls (l₁ ++ l₂) = processStarCalls l₁ ++ processStarCalls l₂ := by
  induction l₁ with
  | nil => simp [processStarCalls]
  | cons ev rest ih => cases ev <;> simp [processStarCalls, ih]

theorem processStarCalls_map (galaxy : Galaxy) (stars : List Star) :
    processStarCalls (stars.map (Event.processStar galaxy)) = stars.map (fun s => (galaxy, s)) := by
  induction stars with
  | nil => simp [processStarCalls]
  | cons s rest ih => simp [processStarCalls, ih]

theorem worker_calls_subset (db : Store) (w : WorkerState) (hinv : WorkerInv db w) :
    ∀ call ∈ processStarCalls w.out, call.1 = w.galaxy ∧ call.2 ∈ starsOf db w.galaxy := by
  have key : ∀ n, ∀ call ∈ processStarCalls (outAfter w.galaxy (starsOf db w.galaxy) n),
      call.1 = w.galaxy ∧ call.2 ∈ starsOf db w.galaxy := by
    intro n call hc
    simp only [outAfter, processStarCalls, processStarCalls_map, List.mem_map] at hc
    obtain ⟨s, hs, rfl⟩ := hc
    exact ⟨rfl, List.mem_of_mem_take hs⟩
  have key2 : ∀ call ∈ processStarCalls (outComplete w.galaxy (starsOf db w.galaxy)),
      call.1 = w.galaxy ∧ call.2 ∈ starsOf db w.galaxy := by
    intro call hc
    rw [processStarCalls_outComplete] at hc
    simp only [List.mem_map] at hc
    obtain ⟨s, hs, rfl⟩ := hc
    exact ⟨rfl, hs⟩
  unfold WorkerInv at hinv
  split at hinv
  · simp [hinv.2.2.2, processStarCalls]
  · simp [hinv.2.2.2, processStarCalls]
  · simp [hinv.2.1, processStarCalls]
  · rw [hinv.1]; exact key _
  · obtain ⟨k, _, _, h3, _⟩ := hinv
    rw [h3]; exact key _
  · rw [hinv.2]; exact key _
  · rw [hinv]; exact key2
  · rw [hinv]; exact key2
  · simp [hinv.2.2.2, processStarCalls]
  · simp [hinv.2.2.2, processStarCalls]
  · simp [hinv.2.2, processStarCalls, outFailed]
  · simp [hinv.2.2, processStarCalls, outFailed]

/-- Claim C1.  Let the stars query for `P` succeed, with every row decoding and
no cursor error.  Then every execution of `ProcessGalaxy(db, P)`, under every
schedule of the worker and its goroutine, has at most `3 n + 11` transitions
and can always take one more until the function has returned; when it has
returned, `ProcessStar` has been called exactly once per row, in query order
(`n` calls); and at every moment each call made so far got `P` and a star
whose `GalaxyId` is `P.Id`. -/
theorem C1_process_star_once_per_row (db : Store) (P : Galaxy) (rows : Rows StarRow)
    (hq : db.QueryStars P.Id = .ok rows) (hcursor : rows.err = none)
    (hrows : ∀ r ∈ rows.pending, (r.Scan default).2 = none)
    (sched : List Move) (w : WorkerState) (log : List String)
    (hrun : ProcessGalaxy.run db sched (ProcessGalaxy.init P, []) = some (w, log)) :
    sched.length ≤ 3 * rows.pending.length + 11 ∧
      (w.isReturned = false → ∃ m, (ProcessGalaxy.step db m w log).isSome = true) ∧
      (w.isReturned = true →
        processStarCalls w.out = rows.pending.map (fun r => (P, (r.Scan default).1)) ∧
          (processStarCalls w.out).length = rows.pending.length) ∧
      (∀ call ∈ processStarCalls w.out, call.1 = P ∧ call.2.GalaxyId = P.Id) := by
  obtain ⟨hinv, hg, _, hfuel⟩ := worker_run_facts db P sched w log hrun
  obtain ⟨hstars, hret⟩ := galaxyStarChannel_success db P rows hq hcursor hrows
  refine ⟨?_, fun hnr => worker_progress db w log hinv hnr, ?_, ?_⟩
  · rw [workerFuel_init, hstars, hret] at hfuel
    simp only [errTail, List.length_map, List.length_nil] at hfuel
    omega
  · intro hr
    have hcalls : processStarCalls w.out =
        rows.pending.map (fun r => (P, (r.Scan default).1)) := by
      cases hpc : w.pc with
      | returned r =>
        obtain ⟨_, hout⟩ := worker_returned_ok db w r hinv hpc (by rw [hg]; exact hret)
        rw [hout, processStarCalls_outComplete, hg, hstars, List.map_map]
        rfl
      | _ => simp [WorkerState.isReturned, hpc] at hr
    exact ⟨hcalls, by rw [hcalls, List.length_map]⟩
  · intro call hcall
    obtain ⟨h1, h2⟩ := worker_calls_subset db w hinv call hcall
    rw [hg] at h1 h2
    refine ⟨h1, ?_⟩
    rw [hstars, List.mem_map] at h2
    obtain ⟨r, hr, hrs⟩ := h2
    have h3 := starRow_scan_galaxyId r default (hrows r hr)
    rw [queryStars_rows db P.Id rows hq r hr] at h3
    rw [← hrs]
    exact (Option.some.inj h3).symm

theorem milkyWay_run :
    ProcessGalaxy.run seedData milkyWaySchedule (ProcessGalaxy.init milkyWay, []) =
      some milkyWayDone := by
  decide

/-- Instance of C1: the first galaxy of the seeded store, two stars. -/
theorem C1_witness :
    milkyWaySchedule.length ≤ 3 * 2 + 11 ∧
      processStarCalls milkyWayDone.1.out =
        [(milkyWay, ⟨1, 1, "Sun", "gaia_catalogue_id1", 0⟩),
          (milkyWay, ⟨2, 1, "Alpha Centauri", "gaia_catalogue_id2", 0⟩)] ∧
      (∀ call ∈ processStarCalls milkyWayDone.1.out,
        call.1 = milkyWay ∧ call.2.GalaxyId = milkyWay.Id) :=
  have h := C1_process_star_once_per_row seedData milkyWay milkyWayRows rfl rfl
    (by decide) milkyWaySchedule milkyWayDone.1 milkyWayDone.2 milkyWay_run
  ⟨h.1, (h.2.2.1 rfl).1, h.2.2.2⟩

/-- Claim C3.  Let the stars query for `g` succeed with rows that all decode
and no cursor error.  Then every execution of `ProcessGalaxy(db, g)`, under
every schedule of the worker and its goroutine, has at most `3 n + 11`
transitions and can always take one more until the function has returned;
and when it has returned, the result is nil and the log holds exactly the
`n + 2` lines `Processing <g.UgcNumber> galaxy`, then
`Star: <s.Name>, Galaxy: <g.Name>` for each row in query order, then
`<n> stars processed for galaxy <g.Name>`. -/
theorem C3_process_galaxy_log_in_order (db : Store) (g : Galaxy) (rows : Rows StarRow)
    (hq : db.QueryStars g.Id = .ok rows) (hcursor : rows.err = none)
    (hrows : ∀ r ∈ rows.pending, (r.Scan default).2 = none)
    (sched : List Move) (w : WorkerState) (log : List String)
    (hrun : ProcessGalaxy.run db sched (ProcessGalaxy.init g, []) = some (w, log)) :
    sched.length ≤ 3 * rows.pending.length + 11 ∧
      (w.isReturned = false → ∃ m, (ProcessGalaxy.step db m w log).isSome = true) ∧
      (∀ r, w.pc = .returned r →
        r = none ∧
        log = ("Processing " ++ g.UgcNumber ++ " galaxy") ::
          rows.pending.map
            (fun row => "Star: " ++ (row.Scan default).1.Name ++ ", Galaxy: " ++ g.Name) ++
          [toString rows.pending.length ++ " stars processed for galaxy " ++ g.Name] ∧
        log.length = rows.pending.length + 2) := by
  obtain ⟨hinv, hg, hlog, hfuel⟩ := worker_run_facts db g sched w log hrun
  obtain ⟨hstars, hret⟩ := galaxyStarChannel_success db g rows hq hcursor hrows
  refine ⟨?_, fun hnr => worker_progress db w log hinv hnr, ?_⟩
  · rw [workerFuel_init, hstars, hret] at hfuel
    simp only [errTail, List.length_map, List.length_nil] at hfuel
    omega
  · intro r hpc
    obtain ⟨hr, hout⟩ := worker_returned_ok db w r hinv hpc (by rw [hg]; exact hret)
    have hl : log = ("Processing " ++ g.UgcNumber ++ " galaxy") ::
          rows.pending.map
            (fun row => "Star: " ++ (row.Scan default).1.Name ++ ", Galaxy: " ++ g.Name) ++
          [toString rows.pending.length ++ " stars processed for galaxy " ++ g.Name] := by
      rw [hlog, hout, hg, hstars]
      simp [outComplete, Event.line, processingLine, summaryLine, ProcessStar,
        Function.comp_def]
    refine ⟨hr, hl, ?_⟩
    rw [hl]
    simp

/-- Instance of C3: the first galaxy of the seeded store, as in the test
`TestProcessGalaxyOutput`. -/
theorem C3_witness :
    ProcessGalaxy.run seedData milkyWaySchedule (ProcessGalaxy.init milkyWay, []) =
        some milkyWayDone ∧
      milkyWayDone.2 =
        ["Processing ugc_number1 galaxy", "Star: Sun, Galaxy: Milky Way",
          "Star: Alpha Centauri, Galaxy: Milky Way", "2 stars processed for galaxy Milky Way"] ∧
      milkyWayDone.2.length = 2 + 2 :=
  have h := C3_process_galaxy_log_in_order seedData milkyWay milkyWayRows rfl rfl
    (by decide) milkyWaySchedule milkyWayDone.1 milkyWayDone.2 milkyWay_run
  ⟨milkyWay_run, (h.2.2 none rfl).2.1, (h.2.2 none rfl).2.2⟩

/-! ## The pipeline: structure of the producer -/

theorem galaxiesSent_append (l₁ l₂ : List GalaxyOp) :
    galaxiesSent (l₁ ++ l₂) = galaxiesSent l₁ ++ galaxiesSent l₂ := by
  induction l₁ with
  | nil => simp [galaxiesSent]
  | cons op rest ih => cases op <;> simp [galaxiesSent, ih]

theorem errorsSent_append (l₁ l₂ : List GalaxyOp) :
    errorsSent (l₁ ++ l₂) = errorsSent l₁ ++ errorsSent l₂ := by
  induction l₁ with
  | nil => simp [errorsSent]
  | cons op rest ih => cases op <;> simp [errorsSent, ih]

theorem galaxyLoop_errors_le_one (rows : List GalaxyRow) (cursor : Option GoError) :
    (errorsSent (GalaxyChannel.loop rows cursor)).length ≤ 1 := by
  induction rows with
  | nil => cases cursor <;> simp [GalaxyChannel.loop, errorsSent]
  | cons r rest ih =>
    rcases hs : r.Scan default with ⟨g, _ | e⟩
    · simpa [GalaxyChannel.loop, hs, errorsSent] using ih
    · simp [GalaxyChannel.loop, hs, errorsSent]

theorem galaxyChannel_errors_le_one (db : Store) :
    (errorsSent (GalaxyChannel db)).length ≤ 1 := by
  unfold GalaxyChannel
  rw [errorsSent_append]
  cases db.QueryGalaxies with
  | error err => simp [errorsSent]
  | ok rows =>
    have := galaxyLoop_errors_le_one rows.pending rows.err
    simpa [errorsSent] using this

theorem galaxyChannel_shape (db : Store) :
    ∃ body, GalaxyChannel db = body ++ [.closeError, .closeGalaxy] ∧
      (∀ op ∈ body, op ≠ .closeError ∧ op ≠ .closeGalaxy) := by
  unfold GalaxyChannel
  cases db.QueryGalaxies with
  | error err => exact ⟨_, rfl, by simp⟩
  | ok rows => exact ⟨_, rfl, galaxyLoop_only_sends _ _⟩

/-- Once `galaxy_channel` is closed the producer has nothing left to do. -/
theorem producer_finished (db : Store) (done rem : List GalaxyOp)
    (h : GalaxyChannel db = done ++ rem) (hc : GalaxyOp.closeGalaxy ∈ done) : rem = [] := by
  obtain ⟨body, hb, hall⟩ := galaxyChannel_shape db
  rw [hb] at h
  by_contra hne
  obtain ⟨front, last, rfl⟩ : ∃ front last, rem = front ++ [last] :=
    ⟨rem.dropLast, rem.getLast hne, (List.dropLast_append_getLast hne).symm⟩
  have h2 : (body ++ [GalaxyOp.closeError]) ++ [GalaxyOp.closeGalaxy] =
      (done ++ front) ++ [last] := by
    simpa using h
  obtain ⟨h3, _⟩ := List.append_inj' h2 rfl
  have : GalaxyOp.closeGalaxy ∈ body ++ [GalaxyOp.closeError] := by
    rw [h3]; exact List.mem_append_left _ hc
  rcases List.mem_append.1 this with hm | hm
  · exact (hall _ hm).2 rfl
  · simp at hm

/-- While `galaxy_channel` is open the producer has an operation to perform. -/
theorem producer_pending (db : Store) (done rem : List GalaxyOp)
    (h : GalaxyChannel db = done ++ rem) (hc : GalaxyOp.closeGalaxy ∉ done) : rem ≠ [] := by
  obtain ⟨body, hb, _⟩ := galaxyChannel_shape db
  intro hnil
  subst hnil
  apply hc
  have : GalaxyOp.closeGalaxy ∈ GalaxyChannel db := by rw [hb]; simp
  simpa [h] using this

theorem producer_closeError_done (db : Store) (done rem : List GalaxyOp)
    (h : GalaxyChannel db = done ++ rem) (hc : GalaxyOp.closeGalaxy ∈ done) :
    GalaxyOp.closeError ∈ done := by
  have hrem := producer_finished db done rem h hc
  subst hrem
  obtain ⟨body, hb, _⟩ := galaxyChannel_shape db
  have : GalaxyOp.closeError ∈ GalaxyChannel db := by rw [hb]; simp
  simpa [h] using this

/-- Before the producer sends its error nothing was sent on `error_channel`. -/
theorem producer_first_error (db : Store) (done rest : List GalaxyOp) (err : GoError)
    (h : GalaxyChannel db = done ++ GalaxyOp.sendError err :: rest) :
    errorsSent done = [] ∧ errorsSent rest = [] := by
  have hle := galaxyChannel_errors_le_one db
  rw [h, errorsSent_append] at hle
  simp only [errorsSent, List.length_append, List.length_cons] at hle
  constructor
  · apply List.eq_nil_of_length_eq_zero; omega
  · apply List.eq_nil_of_length_eq_zero; omega

theorem workerLines_append (ws : List WorkerState) (w : WorkerState) :
    workerLines (ws ++ [w]) = workerLines ws + ↑(w.out.map Event.line) := by
  simp [workerLines]

theorem workerLines_set (ws : List WorkerState) (i : Nat) (w w' : WorkerState)
    (evs : List Event) (hi : ws[i]? = some w) (hout : w'.out = w.out ++ evs) :
    workerLines (ws.set i w') = workerLines ws + ↑(evs.map Event.line) := by
  induction ws generalizing i with
  | nil => simp at hi
  | cons a rest ih =>
    cases i with
    | zero =>
      simp only [List.getElem?_cons_zero, Option.some.injEq] at hi
      subst hi
      simp only [workerLines, List.set_cons_zero, List.map_cons, List.sum_cons, hout,
        List.map_append]
      rw [← Multiset.coe_add]
      abel
    | succ j =>
      simp only [List.getElem?_cons_succ] at hi
      have := ih j hi
      simp only [workerLines, List.set_cons_succ, List.map_cons, List.sum_cons] at this ⊢
      rw [this]
      abel

theorem workerFuel_set (db : Store) (ws : List WorkerState) (i : Nat) (w w' : WorkerState)
    (hi : ws[i]? = some w) (hlt : workerFuel db w' < workerFuel db w) :
    ((ws.set i w').map (workerFuel db)).sum < (ws.map (workerFuel db)).sum := by
  induction ws generalizing i with
  | nil => simp at hi
  | cons a rest ih =>
    cases i with
    | zero =>
      simp only [List.getElem?_cons_zero, Option.some.injEq] at hi
      subst hi
      simp only [List.set_cons_zero, List.map_cons, List.sum_cons]
      omega
    | succ j =>
      simp only [List.getElem?_cons_succ] at hi
      have := ih j hi
      simp only [List.set_cons_succ, List.map_cons, List.sum_cons]
      omega

/-! ## The pipeline: the invariant -/

set_option linter.unusedTactic false
set_option linter.unreachableTactic false

theorem worker_step_returned (db : Store) (m : Move) (w w' : WorkerState)
    (log log' : List String) (h : ProcessGalaxy.step db m w log = some (w', log'))
    (r : Option GoError) (hr : w'.pc = .returned r) :
    (m = .thread ∧ w.pc = .ret r) ∨ w.pc = .returned r := by
  unfold ProcessGalaxy.step at h
  split at h <;> (try simp only [Option.some.injEq, Prod.mk.injEq, WorkerState.emit] at h)
  case h_8 =>
    split at h
    · simp only [Option.some.injEq, Prod.mk.injEq] at h
      obtain ⟨rfl, rfl⟩ := h
      simp at hr
    · simp at h
  case h_13 => simp at h
  all_goals
    obtain ⟨rfl, rfl⟩ := h
    simp_all

theorem worker_step_of_returned (db : Store) (m : Move) (w w' : WorkerState)
    (log log' : List String) (h : ProcessGalaxy.step db m w log = some (w', log'))
    (hr : w.isReturned = true) : w'.pc = w.pc ∧ ∀ r, ¬ (m = .thread ∧ w.pc = .ret r) := by
  unfold ProcessGalaxy.step at h
  split at h <;> (try simp only [Option.some.injEq, Prod.mk.injEq, WorkerState.emit] at h)
  case h_8 =>
    rename_i hpc
    simp [WorkerState.isReturned, hpc] at hr
  case h_13 => simp at h
  all_goals
    obtain ⟨rfl, rfl⟩ := h
    simp_all [WorkerState.isReturned]

theorem worker_step_ret (db : Store) (w w' : WorkerState) (r : Option GoError)
    (log log' : List String) (h : ProcessGalaxy.step db .thread w log = some (w', log'))
    (hr : w.pc = .ret r) : w'.pc = .returned r := by
  simp only [ProcessGalaxy.step, hr, Option.some.injEq, Prod.mk.injEq] at h
  obtain ⟨rfl, rfl⟩ := h
  rfl

theorem pipelineInv_init (db : Store) : PipelineInv db Pipeline.init := by
  refine ⟨[], GalaxyChannel db, [], ?_⟩
  constructor <;> simp [Pipeline.init, galaxiesSent, errorsSent, workerLines, MainPc.stage]

theorem pipeline_main_inv (db : Store) (s s' : PipelineState) (hinv : PipelineInv db s)
    (h : Pipeline.step db .main s = some s') : PipelineInv db s' := by
  obtain ⟨done, rem, mainLog, I⟩ := hinv
  rcases s with ⟨pc, producer, gclosed, buffer, eclosed, workers, gerr, log⟩
  cases pc with
  | entry =>
    simp only [Pipeline.step, Option.some.injEq] at h
    subst h
    have hd := I.entry_done rfl
    subst hd
    refine ⟨[], rem, mainLog, ?_⟩
    constructor
    case producer => simpa using I.ops
    case errors => simp [errorsSent]
    case mainLog_early => intro _; exact I.mainLog_early (by simp [MainPc.stage])
    all_goals first
      | exact I.ops | exact I.workers | exact I.galaxies | exact I.galaxy_closed
      | exact I.error_closed | exact I.buffer_len | exact I.buffer_mem | exact I.log
      | exact I.group_none | exact I.group_some | exact I.mainLog_lines | exact I.errors
      | exact I.check | exact I.logging | exact I.waited | exact I.ranging
      | exact I.mainLog_early | exact I.group_logged | exact I.returned_buffer
      | exact I.entry_done | exact I.producer
      | simp [MainPc.stage]
  | rangeGalaxies =>
    simp only [Pipeline.step] at h
    split at h
    · rename_i hclosed
      simp only [Option.some.injEq] at h
      subst h
      refine ⟨done, rem, mainLog, ?_⟩
      constructor
      case errors => simpa using I.errors
      case ranging => intro _; exact hclosed
      case mainLog_early => intro _; exact I.mainLog_early (by simp [MainPc.stage])
      all_goals first
        | exact I.ops | exact I.workers | exact I.galaxies | exact I.galaxy_closed
        | exact I.error_closed | exact I.buffer_len | exact I.buffer_mem | exact I.log
        | exact I.group_none | exact I.group_some | exact I.mainLog_lines | exact I.errors
        | exact I.check | exact I.logging | exact I.waited | exact I.ranging
        | exact I.mainLog_early | exact I.group_logged | exact I.returned_buffer
        | exact I.entry_done | exact I.producer
        | simp [MainPc.stage]
    · simp at h
  | wait =>
    simp only [Pipeline.step] at h
    split at h
    · rename_i hall
      simp only [Option.some.injEq] at h
      subst h
      refine ⟨done, rem, mainLog, ?_⟩
      constructor
      case errors => simpa using I.errors
      case ranging => intro _; exact I.ranging (by simp [MainPc.stage])
      case waited => intro _; simpa using hall
      case mainLog_early => intro _; exact I.mainLog_early (by simp [MainPc.stage])
      all_goals first
        | exact I.ops | exact I.workers | exact I.galaxies | exact I.galaxy_closed
        | exact I.error_closed | exact I.buffer_len | exact I.buffer_mem | exact I.log
        | exact I.group_none | exact I.group_some | exact I.mainLog_lines | exact I.errors
        | exact I.check | exact I.logging | exact I.waited | exact I.ranging
        | exact I.mainLog_early | exact I.group_logged | exact I.returned_buffer
        | exact I.entry_done | exact I.producer
        | simp [MainPc.stage]
    · simp at h
  | checkErr r =>
    have hr := I.check r rfl
    cases r with
    | none =>
      simp only [Pipeline.step, Option.some.injEq] at h
      subst h
      refine ⟨done, rem, mainLog, ?_⟩
      constructor
      case errors => simpa using I.errors
      case ranging => intro _; exact I.ranging (by simp [MainPc.stage])
      case waited => intro _; exact I.waited (by simp [MainPc.stage])
      case group_logged =>
        intro _ e he
        simp only at hr he
        rw [← hr] at he
        simp at he
      all_goals first
        | exact I.ops | exact I.workers | exact I.galaxies | exact I.galaxy_closed
        | exact I.error_closed | exact I.buffer_len | exact I.buffer_mem | exact I.log
        | exact I.group_none | exact I.group_some | exact I.mainLog_lines | exact I.errors
        | exact I.check | exact I.logging | exact I.waited | exact I.ranging
        | exact I.mainLog_early | exact I.group_logged | exact I.returned_buffer
        | exact I.entry_done | exact I.producer
        | simp [MainPc.stage]
    | some err =>
      simp only [Pipeline.step, Option.some.injEq] at h
      subst h
      have hm := I.mainLog_early (by simp [MainPc.stage])
      subst hm
      refine ⟨done, rem, [pipelineLine err], ?_⟩
      constructor
      case errors =>
        intro e he
        rcases I.errors e he with hb | hp | hl
        · exact Or.inl hb
        · simp at hp
        · simp at hl
      case ranging => intro _; exact I.ranging (by simp [MainPc.stage])
      case waited => intro _; exact I.waited (by simp [MainPc.stage])
      case log =>
        have := I.log
        simp only [Multiset.coe_nil, add_zero] at this
        simp only [← Multiset.coe_add, this.symm]
      case mainLog_lines =>
        intro l hl
        simp only [List.mem_singleton] at hl
        exact ⟨err, hl, Or.inl hr.symm⟩
      case group_logged =>
        intro _ e he
        simp only at hr he
        rw [← hr] at he
        simp only [Option.some.injEq] at he
        simp [he]
      all_goals first
        | exact I.ops | exact I.workers | exact I.galaxies | exact I.galaxy_closed
        | exact I.error_closed | exact I.buffer_len | exact I.buffer_mem | exact I.log
        | exact I.group_none | exact I.group_some | exact I.mainLog_lines | exact I.errors
        | exact I.check | exact I.logging | exact I.waited | exact I.ranging
        | exact I.mainLog_early | exact I.group_logged | exact I.returned_buffer
        | exact I.entry_done | exact I.producer
        | simp [MainPc.stage]
  | rangeErrors =>
    simp only [Pipeline.step] at h
    split at h
    · rename_i _ err rest
      simp only [Option.some.injEq] at h
      subst h
      refine ⟨done, rem, mainLog, ?_⟩
      constructor
      case buffer_len => have := I.buffer_len; simp only [List.length_cons] at this ⊢; omega
      case buffer_mem => intro e he; exact I.buffer_mem e (List.mem_cons_of_mem _ he)
      case logging =>
        intro e he
        simp only [MainPc.logError.injEq] at he
        subst he
        exact I.buffer_mem _ (List.mem_cons_self _ _)
      case errors =>
        intro e he
        rcases I.errors e he with hb | hp | hl
        · rcases List.mem_cons.1 hb with rfl | hb
          · exact Or.inr (Or.inl rfl)
          · exact Or.inl hb
        · simp at hp
        · exact Or.inr (Or.inr hl)
      case ranging => intro _; exact I.ranging (by simp [MainPc.stage])
      case waited => intro _; exact I.waited (by simp [MainPc.stage])
      case group_logged => intro _; exact I.group_logged (by simp [MainPc.stage])
      all_goals first
        | exact I.ops | exact I.workers | exact I.galaxies | exact I.galaxy_closed
        | exact I.error_closed | exact I.buffer_len | exact I.buffer_mem | exact I.log
        | exact I.group_none | exact I.group_some | exact I.mainLog_lines | exact I.errors
        | exact I.check | exact I.logging | exact I.waited | exact I.ranging
        | exact I.mainLog_early | exact I.group_logged | exact I.returned_buffer
        | exact I.entry_done | exact I.producer
        | simp [MainPc.stage]
    · split at h
      · simp only [Option.some.injEq] at h
        subst h
        refine ⟨done, rem, mainLog, ?_⟩
        constructor
        case errors => simpa using I.errors
        case ranging => intro _; exact I.ranging (by simp [MainPc.stage])
        case waited => intro _; exact I.waited (by simp [MainPc.stage])
        case group_logged => intro _; exact I.group_logged (by simp [MainPc.stage])
        all_goals first
          | exact I.ops | exact I.workers | exact I.galaxies | exact I.galaxy_closed
          | exact I.error_closed | exact I.buffer_len | exact I.buffer_mem | exact I.log
          | exact I.group_none | exact I.group_some | exact I.mainLog_lines | exact I.errors
          | exact I.check | exact I.logging | exact I.waited | exact I.ranging
          | exact I.mainLog_early | exact I.group_logged | exact I.returned_buffer
          | exact I.entry_done | exact I.producer
          | simp [MainPc.stage]
      · simp at h
  | logError err =>
    simp only [Pipeline.step, Option.some.injEq] at h
    subst h
    refine ⟨done, rem, mainLog ++ [pipelineLine err], ?_⟩
    constructor
    case errors =>
      intro e he
      rcases I.errors e he with hb | hp | hl
      · exact Or.inl hb
      · simp only [MainPc.logError.injEq] at hp
        subst hp
        exact Or.inr (Or.inr (by simp))
      · exact Or.inr (Or.inr (by simp [hl]))
    case log =>
      have := I.log
      simp only at this ⊢
      rw [← Multiset.coe_add, ← Multiset.coe_add, this, add_assoc]
    case mainLog_lines =>
      intro l hl
      rcases List.mem_append.1 hl with hl | hl
      · exact I.mainLog_lines l hl
      · simp only [List.mem_singleton] at hl
        exact ⟨err, hl, Or.inr (I.logging err rfl)⟩
    case group_logged =>
      intro _ e he
      exact List.mem_append_left _ (I.group_logged (by simp [MainPc.stage]) e he)
    all_goals first
      | exact I.ops | exact I.workers | exact I.galaxies | exact I.galaxy_closed
      | exact I.error_closed | exact I.buffer_len | exact I.buffer_mem | exact I.log
      | exact I.group_none | exact I.group_some | exact I.mainLog_lines | exact I.errors
      | exact I.check | exact I.logging | exact I.waited | exact I.ranging
      | exact I.mainLog_early | exact I.group_logged | exact I.returned_buffer
      | exact I.entry_done | exact I.producer
      | simp [MainPc.stage]
  | returned => simp [Pipeline.step] at h

theorem pipeline_producer_inv (db : Store) (s s' : PipelineState) (hinv : PipelineInv db s)
    (h : Pipeline.step db .producer s = some s') : PipelineInv db s' := by
  obtain ⟨done, rem, mainLog, I⟩ := hinv
  rcases s with ⟨pc, producer, gclosed, buffer, eclosed, workers, gerr, log⟩
  simp only [Pipeline.step] at h
  split at h
  · rename_i _ err rest
    split at h
    · rename_i hlen
      simp only [Option.some.injEq] at h
      subst h
      have hpc : pc ≠ .entry := by
        intro hpc
        have := I.producer
        simp [hpc] at this
      have hrem : rem = GalaxyOp.sendError err :: rest := by
        have := I.producer
        simp only [hpc, if_false] at this
        exact (Option.some.inj this).symm
      subst hrem
      have hopen : ¬ 2 ≤ pc.stage := by
        intro hst
        have hc := (I.galaxy_closed).1 (I.ranging hst)
        have := producer_finished db done _ I.ops hc
        simp at this
      refine ⟨done ++ [GalaxyOp.sendError err], rest, mainLog, ?_⟩
      constructor
      case ops => simpa using I.ops
      case producer => simp [hpc]
      case entry_done => intro h; exact absurd h hpc
      case returned_buffer =>
        intro h
        simp only at h
        subst h
        exact absurd (by simp [MainPc.stage]) hopen
      case galaxies => simpa [galaxiesSent_append, galaxiesSent] using I.galaxies
      case galaxy_closed => simpa using I.galaxy_closed
      case error_closed => simpa using I.error_closed
      case buffer_len =>
        have := I.buffer_len
        simp only [errorsSent_append, errorsSent, List.length_append, List.length_cons,
          List.length_nil] at this ⊢
        omega
      case buffer_mem =>
        intro e he
        simp only [errorsSent_append, errorsSent, List.mem_append, List.mem_singleton] at he ⊢
        rcases he with he | he
        · exact Or.inl (I.buffer_mem e he)
        · exact Or.inr he
      case logging =>
        intro e he
        simp only [errorsSent_append, List.mem_append]
        exact Or.inl (I.logging e he)
      case errors =>
        intro e he
        simp only [errorsSent_append, errorsSent, List.mem_append, List.mem_singleton] at he
        rcases he with he | he
        · rcases I.errors e he with hb | hp' | hl
          · exact Or.inl (List.mem_append_left _ hb)
          · exact Or.inr (Or.inl hp')
          · exact Or.inr (Or.inr hl)
        · exact Or.inl (by simp [he])
      case mainLog_lines =>
        intro l hl
        obtain ⟨e, h1, h2⟩ := I.mainLog_lines l hl
        refine ⟨e, h1, ?_⟩
        rcases h2 with h2 | h2
        · exact Or.inl h2
        · exact Or.inr (by simp [errorsSent_append, h2])
      all_goals first
        | exact I.ops | exact I.workers | exact I.galaxies | exact I.galaxy_closed
        | exact I.error_closed | exact I.buffer_len | exact I.buffer_mem | exact I.log
        | exact I.group_none | exact I.group_some | exact I.mainLog_lines | exact I.errors
        | exact I.check | exact I.logging | exact I.waited | exact I.ranging
        | exact I.mainLog_early | exact I.group_logged | exact I.returned_buffer
        | exact I.entry_done | exact I.producer
        | simp [MainPc.stage]
    · simp at h
  · rename_i _ rest
    simp only [Option.some.injEq] at h
    subst h
    have hpc : pc ≠ .entry := by
      intro hpc
      have := I.producer
      simp [hpc] at this
    have hrem : rem = GalaxyOp.closeError :: rest := by
      have := I.producer
      simp only [hpc, if_false] at this
      exact (Option.some.inj this).symm
    subst hrem
    have hopen : ¬ 2 ≤ pc.stage := by
      intro hst
      have hc := (I.galaxy_closed).1 (I.ranging hst)
      have := producer_finished db done _ I.ops hc
      simp at this
    refine ⟨done ++ [GalaxyOp.closeError], rest, mainLog, ?_⟩
    constructor
    case ops => simpa using I.ops
    case producer => simp [hpc]
    case entry_done => intro h; exact absurd h hpc
    case returned_buffer =>
      intro h
      simp only at h
      subst h
      exact absurd (by simp [MainPc.stage]) hopen
    case galaxies => simpa [galaxiesSent_append, galaxiesSent] using I.galaxies
    case galaxy_closed => simpa using I.galaxy_closed
    case error_closed => simp
    case buffer_len => simpa [errorsSent_append, errorsSent] using I.buffer_len
    case buffer_mem => simpa [errorsSent_append, errorsSent] using I.buffer_mem
    case logging => simpa [errorsSent_append, errorsSent] using I.logging
    case errors => simpa [errorsSent_append, errorsSent] using I.errors
    case mainLog_lines => simpa [errorsSent_append, errorsSent] using I.mainLog_lines
    all_goals first
      | exact I.ops | exact I.workers | exact I.galaxies | exact I.galaxy_closed
      | exact I.error_closed | exact I.buffer_len | exact I.buffer_mem | exact I.log
      | exact I.group_none | exact I.group_some | exact I.mainLog_lines | exact I.errors
      | exact I.check | exact I.logging | exact I.waited | exact I.ranging
      | exact I.mainLog_early | exact I.group_logged | exact I.returned_buffer
      | exact I.entry_done | exact I.producer
      | simp [MainPc.stage]
  · rename_i _ rest
    simp only [Option.some.injEq] at h
    subst h
    have hpc : pc ≠ .entry := by
      intro hpc
      have := I.producer
      simp [hpc] at this
    have hrem : rem = GalaxyOp.closeGalaxy :: rest := by
      have := I.producer
      simp only [hpc, if_false] at this
      exact (Option.some.inj this).symm
    subst hrem
    have hopen : ¬ 2 ≤ pc.stage := by
      intro hst
      have hc := (I.galaxy_closed).1 (I.ranging hst)
      have := producer_finished db done _ I.ops hc
      simp at this
    refine ⟨done ++ [GalaxyOp.closeGalaxy], rest, mainLog, ?_⟩
    constructor
    case ops => simpa using I.ops
    case producer => simp [hpc]
    case entry_done => intro h; exact absurd h hpc
    case returned_buffer =>
      intro h
      simp only at h
      subst h
      exact absurd (by simp [MainPc.stage]) hopen
    case galaxies => simpa [galaxiesSent_append, galaxiesSent] using I.galaxies
    case galaxy_closed => simp
    case error_closed => simpa using I.error_closed
    case buffer_len => simpa [errorsSent_append, errorsSent] using I.buffer_len
    case buffer_mem => simpa [errorsSent_append, errorsSent] using I.buffer_mem
    case logging => simpa [errorsSent_append, errorsSent] using I.logging
    case errors => simpa [errorsSent_append, errorsSent] using I.errors
    case mainLog_lines => simpa [errorsSent_append, errorsSent] using I.mainLog_lines
    all_goals first
      | exact I.ops | exact I.workers | exact I.galaxies | exact I.galaxy_closed
      | exact I.error_closed | exact I.buffer_len | exact I.buffer_mem | exact I.log
      | exact I.group_none | exact I.group_some | exact I.mainLog_lines | exact I.errors
      | exact I.check | exact I.logging | exact I.waited | exact I.ranging
      | exact I.mainLog_early | exact I.group_logged | exact I.returned_buffer
      | exact I.entry_done | exact I.producer
      | simp [MainPc.stage]
  · simp at h

theorem pipeline_deliver_inv (db : Store) (s s' : PipelineState) (hinv : PipelineInv db s)
    (h : Pipeline.step db .deliver s = some s') : PipelineInv db s' := by
  obtain ⟨done, rem, mainLog, I⟩ := hinv
  rcases s with ⟨pc, producer, gclosed, buffer, eclosed, workers, gerr, log⟩
  simp only [Pipeline.step] at h
  split at h
  · rename_i _ _ galaxy rest
    simp only [Option.some.injEq] at h
    subst h
    have hrem : rem = GalaxyOp.sendGalaxy galaxy :: rest := by
      have := I.producer
      simp only [reduceCtorEq, if_false] at this
      exact (Option.some.inj this).symm
    subst hrem
    refine ⟨done ++ [.sendGalaxy galaxy], rest, mainLog, ?_⟩
    constructor
    case ops => simpa using I.ops
    case workers =>
      intro w hw
      rcases List.mem_append.1 hw with hw | hw
      · exact I.workers w hw
      · simp only [List.mem_singleton] at hw
        subst hw
        exact workerInv_init db galaxy
    case galaxies =>
      have := I.galaxies
      simp only at this
      simp [galaxiesSent_append, galaxiesSent, this, ProcessGalaxy.init]
    case galaxy_closed => simpa using I.galaxy_closed
    case error_closed => simpa using I.error_closed
    case buffer_len => simpa [errorsSent_append, errorsSent] using I.buffer_len
    case buffer_mem => simpa [errorsSent_append, errorsSent] using I.buffer_mem
    case logging => simp [errorsSent_append, errorsSent]
    case errors => simpa [errorsSent_append, errorsSent] using I.errors
    case mainLog_lines => simpa [errorsSent_append, errorsSent] using I.mainLog_lines
    case group_none =>
      intro hg w hw e
      rcases List.mem_append.1 hw with hw | hw
      · exact I.group_none hg w hw e
      · simp only [List.mem_singleton] at hw
        subst hw
        simp [ProcessGalaxy.init]
    case group_some =>
      intro e he
      obtain ⟨w, hw, hpc⟩ := I.group_some e he
      exact ⟨w, List.mem_append_left _ hw, hpc⟩
    case log =>
      have := I.log
      simp only at this ⊢
      rw [workerLines_append, this]
      simp [ProcessGalaxy.init]
    all_goals first
      | exact I.ops | exact I.workers | exact I.galaxies | exact I.galaxy_closed
      | exact I.error_closed | exact I.buffer_len | exact I.buffer_mem | exact I.log
      | exact I.group_none | exact I.group_some | exact I.mainLog_lines | exact I.errors
      | exact I.check | exact I.logging | exact I.waited | exact I.ranging
      | exact I.mainLog_early | exact I.group_logged | exact I.returned_buffer
      | exact I.entry_done | exact I.producer
      | simp [MainPc.stage]
  · simp at h

theorem errgroupRecord_some (g r : Option GoError) (e : GoError) (h : g = some e) :
    errgroupRecord g r = some e := by
  subst h; rfl

theorem pipeline_worker_inv (db : Store) (i : Nat) (m : Move) (s s' : PipelineState)
    (hinv : PipelineInv db s)
    (h : Pipeline.step db (.worker i m) s = some s') : PipelineInv db s' := by
  obtain ⟨done, rem, mainLog, I⟩ := hinv
  rcases s with ⟨pc, producer, gclosed, buffer, eclosed, workers, gerr, log⟩
  simp only [Pipeline.step] at h
  cases hw : workers[i]? with
  | none => simp [hw] at h
  | some w =>
    simp only [hw] at h
    cases hstep : ProcessGalaxy.step db m w log with
    | none => simp [hstep] at h
    | some t =>
      obtain ⟨w', log'⟩ := t
      simp only [hstep, Option.some.injEq] at h
      have hmem : w ∈ workers := List.mem_iff_getElem?.2 ⟨i, hw⟩
      have hilt : i < workers.length := by
        rcases List.getElem?_eq_some_iff.1 hw with ⟨hlt, _⟩
        exact hlt
      have hwinv := worker_step_inv db m w w' log log' (I.workers w hmem) hstep
      obtain ⟨hgal, evs, hout, hlog⟩ := worker_step_frame db m w w' log log' hstep
      have hback : ∀ x ∈ workers.set i w', x ∈ workers ∨ x = w' :=
        fun x hx => List.mem_or_eq_of_mem_set hx
      -- the error held by the group after the transition
      obtain ⟨gerr', hgerr'⟩ : ∃ g, g = (match m, w.pc with
          | .thread, .ret r => errgroupRecord gerr r
          | _, _ => gerr) := ⟨_, rfl⟩
      rw [← hgerr'] at h
      subst h
      have hkeep : ∀ e, gerr = some e → gerr' = some e := by
        intro e he
        rw [hgerr']
        split
        · exact errgroupRecord_some _ _ _ he
        · exact he
      have hnew : ∀ e, gerr' = some e → gerr = some e ∨ w'.pc = .returned (some e) := by
        intro e he
        rw [hgerr'] at he
        split at he
        · rename_i r hm hpc
          cases gerr with
          | some e0 => exact Or.inl he
          | none =>
            simp only [errgroupRecord] at he
            subst he
            exact Or.inr (worker_step_ret db w w' _ log log' hstep hpc)
        · exact Or.inl he
      have hnone : gerr' = none → gerr = none ∧ ∀ e, w'.pc ≠ .returned (some e) := by
        intro hn
        have hg : gerr = none := by
          cases hg : gerr with
          | none => rfl
          | some e0 => rw [hkeep e0 hg] at hn; simp at hn
        refine ⟨hg, ?_⟩
        intro e hpc'
        rcases worker_step_returned db m w w' log log' hstep _ hpc' with ⟨hm, hpc⟩ | hpc
        · rw [hgerr', hm, hpc, hg] at hn
          simp [errgroupRecord] at hn
        · exact I.group_none hg w hmem e hpc
      have hstay : 3 ≤ pc.stage → gerr' = gerr ∧ w'.isReturned = true := by
        intro hst
        have hr := I.waited hst w hmem
        obtain ⟨hpc', hno⟩ := worker_step_of_returned db m w w' log log' hstep hr
        constructor
        · rw [hgerr']
          split
          · rename_i hm hpc
            exact absurd ⟨rfl, hpc⟩ (hno _)
          · rfl
        · simp only [WorkerState.isReturned, hpc'] at hr ⊢
          exact hr
      refine ⟨done, rem, mainLog, ?_⟩
      constructor
      case workers =>
        intro x hx
        rcases hback x hx with hx | rfl
        · exact I.workers x hx
        · exact hwinv
      case galaxies =>
        have := I.galaxies
        simp only at this ⊢
        rw [← this]
        apply List.ext_getElem?
        intro n
        by_cases hn : i = n
        · subst hn
          simp only [List.map_set, hgal]
          rw [List.getElem?_set_self (by simpa using hilt)]
          simp [hw]
        · simp [List.getElem?_set_ne hn]
      case waited =>
        intro hst x hx
        rcases hback x hx with hx | rfl
        · exact I.waited hst x hx
        · exact (hstay hst).2
      case check =>
        intro r hr
        have hst : 3 ≤ pc.stage := by
          simp only at hr
          subst hr
          simp [MainPc.stage]
        rw [(hstay hst).1]
        exact I.check r hr
      case group_none =>
        intro hg x hx e
        obtain ⟨hg0, hw'⟩ := hnone hg
        rcases hback x hx with hx | rfl
        · exact I.group_none hg0 x hx e
        · exact hw' e
      case group_some =>
        intro e he
        rcases hnew e he with hg | hpc'
        · obtain ⟨x, hx, hxpc⟩ := I.group_some e hg
          by_cases hxw : x = w
          · subst hxw
            have hr : x.isReturned = true := by simp [WorkerState.isReturned, hxpc]
            obtain ⟨hpc', _⟩ := worker_step_of_returned db m x w' log log' hstep hr
            exact ⟨w', List.mem_set _ _ hilt _, by rw [hpc', hxpc]⟩
          · obtain ⟨n, hn⟩ := List.mem_iff_getElem?.1 hx
            have hni : i ≠ n := by
              intro hin
              subst hin
              rw [hw] at hn
              exact hxw (Option.some.inj hn).symm
            exact ⟨x, List.mem_iff_getElem?.2 ⟨n, by rw [List.getElem?_set_ne hni]; exact hn⟩, hxpc⟩
        · exact ⟨w', List.mem_set _ _ hilt _, hpc'⟩
      case log =>
        have := I.log
        simp only at this ⊢
        rw [workerLines_set workers i w w' evs hw hout, hlog, ← Multiset.coe_add, this]
        abel
      case mainLog_lines =>
        intro l hl
        obtain ⟨e, h1, h2⟩ := I.mainLog_lines l hl
        refine ⟨e, h1, ?_⟩
        rcases h2 with h2 | h2
        · exact Or.inl (hkeep e h2)
        · exact Or.inr h2
      case group_logged =>
        intro hst e he
        have hst3 : 3 ≤ pc.stage := by simp only at hst; omega
        simp only at he
        rw [(hstay hst3).1] at he
        exact I.group_logged hst e he
      all_goals first
        | exact I.ops | exact I.workers | exact I.galaxies | exact I.galaxy_closed
        | exact I.error_closed | exact I.buffer_len | exact I.buffer_mem | exact I.log
        | exact I.group_none | exact I.group_some | exact I.mainLog_lines | exact I.errors
        | exact I.check | exact I.logging | exact I.waited | exact I.ranging
        | exact I.mainLog_early | exact I.group_logged | exact I.returned_buffer
        | exact I.entry_done | exact I.producer
        | simp [MainPc.stage]

theorem pipeline_step_inv (db : Store) (c : Choice) (s s' : PipelineState)
    (hinv : PipelineInv db s) (h : Pipeline.step db c s = some s') : PipelineInv db s' := by
  cases c with
  | main => exact pipeline_main_inv db s s' hinv h
  | producer => exact pipeline_producer_inv db s s' hinv h
  | deliver => exact pipeline_deliver_inv db s s' hinv h
  | worker i m => exact pipeline_worker_inv db i m s s' hinv h

theorem pipeline_run_inv (db : Store) (sched : List Choice) (s s' : PipelineState)
    (hinv : PipelineInv db s) (h : Pipeline.run db sched s = some s') : PipelineInv db s' := by
  induction sched generalizing s with
  | nil =>
    simp only [Pipeline.run, Option.some.injEq] at h
    subst h
    exact hinv
  | cons c cs ih =>
    simp only [Pipeline.run] at h
    cases hstep : Pipeline.step db c s with
    | none => simp [hstep] at h
    | some t =>
      rw [hstep] at h
      exact ih t (pipeline_step_inv db c s t hinv hstep) h

theorem pipeline_progress (db : Store) (s : PipelineState) (hinv : PipelineInv db s)
    (hrun : s.pc ≠ .returned) : ∃ c, (Pipeline.step db c s).isSome = true := by
  obtain ⟨done, rem, mainLog, I⟩ := hinv
  rcases s with ⟨pc, producer, gclosed, buffer, eclosed, workers, gerr, log⟩
  cases pc with
  | entry => exact ⟨.main, by simp [Pipeline.step]⟩
  | rangeGalaxies =>
    by_cases hc : gclosed = true
    · exact ⟨.main, by simp [Pipeline.step, hc]⟩
    · have hnd : GalaxyOp.closeGalaxy ∉ done := fun hd => hc (I.galaxy_closed.2 hd)
      have hne := producer_pending db done rem I.ops hnd
      have hp : producer = some rem := by simpa using I.producer
      cases rem with
      | nil => exact absurd rfl hne
      | cons op rest =>
        cases op with
        | sendGalaxy g => exact ⟨.deliver, by simp [Pipeline.step, hp]⟩
        | sendError e =>
          have hb : buffer = [] := by
            have h1 := (producer_first_error db done rest e I.ops).1
            have h2 := I.buffer_len
            rw [h1] at h2
            exact List.eq_nil_of_length_eq_zero (by simpa using h2)
          exact ⟨.producer, by simp [Pipeline.step, hp, hb]⟩
        | closeError => exact ⟨.producer, by simp [Pipeline.step, hp]⟩
        | closeGalaxy => exact ⟨.producer, by simp [Pipeline.step, hp]⟩
  | wait =>
    by_cases hall : workers.all WorkerState.isReturned = true
    · exact ⟨.main, by simp [Pipeline.step, hall]⟩
    · simp only [List.all_eq_true, not_forall, Bool.not_eq_true] at hall
      obtain ⟨w, hw, hnr⟩ := hall
      obtain ⟨i, hi⟩ := List.mem_iff_getElem?.1 hw
      obtain ⟨m, hm⟩ := worker_progress db w log (I.workers w hw) hnr
      refine ⟨.worker i m, ?_⟩
      cases hstep : ProcessGalaxy.step db m w log with
      | none => simp [hstep] at hm
      | some t => simp [Pipeline.step, hi, hstep]
  | checkErr r => cases r <;> exact ⟨.main, by simp [Pipeline.step]⟩
  | rangeErrors =>
    cases buffer with
    | cons e rest => exact ⟨.main, by simp [Pipeline.step]⟩
    | nil =>
      have hg := I.galaxy_closed.1 (I.ranging (by simp [MainPc.stage]))
      have he := I.error_closed.2 (producer_closeError_done db done rem I.ops hg)
      simp only at he
      exact ⟨.main, by simp [Pipeline.step, he]⟩
  | logError e => exact ⟨.main, by simp [Pipeline.step]⟩
  | returned => exact absurd rfl hrun

theorem pipeline_fuel_decreases (db : Store) (c : Choice) (s s' : PipelineState)
    (hinv : PipelineInv db s) (h : Pipeline.step db c s = some s') :
    pipelineFuel db s' < pipelineFuel db s := by
  obtain ⟨done, rem, mainLog, I⟩ := hinv
  rcases s with ⟨pc, producer, gclosed, buffer, eclosed, workers, gerr, log⟩
  cases c with
  | main =>
    cases pc with
    | entry =>
      have hp : producer = none := by simpa using I.producer
      simp only [Pipeline.step, Option.some.injEq] at h
      subst h
      simp [pipelineFuel, mainRank, hp]
    | rangeGalaxies =>
      simp only [Pipeline.step] at h
      split at h
      · simp only [Option.some.injEq] at h
        subst h
        simp [pipelineFuel, mainRank]
      · simp at h
    | wait =>
      simp only [Pipeline.step] at h
      split at h
      · simp only [Option.some.injEq] at h
        subst h
        simp [pipelineFuel, mainRank]
      · simp at h
    | checkErr r =>
      cases r <;>
      · simp only [Pipeline.step, Option.some.injEq] at h
        subst h
        simp [pipelineFuel, mainRank]
    | rangeErrors =>
      simp only [Pipeline.step] at h
      split at h
      · simp only [Option.some.injEq] at h
        subst h
        simp only [pipelineFuel, mainRank, List.length_cons]
        omega
      · split at h
        · simp only [Option.some.injEq] at h
          subst h
          simp [pipelineFuel, mainRank]
        · simp at h
    | logError e =>
      simp only [Pipeline.step, Option.some.injEq] at h
      subst h
      simp [pipelineFuel, mainRank]
    | returned => simp [Pipeline.step] at h
  | producer =>
    simp only [Pipeline.step] at h
    split at h
    · split at h
      · simp only [Option.some.injEq] at h
        subst h
        simp only [pipelineFuel, Option.getD_some, List.map_cons, List.sum_cons, opCost,
          List.length_append, List.length_cons, List.length_nil]
        omega
      · simp at h
    · simp only [Option.some.injEq] at h
      subst h
      simp only [pipelineFuel, Option.getD_some, List.map_cons, List.sum_cons, opCost]
      omega
    · simp only [Option.some.injEq] at h
      subst h
      simp only [pipelineFuel, Option.getD_some, List.map_cons, List.sum_cons, opCost]
      omega
    · simp at h
  | deliver =>
    simp only [Pipeline.step] at h
    split at h
    · simp only [Option.some.injEq] at h
      subst h
      simp only [pipelineFuel, Option.getD_some, List.map_cons, List.sum_cons, opCost,
        List.map_append, List.sum_append, List.sum_nil, List.map_nil]
      omega
    · simp at h
  | worker i m =>
    simp only [Pipeline.step] at h
    cases hw : workers[i]? with
    | none => simp [hw] at h
    | some w =>
      simp only [hw] at h
      cases hstep : ProcessGalaxy.step db m w log with
      | none => simp [hstep] at h
      | some t =>
        obtain ⟨w', log'⟩ := t
        simp only [hstep, Option.some.injEq] at h
        subst h
        have hmem : w ∈ workers := List.mem_iff_getElem?.2 ⟨i, hw⟩
        have hlt := worker_fuel_decreases db m w w' log log' (I.workers w hmem) hstep
        have := workerFuel_set db workers i w w' hw hlt
        simp only [pipelineFuel]
        omega

theorem pipeline_run_fuel (db : Store) (sched : List Choice) (s s' : PipelineState)
    (hinv : PipelineInv db s) (h : Pipeline.run db sched s = some s') :
    sched.length + pipelineFuel db s' ≤ pipelineFuel db s := by
  induction sched generalizing s with
  | nil =>
    simp only [Pipeline.run, Option.some.injEq] at h
    subst h
    simp
  | cons c cs ih =>
    simp only [Pipeline.run] at h
    cases hstep : Pipeline.step db c s with
    | none => simp [hstep] at h
    | some t =>
      rw [hstep] at h
      have h1 := ih t (pipeline_step_inv db c s t hinv hstep) h
      have h2 := pipeline_fuel_decreases db c s t hinv hstep
      simp only [List.length_cons]
      omega

/-! ## The pipeline: runs from the initial state -/

theorem pipeline_reach (db : Store) (sched : List Choice) (s : PipelineState)
    (hrun : Pipeline.run db sched Pipeline.init = some s) :
    PipelineInv db s ∧ sched.length ≤ pipelineFuel db Pipeline.init := by
  refine ⟨pipeline_run_inv db sched _ s (pipelineInv_init db) hrun, ?_⟩
  have := pipeline_run_fuel db sched _ s (pipelineInv_init db) hrun
  omega

theorem pipelineInv_after_range (db : Store) (s : PipelineState) (done rem : List GalaxyOp)
    (mainLog : List String) (I : PipelineInvAt db s done rem mainLog) (hst : 2 ≤ s.pc.stage) :
    rem = [] ∧ done = GalaxyChannel db := by
  have hc := I.galaxy_closed.1 (I.ranging hst)
  have hrem := producer_finished db done rem I.ops hc
  refine ⟨hrem, ?_⟩
  have := I.ops
  rw [hrem, List.append_nil] at this
  exact this.symm

theorem mem_workerLines (ws : List WorkerState) (w : WorkerState) (hw : w ∈ ws) (l : String)
    (hl : l ∈ w.out.map Event.line) : l ∈ workerLines ws := by
  induction ws with
  | nil => simp at hw
  | cons a rest ih =>
    simp only [workerLines, List.map_cons, List.sum_cons, Multiset.mem_add]
    rcases List.mem_cons.1 hw with rfl | hw
    · exact Or.inl (by simpa using hl)
    · exact Or.inr (ih hw)

theorem mem_log_of_worker (db : Store) (s : PipelineState) (done rem : List GalaxyOp)
    (mainLog : List String) (I : PipelineInvAt db s done rem mainLog)
    (w : WorkerState) (hw : w ∈ s.workers) (l : String) (hl : l ∈ w.out.map Event.line) :
    l ∈ s.log := by
  have h1 : l ∈ workerLines s.workers := mem_workerLines s.workers w hw l hl
  have h2 : l ∈ (↑s.log : Multiset String) := by
    rw [I.log]
    exact Multiset.mem_add.2 (Or.inl h1)
  simpa using h2

theorem mem_log_of_main (db : Store) (s : PipelineState) (done rem : List GalaxyOp)
    (mainLog : List String) (I : PipelineInvAt db s done rem mainLog)
    (l : String) (hl : l ∈ mainLog) : l ∈ s.log := by
  have h2 : l ∈ (↑s.log : Multiset String) := by
    rw [I.log]
    exact Multiset.mem_add.2 (Or.inr (by simpa using hl))
  simpa using h2

theorem workerLines_eq (ws : List WorkerState) (f : Galaxy → List String)
    (h : ∀ w ∈ ws, w.out.map Event.line = f w.galaxy) :
    workerLines ws = ↑((ws.map (fun w => w.galaxy)).flatMap f) := by
  induction ws with
  | nil => simp [workerLines]
  | cons a rest ih =>
    have ih := ih (fun w hw => h w (List.mem_cons_of_mem _ hw))
    simp only [workerLines, List.map_cons, List.sum_cons, List.flatMap_cons] at ih ⊢
    rw [ih, h a (List.mem_cons_self _ _), Multiset.coe_add]

theorem outComplete_lines (galaxy : Galaxy) (stars : List Star) :
    (outComplete galaxy stars).map Event.line = expectedGalaxyLines galaxy stars := by
  simp [outComplete, expectedGalaxyLines, Event.line, processingLine, summaryLine, ProcessStar,
    Function.comp_def]

theorem noFailure_galaxyChannel (db : Store) (h : db.NoFailure) :
    GalaxyChannel db = db.galaxyList.map GalaxyOp.sendGalaxy ++ [.closeError, .closeGalaxy] ∧
      galaxiesSent (GalaxyChannel db) = db.galaxyList ∧ errorsSent (GalaxyChannel db) = [] := by
  obtain ⟨hq, hc, hg, _⟩ := h
  have h1 : GalaxyChannel db =
      db.galaxyList.map GalaxyOp.sendGalaxy ++ [.closeError, .closeGalaxy] := by
    simp [GalaxyChannel, Store.QueryGalaxies, Store.execute, hq, hc,
      galaxyLoop_all_decoded db.galaxies hg, Store.galaxyList]
  refine ⟨h1, ?_, ?_⟩
  · rw [h1]
    generalize db.galaxyList = gs
    induction gs with
    | nil => simp [galaxiesSent]
    | cons g rest ih => simpa [galaxiesSent] using ih
  · rw [h1]
    generalize db.galaxyList = gs
    induction gs with
    | nil => simp [errorsSent]
    | cons g rest ih => simpa [errorsSent] using ih

theorem noFailure_stars (db : Store) (h : db.NoFailure) (galaxy : Galaxy) :
    starsOf db galaxy = db.starList galaxy ∧ (GalaxyStarChannel db galaxy).2 = none := by
  obtain ⟨hq, hc, _, hs⟩ := h
  have hquery : db.QueryStars galaxy.Id =
      .ok ⟨db.stars.filter (fun r => r.galaxy_id = some galaxy.Id), none⟩ := by
    simp [Store.QueryStars, Store.execute, hq, hc]
  exact galaxyStarChannel_success db galaxy _ hquery rfl
    (fun r hr => hs r (List.mem_filter.1 hr).1)

theorem expectedLog_length (db : Store) :
    (expectedLog db).length =
      2 * db.galaxyList.length + (db.galaxyList.map (fun g => (db.starList g).length)).sum := by
  unfold expectedLog
  generalize db.galaxyList = gs
  induction gs with
  | nil => simp
  | cons g rest ih =>
    simp only [List.flatMap_cons, List.length_append, List.map_cons, List.sum_cons,
      List.length_cons]
    rw [ih]
    simp only [expectedGalaxyLines, List.length_cons, List.length_append, List.length_map,
      List.length_nil]
    omega

/-- Every run of the pipeline on a store without failure that has returned
has written the expected lines, each as often as expected. -/
theorem pipeline_noFailure_log (db : Store) (h : db.NoFailure) (s : PipelineState)
    (hinv : PipelineInv db s) (hpc : s.pc = .returned) :
    (↑s.log : Multiset String) = ↑(expectedLog db) := by
  obtain ⟨done, rem, mainLog, I⟩ := hinv
  obtain ⟨_, hdone⟩ := pipelineInv_after_range db s done rem mainLog I (by simp [hpc, MainPc.stage])
  obtain ⟨_, hgs, hes⟩ := noFailure_galaxyChannel db h
  have hmain : mainLog = [] := by
    apply List.eq_nil_iff_forall_not_mem.2
    intro l hl
    obtain ⟨e, _, he | he⟩ := I.mainLog_lines l hl
    · obtain ⟨w, hw, hwpc⟩ := I.group_some e he
      have hwi := I.workers w hw
      simp only [WorkerInv, hwpc] at hwi
      rw [(noFailure_stars db h w.galaxy).2] at hwi
      simp at hwi
    · rw [hdone, hes] at he
      simp at he
  have hworkers : ∀ w ∈ s.workers, w.out.map Event.line =
      expectedGalaxyLines w.galaxy (db.starList w.galaxy) := by
    intro w hw
    have hr := I.waited (by simp [hpc, MainPc.stage]) w hw
    cases hwpc : w.pc with
    | returned r =>
      obtain ⟨_, hout⟩ := worker_returned_ok db w r (I.workers w hw) hwpc
        (noFailure_stars db h w.galaxy).2
      rw [hout, outComplete_lines, (noFailure_stars db h w.galaxy).1]
    | _ => simp [WorkerState.isReturned, hwpc] at hr
  rw [I.log, hmain,
    workerLines_eq s.workers (fun g => expectedGalaxyLines g (db.starList g)) hworkers,
    I.galaxies, hdone, hgs]
  simp [expectedLog]

theorem seedData_noFailure : seedData.NoFailure :=
  ⟨fun _ => rfl, fun _ => rfl, by decide, by decide⟩

theorem seedSchedule_run :
    (Pipeline.run seedData seedSchedule Pipeline.init).map (fun s => (s.pc, s.log)) =
      some (.returned, seedScheduleLog) := by
  decide

/-- Claim C2.  On a store in which no query and no decode fails, every run
of `Pipeline`, under every interleaving of its goroutines, makes at most
`pipelineFuel db Pipeline.init` transitions and can always make one more until
`Pipeline` has returned; and when it has returned, the log holds, as a
multiset, exactly the lines `Processing <UgcNumber> galaxy`,
`Star: <Name>, Galaxy: <Name>` for each star, and
`<n> stars processed for galaxy <Name>` of every galaxy, `2 k` lines plus one
per star.  For the seeded store these are the nine lines of the test. -/
theorem C2_pipeline_log_multiset (db : Store) (hdb : db.NoFailure) (sched : List Choice)
    (s : PipelineState) (hrun : Pipeline.run db sched Pipeline.init = some s) :
    sched.length ≤ pipelineFuel db Pipeline.init ∧
      (s.pc ≠ .returned → ∃ c, (Pipeline.step db c s).isSome = true) ∧
      (s.pc = .returned →
        (↑s.log : Multiset String) = ↑(expectedLog db) ∧
          s.log.length = 2 * db.galaxyList.length +
            (db.galaxyList.map (fun g => (db.starList g).length)).sum) ∧
      (seedData.NoFailure ∧ expectedLog seedData = testPipelineLines) := by
  obtain ⟨hinv, hlen⟩ := pipeline_reach db sched s hrun
  refine ⟨hlen, pipeline_progress db s hinv, ?_, seedData_noFailure, by decide⟩
  intro hpc
  have hlog := pipeline_noFailure_log db hdb s hinv hpc
  refine ⟨hlog, ?_⟩
  have hcard := congrArg Multiset.card hlog
  simp only [Multiset.coe_card] at hcard
  rw [hcard, expectedLog_length]

/-- Instance of C2: one interleaved run on the seeded store ends with the
nine lines of the test, in another order. -/
theorem C2_witness :
    ∃ s, Pipeline.run seedData seedSchedule Pipeline.init = some s ∧ s.pc = .returned ∧
      s.log = seedScheduleLog ∧ (↑s.log : Multiset String) = ↑testPipelineLines ∧
      s.log.length = 9 := by
  cases hs : Pipeline.run seedData seedSchedule Pipeline.init with
  | none =>
    have h := seedSchedule_run
    rw [hs] at h
    simp at h
  | some s =>
    have h := seedSchedule_run
    rw [hs] at h
    simp only [Option.map_some', Option.some.injEq, Prod.mk.injEq] at h
    have hC := C2_pipeline_log_multiset seedData seedData_noFailure seedSchedule s hs
    refine ⟨s, rfl, h.1, h.2, ?_, ?_⟩
    · rw [(hC.2.2.1 h.1).1, hC.2.2.2.2]
    · rw [h.2]; rfl

/-! ## The pipeline: failing workers -/

theorem firstFails_run :
    (Pipeline.run storeFirstFails firstFailsSchedule Pipeline.init).map
        (fun s => (s.pc, s.workers.map (fun w => w.pc), s.log)) =
      some (.returned, [.returned (some (.driver "stars query failed")), .returned none],
        firstFailsLog) := by
  decide

/-- Claim C9.  Let `B` be the galaxy number `i` delivered by `GalaxyChannel`,
and let the stars query for `B` succeed with rows that all decode and no
cursor error.  Whatever happens to the workers of the other galaxies, in
particular when `GalaxyStarChannel` fails for one of them, every run of
`Pipeline` is bounded and can always make one more transition until `Pipeline`
has returned; and when it has returned, the worker number `i` was started for
`B`, has returned nil, has called `ProcessStar` once for each star of `B` in
query order, has written the lines of a complete worker, and its summary line
`<n> stars processed for galaxy <B.Name>` is in the log. -/
theorem C9_failure_of_a_sibling_is_isolated (db : Store) (i : Nat) (B : Galaxy)
    (rows : Rows StarRow)
    (hB : (galaxiesSent (GalaxyChannel db))[i]? = some B)
    (hq : db.QueryStars B.Id = .ok rows) (hcursor : rows.err = none)
    (hrows : ∀ r ∈ rows.pending, (r.Scan default).2 = none)
    (sched : List Choice) (s : PipelineState)
    (hrun : Pipeline.run db sched Pipeline.init = some s) :
    sched.length ≤ pipelineFuel db Pipeline.init ∧
      (s.pc ≠ .returned → ∃ c, (Pipeline.step db c s).isSome = true) ∧
      (s.pc = .returned →
        ∃ w, s.workers[i]? = some w ∧ w.galaxy = B ∧ w.pc = .returned none ∧
          processStarCalls w.out = rows.pending.map (fun r => (B, (r.Scan default).1)) ∧
          w.out.map Event.line =
            expectedGalaxyLines B (rows.pending.map (fun r => (r.Scan default).1)) ∧
          (∀ l ∈ expectedGalaxyLines B (rows.pending.map (fun r => (r.Scan default).1)),
            l ∈ s.log) ∧
          (toString rows.pending.length ++ " stars processed for galaxy " ++ B.Name) ∈ s.log) := by
  obtain ⟨hinv, hlen⟩ := pipeline_reach db sched s hrun
  refine ⟨hlen, pipeline_progress db s hinv, ?_⟩
  intro hpc
  obtain ⟨done, rem, mainLog, I⟩ := hinv
  obtain ⟨_, hdone⟩ := pipelineInv_after_range db s done rem mainLog I (by simp [hpc, MainPc.stage])
  have hgal := I.galaxies
  rw [hdone] at hgal
  rw [← hgal, List.getElem?_map] at hB
  cases hw : s.workers[i]? with
  | none => simp [hw] at hB
  | some w =>
    simp only [hw, Option.map_some', Option.some.injEq] at hB
    have hmem : w ∈ s.workers := List.mem_iff_getElem?.2 ⟨i, hw⟩
    have hret := I.waited (by simp [hpc, MainPc.stage]) w hmem
    obtain ⟨hstars, hnone⟩ := galaxyStarChannel_success db B rows hq hcursor hrows
    cases hwpc : w.pc with
    | returned r =>
      obtain ⟨hr, hout⟩ := worker_returned_ok db w r (I.workers w hmem) hwpc
        (by rw [hB]; exact hnone)
      subst hr
      rw [hB, hstars] at hout
      have hlines : w.out.map Event.line =
          expectedGalaxyLines B (rows.pending.map (fun r => (r.Scan default).1)) := by
        rw [hout, outComplete_lines]
      have hin : ∀ l ∈ expectedGalaxyLines B (rows.pending.map (fun r => (r.Scan default).1)),
          l ∈ s.log := by
        intro l hl
        exact mem_log_of_worker db s done rem mainLog I w hmem l (by rw [hlines]; exact hl)
      refine ⟨w, rfl, hB, hwpc, ?_, hlines, hin, ?_⟩
      · rw [hout, processStarCalls_outComplete, List.map_map]
        rfl
      · apply hin
        simp [expectedGalaxyLines]
    | _ => simp [WorkerState.isReturned, hwpc] at hret

/-- Instance of C9: on the seeded store the stars query for the first
galaxy fails; the worker of the second galaxy still processes its three
stars and writes its summary line. -/
theorem C9_witness :
    ∃ s, Pipeline.run storeFirstFails firstFailsSchedule Pipeline.init = some s ∧
      s.pc = .returned ∧
      s.workers.map (fun w => w.pc) =
        [.returned (some (.driver "stars query failed")), .returned none] ∧
      s.log = firstFailsLog ∧
      (∃ w, s.workers[1]? = some w ∧ w.galaxy = andromeda ∧ w.pc = .returned none ∧
        (processStarCalls w.out).length = 3) ∧
      "3 stars processed for galaxy Andromeda" ∈ s.log := by
  cases hs : Pipeline.run storeFirstFails firstFailsSchedule Pipeline.init with
  | none =>
    have h := firstFails_run
    rw [hs] at h
    simp at h
  | some s =>
    have h := firstFails_run
    rw [hs] at h
    simp only [Option.map_some', Option.some.injEq, Prod.mk.injEq] at h
    have hC := C9_failure_of_a_sibling_is_isolated storeFirstFails 1 andromeda andromedaRows
      (by decide) rfl rfl (by decide) firstFailsSchedule s hs
    obtain ⟨w, hw, hg, hpc, hcalls, _, _, hsum⟩ := hC.2.2 h.1
    exact ⟨s, rfl, h.1, h.2.1, h.2.2, ⟨w, hw, hg, hpc, by rw [hcalls]; rfl⟩, hsum⟩

theorem bothFail_run :
    (Pipeline.run storeBothFail bothFailSchedule Pipeline.init).map
        (fun s => (s.pc, s.workers.map (fun w => w.pc))) =
      some (.checkErr (some (.driver "stars of 2 failed")),
        [.returned (some (.driver "stars of 1 failed")),
          .returned (some (.driver "stars of 2 failed"))]) := by
  decide

/-- Claim C10 fails as stated.  On a store where the stars queries of both
galaxies fail there is a run in which both workers return their error, and
the value `processAllGalaxies` returns is the error of the second worker
alone; the error of the first worker is not part of it, and `Pipeline` writes
no `Pipeline ...` line for it. -/
theorem C10_counterexample :
    (Pipeline.run storeBothFail bothFailSchedule Pipeline.init).map
        (fun s => (s.pc, s.workers.map (fun w => w.pc))) =
      some (.checkErr (some (.driver "stars of 2 failed")),
        [.returned (some (.driver "stars of 1 failed")),
          .returned (some (.driver "stars of 2 failed"))]) ∧
      (Pipeline.run storeBothFail (bothFailSchedule ++ [.main, .main]) Pipeline.init).map
        (fun s => (s.pc, s.log)) = some (.returned, bothFailLog) ∧
      pipelineLine (.driver "stars of 1 failed") ∉ bothFailLog ∧
      GoError.driver "stars of 2 failed" ≠ GoError.driver "stars of 1 failed" := by
  refine ⟨by decide, by decide, by decide, by decide⟩

/-! ## The error branch of a worker -/

theorem worker_errorPath_routine (db : Store) (m : Move) (w w' : WorkerState)
    (log log' : List String) (hinv : WorkerInv db w)
    (h : ProcessGalaxy.step db m w log = some (w', log'))
    (hdone : ∀ e, errorPath w.pc = some e → w.routine = some []) :
    ∀ e, errorPath w'.pc = some e → w'.routine = some [] := by
  unfold ProcessGalaxy.step at h
  split at h <;> (try simp only [Option.some.injEq, Prod.mk.injEq, WorkerState.emit] at h)
  case h_3 =>
    rename_i hpc hr
    obtain ⟨rfl, rfl⟩ := h
    simp only [WorkerInv, hpc] at hinv
    obtain ⟨_, _, h3⟩ := hinv
    rw [hr] at h3
    obtain ⟨_, _, hrest, _⟩ := routineAt_sendErr _ _ _ _ _ _ h3
    intro e _
    simp [hrest]
  case h_8 =>
    split at h
    · simp only [Option.some.injEq, Prod.mk.injEq] at h
      obtain ⟨rfl, rfl⟩ := h
      intro e he
      simp [errorPath] at he
    · simp at h
  case h_12 =>
    rename_i hr
    obtain ⟨rfl, rfl⟩ := h
    intro e he
    have := hdone e he
    rw [hr] at this
    simp at this
  case h_13 => simp at h
  all_goals
    rename_i hpc
    obtain ⟨rfl, rfl⟩ := h
    intro e he
    first
    | (simp [errorPath] at he; done)
    | exact hdone e (by simpa [errorPath, hpc] using he)

theorem worker_run_errorPath (db : Store) (sched : List Move) (s s' : WorkerState × List String)
    (hinv : WorkerInv db s.1) (h : ProcessGalaxy.run db sched s = some s')
    (hdone : ∀ e, errorPath s.1.pc = some e → s.1.routine = some []) :
    ∀ e, errorPath s'.1.pc = some e → s'.1.routine = some [] := by
  induction sched generalizing s with
  | nil =>
    simp only [ProcessGalaxy.run, Option.some.injEq] at h
    subst h
    exact hdone
  | cons m ms ih =>
    simp only [ProcessGalaxy.run] at h
    cases hstep : ProcessGalaxy.step db m s.1 s.2 with
    | none => simp [hstep] at h
    | some t =>
      rw [hstep] at h
      simp only [Option.some_bind] at h
      exact ih t (worker_step_inv db m s.1 t.1 s.2 t.2 hinv hstep) h
        (worker_errorPath_routine db m s.1 t.1 s.2 t.2 hinv hstep hdone)

/-- On the error branch only the worker itself moves, and it moves towards
its return. -/
theorem errorPath_step (db : Store) (m : Move) (w w' : WorkerState) (log log' : List String)
    (e : GoError) (hpath : errorPath w.pc = some e) (hroutine : w.routine = some [])
    (h : ProcessGalaxy.step db m w log = some (w', log')) :
    m = .thread ∧ errorPath w'.pc = some e ∧ w'.routine = some [] ∧
      workerRank w'.pc < workerRank w.pc ∧ w'.num_stars = w.num_stars ∧
      processStarCalls w'.out = processStarCalls w.out := by
  unfold ProcessGalaxy.step at h
  split at h <;> (try simp only [Option.some.injEq, Prod.mk.injEq, WorkerState.emit] at h)
  case h_8 =>
    rename_i hpc
    simp [errorPath, hpc] at hpath
  case h_13 => simp at h
  case h_3 =>
    rename_i hpc hr
    simp [errorPath, hpc] at hpath
  case h_7 =>
    rename_i hpc hr
    simp [errorPath, hpc] at hpath
  case h_12 =>
    rename_i hr
    rw [hr] at hroutine
    simp at hroutine
  all_goals
    rename_i hpc
    obtain ⟨rfl, rfl⟩ := h
    simp_all [errorPath, workerRank, processStarCalls_append, processStarCalls]

theorem errorPath_run (db : Store) (sched : List Move) (s s' : WorkerState × List String)
    (e : GoError) (hpath : errorPath s.1.pc = some e) (hroutine : s.1.routine = some [])
    (h : ProcessGalaxy.run db sched s = some s') :
    sched = List.replicate sched.length .thread ∧
      sched.length + workerRank s'.1.pc ≤ workerRank s.1.pc ∧
      s'.1.num_stars = s.1.num_stars ∧
      processStarCalls s'.1.out = processStarCalls s.1.out := by
  induction sched generalizing s with
  | nil =>
    simp only [ProcessGalaxy.run, Option.some.injEq] at h
    subst h
    simp
  | cons m ms ih =>
    simp only [ProcessGalaxy.run] at h
    cases hstep : ProcessGalaxy.step db m s.1 s.2 with
    | none => simp [hstep] at h
    | some t =>
      rw [hstep] at h
      simp only [Option.some_bind] at h
      obtain ⟨hm, hp, hr, hlt, hn, hc⟩ :=
        errorPath_step db m s.1 t.1 s.2 t.2 e hpath hroutine hstep
      obtain ⟨h1, h2, h3, h4⟩ := ih t hp hr h
      refine ⟨?_, ?_, h3.trans hn, h4.trans hc⟩
      · rw [List.length_cons, List.replicate_succ, hm, ← h1]
      · simp only [List.length_cons]
        omega

/-- Claim C11.  In every execution of `ProcessGalaxy(db, galaxy)`, at the moment
the `select` has received an error `e` from the worker's `error_channel`:
nothing was received from `star_channel` and `ProcessStar` was not called so
far; the worker then writes the line `ProcessGalaxy <e>\n`, writes the summary
line `0 stars processed for galaxy <Name>`, and returns `e`, without any call
of `ProcessStar`; and every continuation consists of at most three
transitions of the worker itself, so no receive from `star_channel` ever
takes place. -/
theorem C11_pending_error_skips_the_stars (db : Store) (galaxy : Galaxy) (sched : List Move)
    (w : WorkerState) (log : List String) (e : GoError)
    (hrun : ProcessGalaxy.run db sched (ProcessGalaxy.init galaxy, []) = some (w, log))
    (hfound : w.pc = .logErr e) :
    (w.num_stars = 0 ∧ processStarCalls w.out = [] ∧
        log = ["Processing " ++ galaxy.UgcNumber ++ " galaxy"]) ∧
      (∃ w', ProcessGalaxy.run db [.thread, .thread, .thread] (w, log) =
          some (w', ["Processing " ++ galaxy.UgcNumber ++ " galaxy",
            "ProcessGalaxy " ++ e.Error ++ "\\n",
            "0 stars processed for galaxy " ++ galaxy.Name]) ∧
        w'.pc = .returned (some e) ∧ w'.num_stars = 0 ∧ processStarCalls w'.out = []) ∧
      (∀ sched' s', ProcessGalaxy.run db sched' (w, log) = some s' →
        sched'.length ≤ 3 ∧ sched' = List.replicate sched'.length .thread ∧
          s'.1.num_stars = 0 ∧ processStarCalls s'.1.out = []) := by
  obtain ⟨hinv, hg, hlog, _⟩ := worker_run_facts db galaxy sched w log hrun
  have hroutine : w.routine = some [] :=
    worker_run_errorPath db sched (ProcessGalaxy.init galaxy, []) (w, log)
      (workerInv_init db galaxy) hrun (by simp [ProcessGalaxy.init, errorPath]) e
      (by simp [hfound, errorPath])
  have hw := hinv
  simp only [WorkerInv, hfound] at hw
  obtain ⟨_, _, hnum, hout⟩ := hw
  have hlog1 : log = ["Processing " ++ galaxy.UgcNumber ++ " galaxy"] := by
    rw [hlog, hout, hg]
    rfl
  refine ⟨⟨hnum, by simp [hout, processStarCalls], hlog1⟩, ?_, ?_⟩
  · refine ⟨{ w with pc := .returned (some e),
                      out := w.out ++ [.printf (errorLine e)] ++
                        [.printf (summaryLine w.num_stars w.galaxy)] }, ?_, rfl, hnum, ?_⟩
    · simp only [ProcessGalaxy.run, ProcessGalaxy.step, hfound, WorkerState.emit,
        Option.some_bind, Option.some.injEq, Prod.mk.injEq, true_and]
      rw [hlog1, hnum, hg]
      rfl
    · simp [hout, processStarCalls]
  · intro sched' s' hrun'
    obtain ⟨hthreads, hlen, hn, hc⟩ := errorPath_run db sched' (w, log) s' e
      (by simp [hfound, errorPath]) hroutine hrun'
    simp only [hfound, workerRank] at hlen
    refine ⟨by omega, hthreads, hn.trans hnum, ?_⟩
    rw [hc]
    simp [hout, processStarCalls]

theorem pendingError_run :
    (ProcessGalaxy.run storeFirstFails pendingErrorSchedule (ProcessGalaxy.init milkyWay, [])).map
        (fun s => (s.1.pc, s.2)) =
      some (.logErr (.driver "stars query failed"), ["Processing ugc_number1 galaxy"]) := by
  decide

/-- Instance of C11: on the store where the stars query of the first galaxy
fails, the worker finds the error pending, writes its two lines and returns
the error. -/
theorem C11_witness :
    ∃ w log, ProcessGalaxy.run storeFirstFails pendingErrorSchedule
        (ProcessGalaxy.init milkyWay, []) = some (w, log) ∧
      w.pc = .logErr (.driver "stars query failed") ∧
      ∃ w', ProcessGalaxy.run storeFirstFails [.thread, .thread, .thread] (w, log) =
          some (w', ["Processing ugc_number1 galaxy", "ProcessGalaxy stars query failed\\n",
            "0 stars processed for galaxy Milky Way"]) ∧
        w'.pc = .returned (some (.driver "stars query failed")) ∧ w'.num_stars = 0 ∧
        processStarCalls w'.out = [] := by
  cases hs : ProcessGalaxy.run storeFirstFails pendingErrorSchedule
      (ProcessGalaxy.init milkyWay, []) with
  | none =>
    have h := pendingError_run
    rw [hs] at h
    simp at h
  | some s =>
    obtain ⟨w, log⟩ := s
    have h := pendingError_run
    rw [hs] at h
    simp only [Option.map_some', Option.some.injEq, Prod.mk.injEq] at h
    have hC := C11_pending_error_skips_the_stars storeFirstFails milkyWay pendingErrorSchedule
      w log (.driver "stars query failed") hs h.1
    exact ⟨w, log, rfl, h.1, hC.2.1⟩

/-! ## The error channel of the pipeline -/

theorem galaxyLoop_error_last (rows : List GalaxyRow) (cursor : Option GoError)
    (front rest : List GalaxyOp) (e : GoError)
    (h : GalaxyChannel.loop rows cursor = front ++ GalaxyOp.sendError e :: rest) : rest = [] := by
  induction rows generalizing front with
  | nil =>
    cases cursor with
    | none =>
      simp only [GalaxyChannel.loop] at h
      exact absurd h (by simp)
    | some err =>
      simp only [GalaxyChannel.loop] at h
      have hlen := congrArg List.length h
      simp only [List.length_cons, List.length_nil, List.length_append] at hlen
      exact List.eq_nil_of_length_eq_zero (by omega)
  | cons r rows ih =>
    rcases hs : r.Scan default with ⟨g, _ | err⟩
    · simp only [GalaxyChannel.loop, hs] at h
      cases front with
      | nil => simp at h
      | cons op front' =>
        simp only [List.cons_append, List.cons.injEq] at h
        exact ih front' h.2
    · simp only [GalaxyChannel.loop, hs] at h
      have hlen := congrArg List.length h
      simp only [List.length_cons, List.length_nil, List.length_append] at hlen
      exact List.eq_nil_of_length_eq_zero (by omega)

/-- In `GalaxyChannel` a send on `error_channel` is followed by the return:
the next operations are the two deferred closes. -/
theorem galaxyChannel_error_then_return (db : Store) (front rest : List GalaxyOp) (e : GoError)
    (h : GalaxyChannel db = front ++ GalaxyOp.sendError e :: rest) :
    rest = [.closeError, .closeGalaxy] := by
  have key : ∀ body : List GalaxyOp,
      (∀ f r, body = f ++ GalaxyOp.sendError e :: r → r = []) →
      body ++ [GalaxyOp.closeError, GalaxyOp.closeGalaxy] = front ++ GalaxyOp.sendError e :: rest →
      rest = [.closeError, .closeGalaxy] := by
    intro body hbody heq
    rcases List.append_eq_append_iff.1 heq with ⟨a', h1, h2⟩ | ⟨c', h1, h2⟩
    · have hmem : GalaxyOp.sendError e ∈ [GalaxyOp.closeError, GalaxyOp.closeGalaxy] := by
        rw [h2]; simp
      simp at hmem
    · cases c' with
      | nil => simp at h2
      | cons x c'' =>
        simp only [List.cons_append, List.cons.injEq] at h2
        obtain ⟨rfl, h3⟩ := h2
        have := hbody front c'' h1
        subst this
        simpa using h3
  unfold GalaxyChannel at h
  cases hq : db.QueryGalaxies with
  | error err =>
    rw [hq] at h
    refine key [.sendError err] ?_ h
    intro f r hfr
    have hlen := congrArg List.length hfr
    simp only [List.length_cons, List.length_nil, List.length_append] at hlen
    exact List.eq_nil_of_length_eq_zero (by omega)
  | ok rows =>
    rw [hq] at h
    exact key _ (fun f r hfr => galaxyLoop_error_last rows.pending rows.err f r e hfr) h

/-- The send on `error_channel` finds room in the buffer. -/
theorem producer_send_enabled (db : Store) (s : PipelineState) (hinv : PipelineInv db s)
    (e : GoError) (rest : List GalaxyOp) (hp : s.producer = some (.sendError e :: rest)) :
    (Pipeline.step db .producer s).isSome = true := by
  obtain ⟨done, rem, mainLog, I⟩ := hinv
  have hprod := I.producer
  rw [hp] at hprod
  have hrem : rem = GalaxyOp.sendError e :: rest := by
    split at hprod
    · simp at hprod
    · exact (Option.some.inj hprod).symm
  subst hrem
  have hb : s.error_buffer = [] := by
    have h1 := (producer_first_error db done rest e I.ops).1
    have h2 := I.buffer_len
    rw [h1] at h2
    exact List.eq_nil_of_length_eq_zero (by simpa using h2)
  simp [Pipeline.step, hp, hb]

theorem pendingErrors_step (db : Store) (c : Choice) (s s' : PipelineState)
    (hinv : PipelineInv db s) (h : Pipeline.step db c s = some s') :
    startsErrorIteration c s + pendingErrors db s' = pendingErrors db s := by
  obtain ⟨done, rem, mainLog, I⟩ := hinv
  rcases s with ⟨pc, producer, gclosed, buffer, eclosed, workers, gerr, log⟩
  cases c with
  | main =>
    cases pc with
    | entry =>
      have hp : producer = none := by simpa using I.producer
      simp only [Pipeline.step, Option.some.injEq] at h
      subst h
      simp [startsErrorIteration, pendingErrors, hp]
    | rangeGalaxies =>
      simp only [Pipeline.step] at h
      split at h
      · simp only [Option.some.injEq] at h
        subst h
        simp [startsErrorIteration, pendingErrors]
      · simp at h
    | wait =>
      simp only [Pipeline.step] at h
      split at h
      · simp only [Option.some.injEq] at h
        subst h
        simp [startsErrorIteration, pendingErrors]
      · simp at h
    | checkErr r =>
      cases r <;>
      · simp only [Pipeline.step, Option.some.injEq] at h
        subst h
        simp [startsErrorIteration, pendingErrors]
    | rangeErrors =>
      simp only [Pipeline.step] at h
      split at h
      · simp only [Option.some.injEq] at h
        subst h
        simp only [startsErrorIteration, pendingErrors, List.length_cons]
        omega
      · split at h
        · simp only [Option.some.injEq] at h
          subst h
          simp [startsErrorIteration, pendingErrors]
        · simp at h
    | logError e =>
      simp only [Pipeline.step, Option.some.injEq] at h
      subst h
      simp [startsErrorIteration, pendingErrors]
    | returned => simp [Pipeline.step] at h
  | producer =>
    simp only [Pipeline.step] at h
    split at h
    · split at h
      · simp only [Option.some.injEq] at h
        subst h
        simp only [startsErrorIteration, pendingErrors, Option.getD_some, errorsSent,
          List.length_append, List.length_cons, List.length_nil]
        omega
      · simp at h
    · simp only [Option.some.injEq] at h
      subst h
      simp [startsErrorIteration, pendingErrors, errorsSent]
    · simp only [Option.some.injEq] at h
      subst h
      simp [startsErrorIteration, pendingErrors, errorsSent]
    · simp at h
  | deliver =>
    simp only [Pipeline.step] at h
    split at h
    · simp only [Option.some.injEq] at h
      subst h
      simp [startsErrorIteration, pendingErrors, errorsSent]
    · simp at h
  | worker i m =>
    simp only [Pipeline.step] at h
    cases hw : workers[i]? with
    | none => simp [hw] at h
    | some w =>
      simp only [hw] at h
      cases hstep : ProcessGalaxy.step db m w log with
      | none => simp [hstep] at h
      | some t =>
        simp only [hstep, Option.some.injEq] at h
        subst h
        simp [startsErrorIteration, pendingErrors]

theorem errorIterations_run (db : Store) (sched : List Choice) (s s' : PipelineState)
    (hinv : PipelineInv db s) (h : Pipeline.run db sched s = some s') :
    Pipeline.errorIterations db sched s + pendingErrors db s' = pendingErrors db s := by
  induction sched generalizing s with
  | nil =>
    simp only [Pipeline.run, Option.some.injEq] at h
    subst h
    simp [Pipeline.errorIterations]
  | cons c cs ih =>
    simp only [Pipeline.run] at h
    cases hstep : Pipeline.step db c s with
    | none => simp [hstep] at h
    | some t =>
      rw [hstep] at h
      have h1 := ih t (pipeline_step_inv db c s t hinv hstep) h
      have h2 := pendingErrors_step db c s t hinv hstep
      simp only [Pipeline.errorIterations, hstep]
      simp only [Option.some_bind] at h1
      omega

theorem nullSecond_run :
    (Pipeline.run storeNullSecond nullSecondSchedule Pipeline.init).map
        (fun s => (s.pc, s.galaxy_closed, s.log)) =
      some (.returned, true, nullSecondLog) := by
  decide

/-- Claim C12.  `GalaxyChannel` sends at most one value on `error_channel`,
and every such send is followed by the return (the next operations are the
two deferred closes).  Hence in every run of `Pipeline`, whose `error_channel`
has capacity 1: whenever the producer stands at its send of an error the
send is enabled; the run is bounded and can always make one more transition
until `Pipeline` has returned; `galaxy_channel` is closed once the loop over
it is left, and at the return both channels are closed and the producer has
finished; and the final loop over `error_channel` performs at most one
iteration, exactly one per error sent. -/
theorem C12_at_most_one_stream_error (db : Store) (sched : List Choice) (s : PipelineState)
    (hrun : Pipeline.run db sched Pipeline.init = some s) :
    (errorsSent (GalaxyChannel db)).length ≤ 1 ∧
      (∀ front e rest, GalaxyChannel db = front ++ GalaxyOp.sendError e :: rest →
        rest = [.closeError, .closeGalaxy]) ∧
      (∀ e rest, s.producer = some (.sendError e :: rest) →
        (Pipeline.step db .producer s).isSome = true) ∧
      sched.length ≤ pipelineFuel db Pipeline.init ∧
      (s.pc ≠ .returned → ∃ c, (Pipeline.step db c s).isSome = true) ∧
      (s.pc ≠ .entry → s.pc ≠ .rangeGalaxies → s.galaxy_closed = true) ∧
      (s.pc = .returned →
        s.galaxy_closed = true ∧ s.error_closed = true ∧ s.producer = some [] ∧
          Pipeline.errorIterations db sched Pipeline.init =
            (errorsSent (GalaxyChannel db)).length) ∧
      Pipeline.errorIterations db sched Pipeline.init ≤ 1 := by
  obtain ⟨hinv, hlen⟩ := pipeline_reach db sched s hrun
  have hle := galaxyChannel_errors_le_one db
  have hiter := errorIterations_run db sched Pipeline.init s (pipelineInv_init db) hrun
  have hinit : pendingErrors db Pipeline.init = (errorsSent (GalaxyChannel db)).length := by
    simp [pendingErrors, Pipeline.init]
  rw [hinit] at hiter
  refine ⟨hle, fun front e rest h => galaxyChannel_error_then_return db front rest e h,
    fun e rest hp => producer_send_enabled db s hinv e rest hp, hlen,
    pipeline_progress db s hinv, ?_, ?_, by omega⟩
  · intro h1 h2
    obtain ⟨done, rem, mainLog, I⟩ := hinv
    apply I.ranging
    cases hpc : s.pc <;> simp_all [MainPc.stage]
  · intro hpc
    obtain ⟨done, rem, mainLog, I⟩ := hinv
    have hst : 2 ≤ s.pc.stage := by simp [hpc, MainPc.stage]
    obtain ⟨hrem, _⟩ := pipelineInv_after_range db s done rem mainLog I hst
    have hg := I.ranging hst
    have he := I.error_closed.2 (producer_closeError_done db done rem I.ops (I.galaxy_closed.1 hg))
    have hp : s.producer = some [] := by
      have := I.producer
      simpa [hpc, hrem] using this
    refine ⟨hg, he, hp, ?_⟩
    have hpend : pendingErrors db s = 0 := by
      simp [pendingErrors, hp, I.returned_buffer hpc, errorsSent]
    omega

/-- Instance of C12: the second galaxy row does not decode; the producer
sends one error, closes both channels, and the final loop of `Pipeline`
iterates once. -/
theorem C12_witness :
    ∃ s, Pipeline.run storeNullSecond nullSecondSchedule Pipeline.init = some s ∧
      s.pc = .returned ∧ s.galaxy_closed = true ∧ s.log = nullSecondLog ∧
      errorsSent (GalaxyChannel storeNullSecond) = [.scan 1] ∧
      Pipeline.errorIterations storeNullSecond nullSecondSchedule Pipeline.init = 1 := by
  cases hs : Pipeline.run storeNullSecond nullSecondSchedule Pipeline.init with
  | none =>
    have h := nullSecond_run
    rw [hs] at h
    simp at h
  | some s =>
    have h := nullSecond_run
    rw [hs] at h
    simp only [Option.map_some', Option.some.injEq, Prod.mk.injEq] at h
    have hC := C12_at_most_one_stream_error storeNullSecond nullSecondSchedule s hs
    have herrs : errorsSent (GalaxyChannel storeNullSecond) = [.scan 1] := by decide
    refine ⟨s, rfl, h.1, h.2.1, h.2.2, herrs, ?_⟩
    rw [(hC.2.2.2.2.2.2.1 h.1).2.2.2, herrs]
    rfl

/-! ## The errors a run of the pipeline reports -/

theorem errgroupRecord_none (g : Option GoError) : errgroupRecord g none = g := by
  cases g <;> rfl

theorem errgroupRecord_assoc (g a b : Option GoError) :
    errgroupRecord (errgroupRecord g a) b = errgroupRecord g (errgroupRecord a b) := by
  cases g <;> cases a <;> rfl

/-- Each transition records in the group the error it hands over, if the
group holds none yet. -/
theorem group_err_step (db : Store) (c : Choice) (s s' : PipelineState)
    (h : Pipeline.step db c s = some s') :
    s'.group_err = errgroupRecord s.group_err (returnedError c s) := by
  rcases s with ⟨pc, producer, gclosed, buffer, eclosed, workers, gerr, log⟩
  cases c with
  | main =>
    simp only [returnedError, errgroupRecord_none]
    simp only [Pipeline.step] at h
    split at h
    · simp only [Option.some.injEq] at h; subst h; rfl
    · split at h
      · simp only [Option.some.injEq] at h; subst h; rfl
      · simp at h
    · split at h
      · simp only [Option.some.injEq] at h; subst h; rfl
      · simp at h
    · simp only [Option.some.injEq] at h; subst h; rfl
    · simp only [Option.some.injEq] at h; subst h; rfl
    · split at h
      · simp only [Option.some.injEq] at h; subst h; rfl
      · split at h
        · simp only [Option.some.injEq] at h; subst h; rfl
        · simp at h
    · simp only [Option.some.injEq] at h; subst h; rfl
    · simp at h
  | producer =>
    simp only [returnedError, errgroupRecord_none]
    simp only [Pipeline.step] at h
    split at h
    · split at h
      · simp only [Option.some.injEq] at h; subst h; rfl
      · simp at h
    · simp only [Option.some.injEq] at h; subst h; rfl
    · simp only [Option.some.injEq] at h; subst h; rfl
    · simp at h
  | deliver =>
    simp only [returnedError, errgroupRecord_none]
    simp only [Pipeline.step] at h
    split at h
    · simp only [Option.some.injEq] at h; subst h; rfl
    · simp at h
  | worker i m =>
    simp only [Pipeline.step] at h
    cases hw : workers[i]? with
    | none => simp [hw] at h
    | some w =>
      simp only [hw] at h
      cases hstep : ProcessGalaxy.step db m w log with
      | none => simp [hstep] at h
      | some t =>
        simp only [hstep, Option.some.injEq] at h
        subst h
        cases m <;> cases hpc : w.pc <;>
          simp [returnedError, hw, hpc, errgroupRecord_none]

/-- The error the group holds is the first error that is not nil among the
values the workers have returned. -/
theorem group_err_run (db : Store) (sched : List Choice) (s s' : PipelineState)
    (h : Pipeline.run db sched s = some s') :
    s'.group_err = errgroupRecord s.group_err (Pipeline.firstReturnedError db sched s) := by
  induction sched generalizing s with
  | nil =>
    simp only [Pipeline.run, Option.some.injEq] at h
    subst h
    simp [Pipeline.firstReturnedError, errgroupRecord_none]
  | cons c cs ih =>
    simp only [Pipeline.run] at h
    cases hstep : Pipeline.step db c s with
    | none => simp [hstep] at h
    | some t =>
      rw [hstep] at h
      simp only [Option.some_bind] at h
      rw [ih t h, group_err_step db c s t hstep, errgroupRecord_assoc]
      congr 1
      simp only [Pipeline.firstReturnedError, hstep]
      cases returnedError c s <;> rfl

theorem coe_map_append (f : GoError → String) (a b : List GoError) :
    (↑((a ++ b).map f) : Multiset String) = ↑(a.map f) + ↑(b.map f) := by
  rw [List.map_append, Multiset.coe_add]

/-- After `g.Wait()` a transition of a worker leaves the error of the group
as it is. -/
theorem worker_step_group_err (db : Store) (i : Nat) (m : Move) (s s' : PipelineState)
    (hinv : PipelineInv db s) (hst : 3 ≤ s.pc.stage)
    (h : Pipeline.step db (.worker i m) s = some s') : s'.group_err = s.group_err := by
  obtain ⟨done, rem, mainLog, I⟩ := hinv
  rw [group_err_step db _ s s' h]
  have hnone : returnedError (.worker i m) s = none := by
    cases m <;> simp only [returnedError]
    cases hw : s.workers[i]? with
    | none => rfl
    | some w =>
      have hr := I.waited hst w (List.mem_iff_getElem?.2 ⟨i, hw⟩)
      cases hpc : w.pc <;> simp_all [WorkerState.isReturned]
  rw [hnone, errgroupRecord_none]

theorem ownLinesInv_init (db : Store) : OwnLinesInv db Pipeline.init := by
  refine ⟨[], ?_, ?_⟩
  · simp [Pipeline.init, inFlight]
  · simp [Pipeline.init, workerLines, groupLogged, MainPc.stage]

theorem ownLines_step (db : Store) (c : Choice) (s s' : PipelineState)
    (hinv : PipelineInv db s) (hown : OwnLinesInv db s)
    (h : Pipeline.step db c s = some s') : OwnLinesInv db s' := by
  obtain ⟨drained, herrs, hlog⟩ := hown
  cases c with
  | worker i m =>
    have hg : groupLogged s' = groupLogged s := by
      have hpc : s'.pc = s.pc := by
        simp only [Pipeline.step] at h
        split at h
        · simp at h
        · split at h
          · simp at h
          · simp only [Option.some.injEq] at h
            subst h
            rfl
      unfold groupLogged
      rw [hpc]
      split
      · rename_i hst
        rw [worker_step_group_err db i m s s' hinv (by omega) h]
      · rfl
    simp only [Pipeline.step] at h
    cases hw : s.workers[i]? with
    | none => simp [hw] at h
    | some w =>
      simp only [hw] at h
      cases hstep : ProcessGalaxy.step db m w s.log with
      | none => simp [hstep] at h
      | some t =>
        obtain ⟨w', log'⟩ := t
        simp only [hstep, Option.some.injEq] at h
        obtain ⟨_, evs, hout, hlog'⟩ := worker_step_frame db m w w' s.log log' hstep
        refine ⟨drained, ?_, ?_⟩
        · rw [← h]
          exact herrs
        · rw [hg]
          rw [← h]
          simp only
          rw [workerLines_set s.workers i w w' evs hw hout, hlog', ← Multiset.coe_add, hlog]
          abel
  | deliver =>
    obtain ⟨done, rem, mainLog, I⟩ := hinv
    rcases s with ⟨pc, producer, gclosed, buffer, eclosed, workers, gerr, log⟩
    simp only [Pipeline.step] at h
    split at h
    · simp only [Option.some.injEq] at h
      subst h
      refine ⟨drained, ?_, ?_⟩
      · simpa [errorsSent, inFlight] using herrs
      · simp only [workerLines_append]
        simp only [groupLogged, MainPc.stage] at hlog ⊢
        rw [hlog]
        simp [ProcessGalaxy.init]
    · simp at h
  | producer =>
    rcases s with ⟨pc, producer, gclosed, buffer, eclosed, workers, gerr, log⟩
    simp only [Pipeline.step] at h
    split at h
    · split at h
      · simp only [Option.some.injEq] at h
        subst h
        refine ⟨drained, ?_, hlog⟩
        simpa [errorsSent] using herrs
      · simp at h
    · simp only [Option.some.injEq] at h
      subst h
      exact ⟨drained, by simpa [errorsSent] using herrs, hlog⟩
    · simp only [Option.some.injEq] at h
      subst h
      exact ⟨drained, by simpa [errorsSent] using herrs, hlog⟩
    · simp at h
  | main =>
    obtain ⟨done, rem, mainLog, I⟩ := hinv
    rcases s with ⟨pc, producer, gclosed, buffer, eclosed, workers, gerr, log⟩
    cases pc with
    | entry =>
      have hp : producer = none := by simpa using I.producer
      simp only [Pipeline.step, Option.some.injEq] at h
      subst h
      refine ⟨drained, ?_, ?_⟩
      · simpa [hp, inFlight] using herrs
      · simpa [groupLogged, MainPc.stage] using hlog
    | rangeGalaxies =>
      simp only [Pipeline.step] at h
      split at h
      · simp only [Option.some.injEq] at h
        subst h
        refine ⟨drained, ?_, ?_⟩
        · simpa [inFlight] using herrs
        · simpa [groupLogged, MainPc.stage] using hlog
      · simp at h
    | wait =>
      simp only [Pipeline.step] at h
      split at h
      · simp only [Option.some.injEq] at h
        subst h
        refine ⟨drained, ?_, ?_⟩
        · simpa [inFlight] using herrs
        · simpa [groupLogged, MainPc.stage] using hlog
      · simp at h
    | checkErr r =>
      have hr : r = gerr := I.check r rfl
      subst hr
      cases r with
      | none =>
        simp only [Pipeline.step, Option.some.injEq] at h
        subst h
        refine ⟨drained, ?_, ?_⟩
        · simpa [inFlight] using herrs
        · simpa [groupLogged, MainPc.stage] using hlog
      | some err =>
        simp only [Pipeline.step, Option.some.injEq] at h
        subst h
        refine ⟨drained, ?_, ?_⟩
        · simpa [inFlight] using herrs
        · simp only [groupLogged, MainPc.stage, Nat.reduceLeDiff, if_false, if_true,
            List.nil_append, Option.toList, le_refl] at hlog ⊢
          rw [← Multiset.coe_add, hlog, coe_map_append]
          simp only [List.map_cons, List.map_nil]
          abel
    | rangeErrors =>
      simp only [Pipeline.step] at h
      split at h
      · simp only [Option.some.injEq] at h
        subst h
        refine ⟨drained, ?_, ?_⟩
        · simpa [inFlight] using herrs
        · simpa [groupLogged, MainPc.stage] using hlog
      · split at h
        · simp only [Option.some.injEq] at h
          subst h
          refine ⟨drained, ?_, ?_⟩
          · simpa [inFlight] using herrs
          · simpa [groupLogged, MainPc.stage] using hlog
        · simp at h
    | logError err =>
      simp only [Pipeline.step, Option.some.injEq] at h
      subst h
      refine ⟨drained ++ [err], ?_, ?_⟩
      · simpa [inFlight] using herrs
      · simp only [groupLogged, MainPc.stage, le_refl, if_true] at hlog ⊢
        rw [← Multiset.coe_add, hlog, ← List.append_assoc, coe_map_append _ _ [err]]
        simp only [List.map_cons, List.map_nil]
        abel
    | returned => simp [Pipeline.step] at h

theorem ownLines_run (db : Store) (sched : List Choice) (s s' : PipelineState)
    (hinv : PipelineInv db s) (hown : OwnLinesInv db s)
    (h : Pipeline.run db sched s = some s') : OwnLinesInv db s' := by
  induction sched generalizing s with
  | nil =>
    simp only [Pipeline.run, Option.some.injEq] at h
    subst h
    exact hown
  | cons c cs ih =>
    simp only [Pipeline.run] at h
    cases hstep : Pipeline.step db c s with
    | none => simp [hstep] at h
    | some t =>
      rw [hstep] at h
      exact ih t (pipeline_step_inv db c s t hinv hstep) (ownLines_step db c s t hinv hown hstep) h

/-- Claim C10, amended.  In every run of `Pipeline`:
the value `processAllGalaxies` returns is the error held by the
`errgroup.Group`, which is nil when every worker returned nil and otherwise
the error one single worker returned; the error the group holds is the first
error that is not nil among the values the workers have returned, in the
order of their returns; every worker that returns an error has written it
to the log itself (`ProcessGalaxy <err>\n`) before it returns; at every moment
the log holds the lines of the workers and, besides them, only lines
`Pipeline <err>\n` for the error held by the group or for an error
`GalaxyChannel` sent on `error_channel`; and once `Pipeline` has returned, the
lines it has written itself are exactly one line for the error
`processAllGalaxies` returned, if it is not nil, and one line for each error
sent on `error_channel`, so none for the error of another worker. -/
theorem C10_first_worker_error_is_returned (db : Store) (sched : List Choice)
    (s : PipelineState) (hrun : Pipeline.run db sched Pipeline.init = some s) :
    (∀ r, s.pc = .checkErr r →
        r = s.group_err ∧
        (r = none → ∀ w ∈ s.workers, w.pc = .returned none) ∧
        (∀ e, r = some e → ∃ w ∈ s.workers, w.pc = .returned (some e))) ∧
      s.group_err = Pipeline.firstReturnedError db sched Pipeline.init ∧
      (∀ w ∈ s.workers, ∀ e, w.pc = .ret (some e) ∨ w.pc = .returned (some e) →
        errorLine e ∈ s.log) ∧
      (∃ own : List GoError,
        (↑s.log : Multiset String) = workerLines s.workers + ↑(own.map pipelineLine) ∧
          ∀ e ∈ own, s.group_err = some e ∨ e ∈ errorsSent (GalaxyChannel db)) ∧
      (s.pc = .returned →
        (∀ e, s.group_err = some e → pipelineLine e ∈ s.log) ∧
        (∀ e ∈ errorsSent (GalaxyChannel db), pipelineLine e ∈ s.log) ∧
        (↑s.log : Multiset String) = workerLines s.workers +
          ↑((s.group_err.toList ++ errorsSent (GalaxyChannel db)).map pipelineLine)) := by
  obtain ⟨hinv, _⟩ := pipeline_reach db sched s hrun
  have hown := ownLines_run db sched Pipeline.init s (pipelineInv_init db)
    (ownLinesInv_init db) hrun
  have hfirst := group_err_run db sched Pipeline.init s hrun
  obtain ⟨done, rem, mainLog, I⟩ := hinv
  obtain ⟨drained, herrs, hlog⟩ := hown
  refine ⟨?_, ?_, ?_, ?_, ?_⟩
  · intro r hpc
    have hr := I.check r hpc
    refine ⟨hr, ?_, ?_⟩
    · intro hnone w hw
      have hret := I.waited (by simp [hpc, MainPc.stage]) w hw
      cases hwpc : w.pc with
      | returned r' =>
        cases r' with
        | none => rfl
        | some e => exact absurd hwpc (I.group_none (by rw [← hr, hnone]) w hw e)
      | _ => simp [WorkerState.isReturned, hwpc] at hret
    · intro e he
      exact I.group_some e (by rw [← hr, he])
  · rw [hfirst]
    simp [Pipeline.init, errgroupRecord]
  · intro w hw e hwpc
    have hwi := I.workers w hw
    apply mem_log_of_worker db s done rem mainLog I w hw
    rcases hwpc with hwpc | hwpc
    · simp only [WorkerInv, hwpc] at hwi
      rw [hwi.2.2]
      simp [outFailed, Event.line]
    · simp only [WorkerInv, hwpc] at hwi
      rw [hwi.2.2]
      simp [outFailed, Event.line]
  · refine ⟨groupLogged s ++ drained, hlog, ?_⟩
    intro e he
    rcases List.mem_append.1 he with hg | hd
    · left
      unfold groupLogged at hg
      split at hg
      · simpa using hg
      · simp at hg
    · right
      rw [← herrs]
      simp [hd]
  · intro hpc
    refine ⟨?_, ?_, ?_⟩
    · intro e he
      exact mem_log_of_main db s done rem mainLog I _
        (I.group_logged (by simp [hpc, MainPc.stage]) e he)
    · intro e he
      obtain ⟨_, hdone⟩ :=
        pipelineInv_after_range db s done rem mainLog I (by simp [hpc, MainPc.stage])
      rw [← hdone] at he
      rcases I.errors e he with hb | hl | hm
      · rw [I.returned_buffer hpc] at hb
        simp at hb
      · rw [hpc] at hl
        simp at hl
      · exact mem_log_of_main db s done rem mainLog I _ hm
    · obtain ⟨hrem, _⟩ :=
        pipelineInv_after_range db s done rem mainLog I (by simp [hpc, MainPc.stage])
      have hp : s.producer = some [] := by
        have := I.producer
        simpa [hpc, hrem] using this
      have hd : drained = errorsSent (GalaxyChannel db) := by
        rw [← herrs]
        simp [hpc, inFlight, I.returned_buffer hpc, hp, errorsSent]
      rw [hlog, hd]
      simp [groupLogged, hpc, MainPc.stage]

theorem bothFail_first :
    Pipeline.firstReturnedError storeBothFail bothFailSchedule Pipeline.init =
      some (.driver "stars of 2 failed") := by
  decide

/-- Instance of C10 on the run in which both workers fail and the second
returns first: the value returned is the error of the second worker, the
first one recorded, and both workers have written their own error. -/
theorem C10_witness :
    ∃ s, Pipeline.run storeBothFail bothFailSchedule Pipeline.init = some s ∧
      s.pc = .checkErr (some (.driver "stars of 2 failed")) ∧
      s.group_err = some (.driver "stars of 2 failed") ∧
      (∃ w ∈ s.workers, w.pc = .returned (some (.driver "stars of 2 failed"))) ∧
      errorLine (.driver "stars of 1 failed") ∈ s.log ∧
      errorLine (.driver "stars of 2 failed") ∈ s.log := by
  cases hs : Pipeline.run storeBothFail bothFailSchedule Pipeline.init with
  | none =>
    have h := bothFail_run
    rw [hs] at h
    simp at h
  | some s =>
    have h := bothFail_run
    rw [hs] at h
    simp only [Option.map_some', Option.some.injEq, Prod.mk.injEq] at h
    have hC := C10_first_worker_error_is_returned storeBothFail bothFailSchedule s hs
    obtain ⟨_, _, hsome⟩ := hC.1 _ h.1
    have hg : s.group_err = some (.driver "stars of 2 failed") := by
      rw [hC.2.1, bothFail_first]
    have hpcs := h.2
    have h0 : ∃ w ∈ s.workers, w.pc = .returned (some (.driver "stars of 1 failed")) := by
      have hm : WorkerPc.returned (some (.driver "stars of 1 failed")) ∈
          s.workers.map (fun w => w.pc) := by
        rw [hpcs]; simp
      obtain ⟨w, hw, hwpc⟩ := List.mem_map.1 hm
      exact ⟨w, hw, hwpc⟩
    obtain ⟨w0, hw0, hpc0⟩ := h0
    obtain ⟨w1, hw1, hpc1⟩ := hsome _ rfl
    exact ⟨s, rfl, h.1, hg, ⟨w1, hw1, hpc1⟩, hC.2.2.1 w0 hw0 _ (Or.inr hpc0),
      hC.2.2.1 w1 hw1 _ (Or.inr hpc1)⟩

end StarCatalog
